import Mathlib

/-!
# Epson S1D13806 kdrive driver: shallow embedding and verified properties

Source files embedded here:
* hw/kdrive/epson/epson13806draw.c  (BitBLT engine wrapper, EXA copy hooks)
* hw/kdrive/epson/epson13806.c      (screen model, shadow copier selection, colormap)

Machine integers are natural numbers or integers with explicit truncation:
CARD8 / CARD16 / CARD32 stores reduce modulo 2^8 / 2^16 / 2^32.
-/

namespace Epson13806

/-! ## Machine integer helpers -/

/-- Value stored by an 8-bit register write (EPSON13806_REG). -/
def CARD8 (v : Int) : Nat := (v % 2 ^ 8).toNat

/-- Value stored by a 16-bit register write (EPSON13806_REG16). -/
def CARD16 (v : Int) : Nat := (v % 2 ^ 16).toNat

/-- Value of a C expression converted to a 32-bit unsigned integer (CARD32, unsigned int). -/
def CARD32 (v : Int) : Nat := (v % 2 ^ 32).toNat

/-! ## epson13806draw.c -/

/-- Functionality of BitBLT ROP register for Epson S1D13806 Graphics controller:
the table epson13806Rop, indexed by the X alu code (GXclear = 0 .. GXset = 15). -/
def epson13806Rop : List Nat :=
  [ 0x00,  -- GXclear
    0x08,  -- GXand
    0x04,  -- GXandReverse
    0x0C,  -- GXcopy
    0x02,  -- GXandInverted
    0x0A,  -- GXnoop
    0x06,  -- GXxor
    0x0E,  -- GXor
    0x01,  -- GXnor
    0x09,  -- GXequiv
    0x05,  -- GXinvert
    0x0D,  -- GXorReverse
    0x03,  -- GXcopyInverted
    0x0B,  -- GXorInverted
    0x07,  -- GXnand
    0x0F ] -- GXset

/-- Operation codes written to the BitBLT operation register. The numeric values live in
epson13806reg.h, which is not among the sources, so the codes are kept symbolic. -/
inductive BltOperation where
  | MOVEPOSROP
  | MOVENEGROP
  | SOLIDFILL
  deriving DecidableEq, Repr

/-- Modelled from the spec: the ACTIVE bit of BLT control register 0 (epson13806reg.h is not
among the sources); the bit latches both start and completion of a blit. -/
def EPSON13806_BLTCTRL0_ACTIVE : Nat := 0x80

/-- Register window of the BitBLT engine. The fields named after registers hold the value
last written. Reads of BLT control 0 are answered by the engine: busy is the number of further
reads that still observe ACTIVE, and latency is the number of reads a freshly started
operation stays active for. -/
structure Engine where
  BLTCTRL1 : Nat
  BLTROP : Nat
  BLTOPERATION : Option BltOperation
  BLTSRCSTART01 : Nat
  BLTSRCSTART2 : Nat
  BLTDSTSTART01 : Nat
  BLTDSTSTART2 : Nat
  BLTSTRIDE : Nat
  BLTWIDTH : Nat
  BLTHEIGHT : Nat
  BLTFGCOLOR : Nat
  BLTBGCOLOR : Nat
  busy : Nat
  latency : Nat
  deriving DecidableEq, Repr

/-- Write to BLT control register 0: setting ACTIVE starts the engine. -/
def writeBLTCTRL0 (e : Engine) (v : Nat) : Engine :=
  if v &&& EPSON13806_BLTCTRL0_ACTIVE ≠ 0 then { e with busy := e.latency } else e

/-- Read of BLT control register 0: returns the ACTIVE bit while the engine is busy; every
read lets the engine advance. -/
def readBLTCTRL0 (e : Engine) : Nat × Engine :=
  if e.busy = 0 then (0, e) else (EPSON13806_BLTCTRL0_ACTIVE, { e with busy := e.busy - 1 })

/-- The busy-wait loop of epsonWaitForHwBltDone, bounded by a number of polls. -/
def epsonWaitSpin : Nat → Engine → Engine
  | 0, e => e
  | n + 1, e =>
    let r := readBLTCTRL0 e
    if r.1 &&& EPSON13806_BLTCTRL0_ACTIVE ≠ 0 then epsonWaitSpin n r.2 else r.2

/-- Function epsonWaitForHwBltDone: spin on BLT control 0 until ACTIVE reads clear. The engine
clears ACTIVE after busy reads, so busy + 1 polls always reach the exit of the loop. -/
def epsonWaitForHwBltDone (e : Engine) : Engine :=
  epsonWaitSpin (e.busy + 1) e

/-- Modelled from the spec: the host pixmap as far as the adapter sees it. The drawable
fields bitsPerPixel and depth, the pitch returned by exaGetPixmapPitch and the offset (bytes
from memoryBase) returned by exaGetPixmapOffset; the pixmap and EXA code are not among the
sources. -/
structure Pixmap where
  bitsPerPixel : Nat
  depth : Nat
  pitch : Nat
  offset : Nat
  deriving DecidableEq, Repr

/-- Modelled from the spec: exaGetPixmapPitch, the pitch the pixmap offers. -/
def exaGetPixmapPitch (p : Pixmap) : Nat := p.pitch

/-- Modelled from the spec: exaGetPixmapOffset, the pixmap offset in bytes from memoryBase. -/
def exaGetPixmapOffset (p : Pixmap) : Nat := p.offset

/-- Modelled from the spec: FbFullMask, the mask with one bit per plane of the given depth
(fb.h is not among the sources). -/
def FbFullMask (depth : Nat) : Nat := (1 <<< depth) - 1

/-- Modelled from the spec: EXA_PM_IS_SOLID, true when the planemask selects all bits of the
drawable depth (exa.h is not among the sources). -/
def EXA_PM_IS_SOLID (depth pm : Nat) : Bool :=
  pm &&& FbFullMask depth == FbFullMask depth

/-- The EpsonExaPriv fields used by the copy hooks: byte stride, bytes per pixel, direction
flag and the pixmaps of the copy in flight (NULL is none). -/
structure AccelState where
  stride : Nat
  bpp : Nat
  negative_dir : Int
  pSrc : Option Pixmap
  pDst : Option Pixmap
  deriving DecidableEq, Repr

/-- Function epsonPrepareCopy: returns the Bool result together with the updated accelerator
state and register window. -/
def epsonPrepareCopy (e : Engine) (a : AccelState) (pSrc pDst : Pixmap)
    (xdir ydir : Int) (alu : Nat) (pm : Nat) : Bool × AccelState × Engine :=
  let bitsPerPixel := (a.bpp <<< 3) % 2 ^ 32
  if pSrc.bitsPerPixel ≠ bitsPerPixel ∨ pDst.bitsPerPixel ≠ bitsPerPixel then
    (false, a, e)
  else if ¬ (EXA_PM_IS_SOLID pDst.depth pm = true) then
    (false, a, e)
  else if exaGetPixmapPitch pSrc ≠ exaGetPixmapPitch pDst then
    (false, a, e)
  else
    let dir : Option Int :=
      if xdir < 0 ∧ ydir < 0 then some 1
      else if xdir > 0 ∧ ydir > 0 then some 0
      else none
    match dir with
    | none => (false, a, e)
    | some d =>
      let a1 : AccelState := { a with negative_dir := d, pSrc := some pSrc, pDst := some pDst }
      let e1 := epsonWaitForHwBltDone e
      let e2 : Engine := { e1 with BLTROP := CARD8 (epson13806Rop.getD alu 0) }
      (true, a1, e2)

/-- Function epsonCopy. The result is none when a cached pixmap pointer is NULL (the C code
would dereference it); pDst is only used to reach the private state. -/
def epsonCopy (e : Engine) (a : AccelState) (_pDst : Pixmap)
    (sx sy dx dy width height : Int) : Option Engine :=
  if width = 0 ∨ height = 0 then some e
  else
    match a.pSrc, a.pDst with
    | some pSrc, some pDst =>
      let stride : Int := a.stride
      let bpp : Int := a.bpp
      let src0 : Nat :=
        if a.negative_dir ≠ 0 then CARD32 ((sy + height - 1) * stride + bpp * (sx + width - 1))
        else CARD32 (sy * stride + bpp * sx)
      let dst0 : Nat :=
        if a.negative_dir ≠ 0 then CARD32 ((dy + height - 1) * stride + bpp * (dx + width - 1))
        else CARD32 (dy * stride + bpp * dx)
      let src_addr : Nat := CARD32 (src0 + exaGetPixmapOffset pSrc)
      let dst_addr : Nat := CARD32 (dst0 + exaGetPixmapOffset pDst)
      let e1 : Engine :=
        { e with
          BLTSTRIDE := CARD16 (a.stride >>> 1)
          BLTSRCSTART01 := CARD16 src_addr
          BLTSRCSTART2 := CARD8 (src_addr >>> 16)
          BLTDSTSTART01 := CARD16 dst_addr
          BLTDSTSTART2 := CARD8 (dst_addr >>> 16)
          BLTWIDTH := CARD16 (width - 1)
          BLTHEIGHT := CARD16 (height - 1)
          BLTOPERATION :=
            if a.negative_dir ≠ 0 then some BltOperation.MOVENEGROP
            else some BltOperation.MOVEPOSROP }
      let e2 := writeBLTCTRL0 e1 EPSON13806_BLTCTRL0_ACTIVE
      some (epsonWaitForHwBltDone e2)
    | _, _ => none

/-! ## epson13806.c -/

/-- Modelled from the spec: the lowbit macro of the server headers (misc.h is not among the
sources), which isolates the lowest set bit of a pixel mask: x & (~x + 1) on 32 bits. -/
def lowbit (x : Nat) : Nat := x &&& ((2 ^ 32 - 1 - x) + 1) % 2 ^ 32

/-- The while loop of epsonMakeContig. The first argument bounds the number of iterations;
low is halved on every iteration, so a bound of low itself is never exhausted before low
reaches 0 (where the loop stops anyway). -/
def epsonMakeContigLoop (others : Nat) : Nat → Nat → Nat → Nat
  | 0, _, orig => orig
  | fuel + 1, low, orig =>
    if low ≠ 0 ∧ others &&& low = 0 then
      epsonMakeContigLoop others fuel (low >>> 1) (orig ||| low)
    else orig

/-- Function epsonMakeContig. -/
def epsonMakeContig (orig others : Nat) : Nat :=
  let low := lowbit orig >>> 1
  epsonMakeContigLoop others low low orig

/-- A colour channel of the variable screen info (struct fb_bitfield). -/
structure fb_bitfield where
  offset : Nat
  length : Nat
  deriving DecidableEq, Repr

/-- The fields of the variable screen info (struct fb_var_screeninfo) the driver reads. -/
structure fb_var_screeninfo where
  xres : Nat
  yres : Nat
  bits_per_pixel : Nat
  red : fb_bitfield
  green : fb_bitfield
  blue : fb_bitfield
  deriving DecidableEq, Repr

/-- The macro Mask(o,l) of epsonScreenInitialize, stored into a 32-bit Pixel. Shifts are taken
exactly and the result is truncated to 32 bits, which agrees with C wherever C defines it. -/
def Mask (o l : Nat) : Nat := (((1 <<< l) - 1) <<< o) % 2 ^ 32

/-- The X visual class TrueColor (X.h). -/
def TrueColor : Nat := 4

/-- The visual description epsonScreenInitialize stores in the screen (fields of
KdScreenInfo and its fb member). -/
structure ScreenVisual where
  visuals : Nat
  redMask : Nat
  greenMask : Nat
  blueMask : Nat
  depth : Nat
  bitsPerPixel : Nat
  rate : Nat
  deriving DecidableEq, Repr

/-- The loop of epsonScreenInitialize that lowers depth while bit depth - 1 of allbits is
clear; the argument is the current value of depth. -/
def depthLoop (allbits : Nat) : Nat → Nat
  | 0 => 0
  | d + 1 => if allbits &&& (1 <<< d) = 0 then depthLoop allbits d else d + 1

/-- Function epsonScreenInitialize, up to its final call of epsonMapFramebuffer: the channel
masks, their gap filling, the depth and the refresh rate. -/
def epsonScreenInitialize (var : fb_var_screeninfo) : ScreenVisual :=
  let redMask := Mask var.red.offset var.red.length
  let greenMask := Mask var.green.offset var.green.length
  let blueMask := Mask var.blue.offset var.blue.length
  let redMask := epsonMakeContig redMask (greenMask ||| blueMask)
  let greenMask := epsonMakeContig greenMask (redMask ||| blueMask)
  let blueMask := epsonMakeContig blueMask (redMask ||| greenMask)
  let allbits := redMask ||| greenMask ||| blueMask
  let depth := depthLoop allbits 32
  { visuals := 1 <<< TrueColor
    redMask := redMask
    greenMask := greenMask
    blueMask := blueMask
    depth := depth
    bitsPerPixel := var.bits_per_pixel
    rate := 60 }

/-- A mask is a contiguous run of set bits: no clear bit lies between two set bits. -/
def Contiguous (m : Nat) : Prop :=
  ∀ i j k, i ≤ j → j ≤ k → m.testBit i = true → m.testBit k = true → m.testBit j = true

/-- Rotation bit RR_Rotate_0 of the RandR protocol header randr.h. -/
def RR_Rotate_0 : Nat := 1

/-- Rotation bit RR_Rotate_90 of the RandR protocol header randr.h. -/
def RR_Rotate_90 : Nat := 2

/-- Rotation bit RR_Rotate_180 of the RandR protocol header randr.h. -/
def RR_Rotate_180 : Nat := 4

/-- Rotation bit RR_Rotate_270 of the RandR protocol header randr.h. -/
def RR_Rotate_270 : Nat := 8

/-- The shadow update routines (copiers) epsonSetShadow chooses from; they belong to the
shadow library and are kept symbolic. -/
inductive ShadowUpdateProc where
  | shadowUpdatePacked
  | shadowUpdateRotatePacked
  | shadowUpdateRotate16
  | shadowUpdateRotate16_90
  | shadowUpdateRotate16_90YX
  | shadowUpdateRotate16_180
  | shadowUpdateRotate16_270
  | shadowUpdateRotate16_270YX
  deriving DecidableEq, Repr

/-- The shadow window routines; the driver only has epsonWindowLinear. -/
inductive ShadowWindowProc where
  | epsonWindowLinear
  deriving DecidableEq, Repr

/-- The update routine chosen in the body of epsonSetShadow from scrpriv->randr and
priv->var.bits_per_pixel; arm says whether the code is compiled with __arm__ defined, which
sets useYX = 1. -/
def epsonSetShadowUpdate (arm : Bool) (randr bits_per_pixel : Nat) : ShadowUpdateProc :=
  let useYX : Nat := if arm then 1 else 0
  if randr ≠ 0 then
    if bits_per_pixel = 16 then
      if randr = RR_Rotate_90 then
        if useYX ≠ 0 then ShadowUpdateProc.shadowUpdateRotate16_90YX
        else ShadowUpdateProc.shadowUpdateRotate16_90
      else if randr = RR_Rotate_180 then
        ShadowUpdateProc.shadowUpdateRotate16_180
      else if randr = RR_Rotate_270 then
        if useYX ≠ 0 then ShadowUpdateProc.shadowUpdateRotate16_270YX
        else ShadowUpdateProc.shadowUpdateRotate16_270
      else ShadowUpdateProc.shadowUpdateRotate16
    else ShadowUpdateProc.shadowUpdateRotatePacked
  else ShadowUpdateProc.shadowUpdatePacked

/-- Function epsonSetShadow: hands the chosen update and window routines to KdShadowSet (a
parameter, the shadow layer is not part of the driver) and returns its result. -/
def epsonSetShadow (KdShadowSet : Nat → ShadowUpdateProc → ShadowWindowProc → Bool)
    (arm : Bool) (randr bits_per_pixel : Nat) : Bool :=
  KdShadowSet randr (epsonSetShadowUpdate arm randr bits_per_pixel)
    ShadowWindowProc.epsonWindowLinear

/-- A colour change handed to epsonPutColors (xColorItem): pixel index and 16-bit
intensities. -/
structure xColorItem where
  pixel : Nat
  red : Nat
  green : Nat
  blue : Nat
  deriving DecidableEq, Repr

/-- The range named by a colormap ioctl (struct fb_cmap); its red, green and blue pointers
address the cached LUT at index start. -/
structure fb_cmap where
  start : Nat
  len : Nat
  deriving DecidableEq, Repr

/-- The colormap part of EpsonPriv: the cached LUT triple red, green, blue (256 entries
each, indexed by pixel) and the FBIOPUTCMAP requests issued on priv->fd so far, oldest
first. -/
structure EpsonPriv where
  red : Nat → Nat
  green : Nat → Nat
  blue : Nat → Nat
  putcmap : List fb_cmap

/-- Function epsonUpdateFbColormap: one FBIOPUTCMAP ioctl for the range minidx .. maxidx. -/
def epsonUpdateFbColormap (priv : EpsonPriv) (minidx maxidx : Int) : EpsonPriv :=
  { priv with
    putcmap := priv.putcmap ++ [{ start := CARD32 minidx, len := CARD32 (maxidx - minidx + 1) }] }

/-- The while loop of epsonPutColors over the n entries of pdefs, carrying priv, min, max. -/
def epsonPutColorsLoop : List xColorItem → EpsonPriv → Int → Int → EpsonPriv × Int × Int
  | [], priv, min, max => (priv, min, max)
  | d :: pdefs, priv, min, max =>
    let p : Nat := d.pixel
    let priv1 : EpsonPriv :=
      { priv with
        red := Function.update priv.red p d.red
        green := Function.update priv.green p d.green
        blue := Function.update priv.blue p d.blue }
    let min1 : Int := if (p : Int) < min then p else min
    let max1 : Int := if (p : Int) > max then p else max
    epsonPutColorsLoop pdefs priv1 min1 max1

/-- Function epsonPutColors. -/
def epsonPutColors (priv : EpsonPriv) (pdefs : List xColorItem) : EpsonPriv :=
  let r := epsonPutColorsLoop pdefs priv 256 0
  epsonUpdateFbColormap r.1 r.2.1 r.2.2

/-- Function epsonWaitMarker: waits for the engine; the marker is not used. -/
def epsonWaitMarker (e : Engine) (_marker : Int) : Engine :=
  epsonWaitForHwBltDone e

/-- Function epsonDoneCopy: forgets the pixmaps of the copy and marks the sync token of the
host (exaMarkSync, a host call without register access); the registers are not touched. -/
def epsonDoneCopy (e : Engine) (a : AccelState) : AccelState × Engine :=
  ({ a with pSrc := none, pDst := none }, e)

/-- Function epsonDrawEnable: waits for the engine, then marks the sync token of the host. -/
def epsonDrawEnable (e : Engine) : Engine :=
  epsonWaitForHwBltDone e

/-- Function epsonDrawInit. The arguments callocOk and exaDriverInitOk give the outcome of the
allocation of the private record and of the host call exaDriverInit; byteStride and
bitsPerPixel are the fields of screen->fb. The result is the Bool returned, the private
record stored in the screen (none when the function fails) and the register window: control
0 and 1, the stride, then the solid fill of 0x320 by 0x258 pixels at address 0 that clears
the frame buffer, started by the write of ACTIVE. -/
def epsonDrawInit (callocOk exaDriverInitOk : Bool) (e : Engine)
    (byteStride bitsPerPixel : Nat) : Bool × Option AccelState × Engine :=
  if ¬ (callocOk = true) then (false, none, e)
  else
    let exaPriv : AccelState :=
      { stride := byteStride, bpp := bitsPerPixel >>> 3, negative_dir := 0,
        pSrc := none, pDst := none }
    let addr : Nat := 0
    let e1 := writeBLTCTRL0 e 0x00
    let e2 : Engine :=
      { e1 with
        BLTCTRL1 := CARD8 0x01
        BLTSTRIDE := CARD16 (exaPriv.stride >>> 1)
        BLTDSTSTART01 := CARD16 addr
        BLTDSTSTART2 := CARD8 (addr >>> 16)
        BLTFGCOLOR := CARD16 0x0000
        BLTOPERATION := some BltOperation.SOLIDFILL
        BLTWIDTH := CARD16 (0x0320 - 1)
        BLTHEIGHT := CARD16 (0x0258 - 1) }
    let e3 := writeBLTCTRL0 e2 EPSON13806_BLTCTRL0_ACTIVE
    if ¬ (exaDriverInitOk = true) then (false, none, e3)
    else (true, some exaPriv, e3)

/-- The ioctl requests epsonDPMS can issue on the frame buffer device, with their argument. -/
inductive DpmsIoctl where
  | FBIOPUT_POWERMODE (mode : Int)
  | FBIOBLANK (arg : Int)
  deriving DecidableEq, Repr

/-- Function epsonDPMS as a step on the static variable oldmode (initially -1). Modelled from
the spec: both ioctl numbers FBIOPUT_POWERMODE and FBIOBLANK are defined (they come from the
kernel header, which is not among the sources), so both conditional blocks are compiled. The
argument ioctl tells for a request whether the device answers with a result >= 0. The result
is the Bool returned, the new value of oldmode and the requests issued, in order. -/
def epsonDPMS (ioctl : DpmsIoctl → Bool) (oldmode mode : Int) : Bool × Int × List DpmsIoctl :=
  if mode = oldmode then (true, oldmode, [])
  else if ioctl (DpmsIoctl.FBIOPUT_POWERMODE mode) = true then
    (true, mode, [DpmsIoctl.FBIOPUT_POWERMODE mode])
  else if ioctl (DpmsIoctl.FBIOBLANK (if mode ≠ 0 then mode + 1 else 0)) = true then
    (true, mode,
      [DpmsIoctl.FBIOPUT_POWERMODE mode, DpmsIoctl.FBIOBLANK (if mode ≠ 0 then mode + 1 else 0)])
  else
    (false, oldmode,
      [DpmsIoctl.FBIOPUT_POWERMODE mode, DpmsIoctl.FBIOBLANK (if mode ≠ 0 then mode + 1 else 0)])

/-- Visual type FB_VISUAL_DIRECTCOLOR of the kernel header linux/fb.h. -/
def FB_VISUAL_DIRECTCOLOR : Nat := 4

/-- The for loop of epsonEnable that writes the DirectColor ramp; the arguments are an
iteration bound, the loop variable i and priv, the result is priv and the value of i at the
end of the loop. The result is none where C has no defined result: a channel length of 0
divides by zero, and an index of 256 or more is past the end of the 256-entry LUT. A bound
of 257 is therefore never exhausted. -/
def epsonEnableRamp (var : fb_var_screeninfo) : Nat → Nat → EpsonPriv → Option (EpsonPriv × Nat)
  | 0, i, priv => some (priv, i)
  | fuel + 1, i, priv =>
    if i < 1 <<< var.red.length ∨ i < 1 <<< var.green.length ∨ i < 1 <<< var.blue.length then
      if (1 <<< var.red.length) - 1 = 0 ∨ (1 <<< var.green.length) - 1 = 0
          ∨ (1 <<< var.blue.length) - 1 = 0 then none
      else if 256 ≤ i then none
      else
        epsonEnableRamp var fuel (i + 1)
          { priv with
            red := Function.update priv.red i
              (CARD16 ((i * 65535 / ((1 <<< var.red.length) - 1) : Nat) : Int))
            green := Function.update priv.green i
              (CARD16 ((i * 65535 / ((1 <<< var.green.length) - 1) : Nat) : Int))
            blue := Function.update priv.blue i
              (CARD16 ((i * 65535 / ((1 <<< var.blue.length) - 1) : Nat) : Int)) }
    else some (priv, i)

/-- Function epsonEnable. The argument k is the result of the FBIOPUT_VSCREENINFO ioctl
(issued with the activate flags set in priv->var), visual is priv->fix.visual and var is
priv->var. The result is the Bool returned and priv, or none where the ramp loop has no
defined result. -/
def epsonEnable (k : Int) (visual : Nat) (var : fb_var_screeninfo) (priv : EpsonPriv) :
    Option (Bool × EpsonPriv) :=
  if k < 0 then some (false, priv)
  else if visual = FB_VISUAL_DIRECTCOLOR then
    match epsonEnableRamp var 257 0 priv with
    | none => none
    | some r => some (true, epsonUpdateFbColormap r.1 0 r.2)
  else some (true, priv)

/-- Modelled from the spec: the colormap of the frame buffer device behind FBIOPUTCMAP and
FBIOGETCMAP (the kernel is not part of the sources), a 256-entry LUT triple that stores what
put_cmap writes and returns it on get_cmap. -/
structure FbDevice where
  red : Nat → Nat
  green : Nat → Nat
  blue : Nat → Nat

/-- Modelled from the spec: the device serving a put_cmap request. The pointers of the
request address the cached LUT of priv at index start, so entry i of the range start ..
start + len - 1 is taken from the cache at i. A range that does not fit the 256 entries is
refused (none, the ioctl returns a negative value). -/
def FBIOPUTCMAP (dev : FbDevice) (priv : EpsonPriv) (c : fb_cmap) : Option FbDevice :=
  if c.start + c.len ≤ 256 then
    some
      { red := fun i => if c.start ≤ i ∧ i < c.start + c.len then priv.red i else dev.red i
        green := fun i => if c.start ≤ i ∧ i < c.start + c.len then priv.green i else dev.green i
        blue := fun i => if c.start ≤ i ∧ i < c.start + c.len then priv.blue i else dev.blue i }
  else none

/-- Modelled from the spec: the device serving a get_cmap request, which copies the entries
start .. start + len - 1 of the device into the cached LUT of priv; a range that does not fit
the 256 entries is refused (none). -/
def FBIOGETCMAP (dev : FbDevice) (priv : EpsonPriv) (c : fb_cmap) : Option EpsonPriv :=
  if c.start + c.len ≤ 256 then
    some
      { priv with
        red := fun i => if c.start ≤ i ∧ i < c.start + c.len then dev.red i else priv.red i
        green := fun i => if c.start ≤ i ∧ i < c.start + c.len then dev.green i else priv.green i
        blue := fun i => if c.start ≤ i ∧ i < c.start + c.len then dev.blue i else priv.blue i }
  else none

/-- The device after it has served the newest put_cmap request recorded in priv from the
cached LUT of priv; a refused request leaves the device as it was. -/
def deviceAfterPut (dev : FbDevice) (priv : EpsonPriv) : FbDevice :=
  match priv.putcmap.getLast? with
  | some c => (FBIOPUTCMAP dev priv c).getD dev
  | none => dev

/-- The for loop of epsonGetColors that finds the least and greatest pixel index. -/
def epsonGetColorsRange : List xColorItem → Int → Int → Int × Int
  | [], min, max => (min, max)
  | d :: pdefs, min, max =>
    let min1 : Int := if (d.pixel : Int) < min then d.pixel else min
    let max1 : Int := if (d.pixel : Int) > max then d.pixel else max
    epsonGetColorsRange pdefs min1 max1

/-- Function epsonGetColors: reads the range of the requested indices from the device into
the cached LUT and fills in the colours of pdefs from the cache; when the ioctl fails the
entries are returned as they came. -/
def epsonGetColors (dev : FbDevice) (priv : EpsonPriv) (pdefs : List xColorItem) :
    EpsonPriv × List xColorItem :=
  let r := epsonGetColorsRange pdefs 256 0
  let cmap : fb_cmap := { start := CARD32 r.1, len := CARD32 (r.2 - r.1 + 1) }
  match FBIOGETCMAP dev priv cmap with
  | none => (priv, pdefs)
  | some priv1 =>
    (priv1, pdefs.map fun d =>
      { d with red := priv1.red d.pixel, green := priv1.green d.pixel,
               blue := priv1.blue d.pixel })

/-- Reflection bit RR_Reflect_X of the RandR protocol header randr.h. -/
def RR_Reflect_X : Nat := 16

/-- Reflection bit RR_Reflect_Y of the RandR protocol header randr.h. -/
def RR_Reflect_Y : Nat := 32

/-- Mask RR_Rotate_All of the four rotation bits. -/
def RR_Rotate_All : Nat := RR_Rotate_0 ||| RR_Rotate_90 ||| RR_Rotate_180 ||| RR_Rotate_270

/-- Mask RR_Reflect_All of the two reflection bits. -/
def RR_Reflect_All : Nat := RR_Reflect_X ||| RR_Reflect_Y

/-- Modelled from the spec: KdAddRotation (kdrive.c is not among the sources), the
composition compose(base_rotation, requested): rotation bits multiply, wrapping past 270
degrees, and reflection bits add modulo 2. -/
def KdAddRotation (a b : Nat) : Nat :=
  let rotate := (a &&& RR_Rotate_All) * (b &&& RR_Rotate_All)
  let reflect := (a &&& RR_Reflect_All) ^^^ (b &&& RR_Reflect_All)
  let rotate := if rotate > RR_Rotate_270 then rotate / (RR_Rotate_270 * RR_Rotate_90) else rotate
  reflect ||| rotate

/-- The driver's per-screen record EpsonScrPriv: current rotation and shadow flag. -/
structure EpsonScrPriv where
  randr : Nat
  shadow : Bool
  deriving DecidableEq, Repr

/-- What screen->fb.frameBuffer points to. -/
inductive FrameBuffer where
  | null
  | physical
  | shadowBuffer
  deriving DecidableEq, Repr

/-- The fields of KdScreenInfo the RandR path uses: physical size, size in millimetres, base
rotation and the frame buffer description screen->fb. -/
structure KdScreenInfo where
  width : Nat
  height : Nat
  width_mm : Nat
  height_mm : Nat
  randr : Nat
  fb_depth : Nat
  fb_bitsPerPixel : Nat
  fb_byteStride : Nat
  fb_pixelStride : Nat
  fb_frameBuffer : FrameBuffer
  fb_shadow : Bool
  deriving DecidableEq, Repr

/-- The fields of the host screen pScreen the driver writes: logical size in pixels and in
millimetres. -/
structure ScreenRec where
  width : Nat
  height : Nat
  mmWidth : Nat
  mmHeight : Nat
  deriving DecidableEq, Repr

/-- The arguments of KdComputePointerMatrix, which determine the pointer matrix. -/
structure PointerMatrix where
  randr : Nat
  width : Nat
  height : Nat
  deriving DecidableEq, Repr

/-- The header of the screen pixmap as set by ModifyPixmapHeader. -/
structure PixmapHeader where
  width : Nat
  height : Nat
  depth : Nat
  bitsPerPixel : Nat
  devKind : Nat
  pPixData : FrameBuffer
  deriving DecidableEq, Repr

/-- The requested size of a RandR configuration (RRScreenSize). -/
structure RRScreenSize where
  width : Nat
  height : Nat
  deriving DecidableEq, Repr

/-- Everything epsonRandRSetConfig reads or writes: the kdrive screen, the driver record, the
host screen, the enabled flag of the screen, the update routine armed in the shadow layer,
the pointer matrix, the screen pixmap header, the rotation given to the subpixel order, the
variable screen info priv->var and priv->fix.line_length. -/
structure RandRState where
  screen : KdScreenInfo
  scrpriv : EpsonScrPriv
  pScreen : ScreenRec
  enabled : Bool
  copier : Option ShadowUpdateProc
  pointerMatrix : PointerMatrix
  screenPixmap : PixmapHeader
  subpixelRandr : Nat
  var : fb_var_screeninfo
  line_length : Nat
  deriving DecidableEq, Repr

/-- Modelled from the spec: KdShadowFbFree releases the shadow surface if there is one. -/
def KdShadowFbFree (screen : KdScreenInfo) : KdScreenInfo :=
  if screen.fb_shadow = true then
    { screen with fb_frameBuffer := FrameBuffer.null, fb_shadow := false }
  else screen

/-- Modelled from the spec: KdShadowFbAlloc allocates a shadow surface sized to the logical
orientation (width and height swapped when rotate is set), with scanlines padded to 32 bits;
ok is the outcome of the allocation, and on failure the screen is left as it was. -/
def KdShadowFbAlloc (ok : Bool) (screen : KdScreenInfo) (rotate : Bool) : Bool × KdScreenInfo :=
  let width := if rotate = true then screen.height else screen.width
  let paddedWidth := ((width * screen.fb_bitsPerPixel + 31) >>> 5) * 4
  if ok = true then
    (true, { screen with
              fb_shadow := true
              fb_frameBuffer := FrameBuffer.shadowBuffer
              fb_byteStride := paddedWidth
              fb_pixelStride := paddedWidth * 8 / screen.fb_bitsPerPixel })
  else (false, screen)

/-- Modelled from the spec: KdDisableScreen. -/
def KdDisableScreen (st : RandRState) : RandRState := { st with enabled := false }

/-- Modelled from the spec: KdEnableScreen, the re-enable step. -/
def KdEnableScreen (st : RandRState) : RandRState := { st with enabled := true }

/-- Modelled from the spec: KdShadowUnset removes the armed update routine. -/
def KdShadowUnset (st : RandRState) : RandRState := { st with copier := none }

/-- Function epsonUnmapFramebuffer. -/
def epsonUnmapFramebuffer (st : RandRState) : Bool × RandRState :=
  (true, { st with screen := KdShadowFbFree st.screen })

/-- Function epsonMapFramebuffer; allocOk is the outcome of the allocation inside
KdShadowFbAlloc. -/
def epsonMapFramebuffer (allocOk : Bool) (st : RandRState) : Bool × RandRState :=
  let scrpriv : EpsonScrPriv :=
    { st.scrpriv with shadow := if st.scrpriv.randr ≠ RR_Rotate_0 then true else false }
  let m : PointerMatrix :=
    { randr := scrpriv.randr, width := st.screen.width, height := st.screen.height }
  let screen : KdScreenInfo := { st.screen with width := st.var.xres, height := st.var.yres }
  if scrpriv.shadow = true then
    let r := KdShadowFbAlloc allocOk screen
      (if scrpriv.randr &&& (RR_Rotate_90 ||| RR_Rotate_270) ≠ 0 then true else false)
    if ¬ (r.1 = true) then
      (false, { st with scrpriv := scrpriv, pointerMatrix := m, screen := r.2 })
    else
      (true, { st with scrpriv := scrpriv, pointerMatrix := m, screen := r.2 })
  else
    (true, { st with
              scrpriv := scrpriv
              pointerMatrix := m
              screen :=
                { screen with
                  fb_byteStride := st.line_length
                  fb_pixelStride := st.line_length * 8 / st.var.bits_per_pixel
                  fb_frameBuffer := FrameBuffer.physical } })

/-- Function epsonSetScreenSizes. -/
def epsonSetScreenSizes (st : RandRState) : RandRState :=
  if st.scrpriv.randr &&& (RR_Rotate_0 ||| RR_Rotate_180) ≠ 0 then
    { st with pScreen :=
        { width := st.var.xres, height := st.var.yres,
          mmWidth := st.screen.width_mm, mmHeight := st.screen.height_mm } }
  else
    { st with pScreen :=
        { width := st.var.yres, height := st.var.xres,
          mmWidth := st.screen.height_mm, mmHeight := st.screen.width_mm } }

/-- Function epsonSetShadow on the state: the routine chosen by epsonSetShadowUpdate is
handed to KdShadowSet; when that succeeds it is the armed update routine, otherwise none is
armed. -/
def epsonSetShadowOn (KdShadowSet : Nat → ShadowUpdateProc → ShadowWindowProc → Bool)
    (arm : Bool) (st : RandRState) : Bool × RandRState :=
  if epsonSetShadow KdShadowSet arm st.scrpriv.randr st.var.bits_per_pixel = true then
    (true, { st with
              copier := some (epsonSetShadowUpdate arm st.scrpriv.randr st.var.bits_per_pixel) })
  else (false, { st with copier := none })

/-- The rollback block bail4 of epsonRandRSetConfig. -/
def epsonRandRSetConfig_bail4 (allocOk : Bool) (st : RandRState) (oldscr : EpsonScrPriv)
    (oldwidth oldheight oldmmwidth oldmmheight : Nat) (wasEnabled : Bool) :
    Bool × RandRState :=
  let st1 := (epsonUnmapFramebuffer st).2
  let st2 : RandRState := { st1 with scrpriv := oldscr }
  let st3 := (epsonMapFramebuffer allocOk st2).2
  let st4 : RandRState :=
    { st3 with pScreen :=
        { width := oldwidth, height := oldheight,
          mmWidth := oldmmwidth, mmHeight := oldmmheight } }
  let st5 := if wasEnabled = true then KdEnableScreen st4 else st4
  (false, st5)

/-- Function epsonRandRSetConfig. The arguments allocOk and rollbackAllocOk give the outcome
of the shadow allocation in the new configuration and in the rollback, KdShadowSet is the
shadow layer and arm the compile-time switch __arm__; rate and pSize are the remaining
arguments of the call (the sizes computed from pSize are not used by the code). -/
def epsonRandRSetConfig (arm allocOk rollbackAllocOk : Bool)
    (KdShadowSet : Nat → ShadowUpdateProc → ShadowWindowProc → Bool)
    (st : RandRState) (randr : Nat) (_rate : Int) (_pSize : RRScreenSize) :
    Bool × RandRState :=
  let wasEnabled := st.enabled
  let st0 := if wasEnabled = true then KdDisableScreen st else st
  let oldscr := st0.scrpriv
  let oldwidth := st0.screen.width
  let oldheight := st0.screen.height
  let oldmmwidth := st0.pScreen.mmWidth
  let oldmmheight := st0.pScreen.mmHeight
  let st1 : RandRState :=
    { st0 with scrpriv := { st0.scrpriv with randr := KdAddRotation st0.screen.randr randr } }
  let st2 := (epsonUnmapFramebuffer st1).2
  let m := epsonMapFramebuffer allocOk st2
  if ¬ (m.1 = true) then
    epsonRandRSetConfig_bail4 rollbackAllocOk m.2 oldscr oldwidth oldheight oldmmwidth
      oldmmheight wasEnabled
  else
    let st3 := KdShadowUnset m.2
    let s := epsonSetShadowOn KdShadowSet arm st3
    if ¬ (s.1 = true) then
      epsonRandRSetConfig_bail4 rollbackAllocOk s.2 oldscr oldwidth oldheight oldmmwidth
        oldmmheight wasEnabled
    else
      let st4 := epsonSetScreenSizes s.2
      let st5 : RandRState :=
        { st4 with screenPixmap :=
            { width := st4.pScreen.width, height := st4.pScreen.height,
              depth := st4.screen.fb_depth, bitsPerPixel := st4.screen.fb_bitsPerPixel,
              devKind := st4.screen.fb_byteStride, pPixData := st4.screen.fb_frameBuffer } }
      let st6 : RandRState := { st5 with subpixelRandr := st5.scrpriv.randr }
      let st7 := if wasEnabled = true then KdEnableScreen st6 else st6
      (true, st7)

/-- The part of the screen state the RandR round trip is about: logical width and height,
size in millimetres, shadow flag and armed update routine. -/
def semanticState (st : RandRState) : Nat × Nat × Nat × Nat × Bool × Option ShadowUpdateProc :=
  (st.pScreen.width, st.pScreen.height, st.pScreen.mmWidth, st.pScreen.mmHeight,
    st.scrpriv.shadow, st.copier)

/-- The inverse of a rotation: 90 and 270 degrees are swapped, 0 and 180 are their own
inverse. -/
def inverseRotation (r : Nat) : Nat :=
  if r = RR_Rotate_90 then RR_Rotate_270
  else if r = RR_Rotate_270 then RR_Rotate_90
  else r

/-- A concrete starting state for the examples: an unrotated, enabled 800 by 600 panel at 16
bits per pixel, 270 by 203 mm, without shadow, the frame buffer mapped directly, and the
update routine that epsonSetShadow arms for RR_Rotate_0 on a build without __arm__. -/
def bootState : RandRState :=
  { screen :=
      { width := 800, height := 600, width_mm := 270, height_mm := 203, randr := RR_Rotate_0,
        fb_depth := 16, fb_bitsPerPixel := 16, fb_byteStride := 1600, fb_pixelStride := 800,
        fb_frameBuffer := FrameBuffer.physical, fb_shadow := false }
    scrpriv := { randr := RR_Rotate_0, shadow := false }
    pScreen := { width := 800, height := 600, mmWidth := 270, mmHeight := 203 }
    enabled := true
    copier := some (epsonSetShadowUpdate false RR_Rotate_0 16)
    pointerMatrix := { randr := RR_Rotate_0, width := 800, height := 600 }
    screenPixmap :=
      { width := 800, height := 600, depth := 16, bitsPerPixel := 16, devKind := 1600,
        pPixData := FrameBuffer.physical }
    subpixelRandr := RR_Rotate_0
    var := ⟨800, 600, 16, ⟨11, 5⟩, ⟨5, 6⟩, ⟨0, 5⟩⟩
    line_length := 1600 }

/-! ## Theorems -/

/-- The planemask test of EXA_PM_IS_SOLID holds exactly when every bit below the
depth is selected. -/
theorem EXA_PM_IS_SOLID_iff (depth pm : Nat) :
    EXA_PM_IS_SOLID depth pm = true ↔ ∀ i, i < depth → pm.testBit i = true := by
  unfold EXA_PM_IS_SOLID FbFullMask
  rw [Nat.one_shiftLeft, beq_iff_eq]
  constructor
  · intro h i hi
    have h1 := congrArg (fun x => Nat.testBit x i) h
    simp only [Nat.testBit_and, Nat.testBit_two_pow_sub_one] at h1
    simpa [hi] using h1
  · intro h
    apply Nat.eq_of_testBit_eq
    intro i
    rw [Nat.testBit_and, Nat.testBit_two_pow_sub_one]
    by_cases hi : i < depth
    · simp [hi, h i hi]
    · simp [hi]

/-- The Bool result of epsonPrepareCopy, read off the chain of early returns. -/
theorem epsonPrepareCopy_result (e : Engine) (a : AccelState) (pSrc pDst : Pixmap)
    (xdir ydir : Int) (alu pm : Nat) :
    (epsonPrepareCopy e a pSrc pDst xdir ydir alu pm).1 = true ↔
      (pSrc.bitsPerPixel = (a.bpp <<< 3) % 2 ^ 32 ∧ pDst.bitsPerPixel = (a.bpp <<< 3) % 2 ^ 32
        ∧ EXA_PM_IS_SOLID pDst.depth pm = true
        ∧ pSrc.pitch = pDst.pitch
        ∧ ((xdir < 0 ∧ ydir < 0) ∨ (xdir > 0 ∧ ydir > 0))) := by
  unfold epsonPrepareCopy exaGetPixmapPitch
  generalize (a.bpp <<< 3) % 2 ^ 32 = B
  by_cases h1 : pSrc.bitsPerPixel = B
  · by_cases h2 : pDst.bitsPerPixel = B
    · by_cases h3 : EXA_PM_IS_SOLID pDst.depth pm = true
      · by_cases h4 : pSrc.pitch = pDst.pitch
        · by_cases h5 : xdir < 0 ∧ ydir < 0
          · simp [h1, h2, h3, h4, h5]
          · by_cases h6 : xdir > 0 ∧ ydir > 0
            · simp [h1, h2, h3, h4, h5, h6]
            · simp [h1, h2, h3, h4, h5, h6]
        · simp [h1, h2, h3, h4]
      · simp [h1, h2, h3]
    · simp [h1, h2]
  · simp [h1]

/-- C1: epsonPrepareCopy returns TRUE exactly when source and destination bitsPerPixel both
equal 8 * AccelState.bpp, the planemask selects every bit of the destination depth, the two
pitches are equal, and xdir, ydir are both positive or both negative; every other direction
pair (mixed signs, or a zero xdir or ydir) returns FALSE. The bound on bpp says that bpp << 3
fits an unsigned int, as it does for the bpp = bitsPerPixel >> 3 stored by epsonDrawInit. -/
theorem epsonPrepareCopy_accepts_iff (e : Engine) (a : AccelState) (pSrc pDst : Pixmap)
    (xdir ydir : Int) (alu pm : Nat) (hbpp : a.bpp < 2 ^ 29) :
    ((epsonPrepareCopy e a pSrc pDst xdir ydir alu pm).1 = true ↔
      (pSrc.bitsPerPixel = 8 * a.bpp ∧ pDst.bitsPerPixel = 8 * a.bpp
        ∧ (∀ i, i < pDst.depth → pm.testBit i = true)
        ∧ exaGetPixmapPitch pSrc = exaGetPixmapPitch pDst
        ∧ ((0 < xdir ∧ 0 < ydir) ∨ (xdir < 0 ∧ ydir < 0))))
    ∧ (¬ ((0 < xdir ∧ 0 < ydir) ∨ (xdir < 0 ∧ ydir < 0)) →
        (epsonPrepareCopy e a pSrc pDst xdir ydir alu pm).1 = false) := by
  have hsh : (a.bpp <<< 3) % 2 ^ 32 = 8 * a.bpp := by
    rw [Nat.shiftLeft_eq]
    omega
  have key := epsonPrepareCopy_result e a pSrc pDst xdir ydir alu pm
  rw [hsh, EXA_PM_IS_SOLID_iff] at key
  have key2 : (epsonPrepareCopy e a pSrc pDst xdir ydir alu pm).1 = true ↔
      (pSrc.bitsPerPixel = 8 * a.bpp ∧ pDst.bitsPerPixel = 8 * a.bpp
        ∧ (∀ i, i < pDst.depth → pm.testBit i = true)
        ∧ exaGetPixmapPitch pSrc = exaGetPixmapPitch pDst
        ∧ ((0 < xdir ∧ 0 < ydir) ∨ (xdir < 0 ∧ ydir < 0))) := by
    rw [key]
    unfold exaGetPixmapPitch
    constructor
    · rintro ⟨h1, h2, h3, h4, h5⟩
      exact ⟨h1, h2, h3, h4, h5.symm⟩
    · rintro ⟨h1, h2, h3, h4, h5⟩
      exact ⟨h1, h2, h3, h4, h5.symm⟩
  refine ⟨key2, ?_⟩
  intro hdir
  cases hres : (epsonPrepareCopy e a pSrc pDst xdir ydir alu pm).1 with
  | false => rfl
  | true => exact absurd (key2.mp hres).2.2.2.2 hdir

/-- C1 witness: a 16-bpp accelerator (bpp = 2), two 16-bpp pixmaps of pitch 1600, planemask
0xFFFF: xdir = ydir = 1 is accepted, and xdir = -1, ydir = 1 is refused. -/
theorem epsonPrepareCopy_accepts_iff_witness :
    (2 : Nat) < 2 ^ 29
    ∧ (epsonPrepareCopy ⟨0, 0, none, 0, 0, 0, 0, 0, 0, 0, 0, 0, 3, 5⟩ ⟨1600, 2, 0, none, none⟩
        ⟨16, 16, 1600, 0⟩ ⟨16, 16, 1600, 480000⟩ 1 1 3 0xFFFF).1 = true
    ∧ (epsonPrepareCopy ⟨0, 0, none, 0, 0, 0, 0, 0, 0, 0, 0, 0, 3, 5⟩ ⟨1600, 2, 0, none, none⟩
        ⟨16, 16, 1600, 0⟩ ⟨16, 16, 1600, 480000⟩ (-1) 1 3 0xFFFF).1 = false :=
  ⟨by decide, by decide,
    (epsonPrepareCopy_accepts_iff ⟨0, 0, none, 0, 0, 0, 0, 0, 0, 0, 0, 0, 3, 5⟩
      ⟨1600, 2, 0, none, none⟩ ⟨16, 16, 1600, 0⟩ ⟨16, 16, 1600, 480000⟩ (-1) 1 3 0xFFFF
      (by decide)).2 (by decide)⟩

/-- Given enough polls the wait loop returns the registers as written, with the engine
idle. -/
theorem epsonWaitSpin_eq (n : Nat) (e : Engine) (h : e.busy < n) :
    epsonWaitSpin n e = { e with busy := 0 } := by
  induction n generalizing e with
  | zero => omega
  | succ n ih =>
    unfold epsonWaitSpin readBLTCTRL0
    by_cases hb : e.busy = 0
    · cases e
      simp only at hb
      simp [hb]
    · simp only [hb, if_false]
      have : EPSON13806_BLTCTRL0_ACTIVE &&& EPSON13806_BLTCTRL0_ACTIVE ≠ 0 := by decide
      simp only [this, ne_eq, not_false_eq_true, if_true]
      rw [ih]
      show e.busy - 1 < n
      omega

/-- Waiting for the engine leaves every register as written and the engine idle. -/
theorem epsonWaitForHwBltDone_eq (e : Engine) :
    epsonWaitForHwBltDone e = { e with busy := 0 } :=
  epsonWaitSpin_eq (e.busy + 1) e (Nat.lt_succ_self _)

/-- What an accepted epsonPrepareCopy leaves in the accelerator state. -/
theorem epsonPrepareCopy_state (e e1 : Engine) (a a1 : AccelState) (pSrc pDst : Pixmap)
    (xdir ydir : Int) (alu pm : Nat)
    (h : epsonPrepareCopy e a pSrc pDst xdir ydir alu pm = (true, a1, e1)) :
    a1.pSrc = some pSrc ∧ a1.pDst = some pDst ∧ a1.stride = a.stride ∧ a1.bpp = a.bpp
      ∧ ((xdir < 0 ∧ ydir < 0 ∧ a1.negative_dir = 1)
          ∨ (xdir > 0 ∧ ydir > 0 ∧ a1.negative_dir = 0)) := by
  unfold epsonPrepareCopy at h
  generalize (a.bpp <<< 3) % 2 ^ 32 = B at h
  by_cases h1 : pSrc.bitsPerPixel ≠ B ∨ pDst.bitsPerPixel ≠ B
  · simp [h1] at h
  · by_cases h3 : EXA_PM_IS_SOLID pDst.depth pm = true
    · by_cases h4 : exaGetPixmapPitch pSrc = exaGetPixmapPitch pDst
      · by_cases h5 : xdir < 0 ∧ ydir < 0
        · simp [h1, h3, h4, h5] at h
          obtain ⟨ha, _⟩ := h
          subst ha
          exact ⟨rfl, rfl, rfl, rfl, Or.inl ⟨h5.1, h5.2, rfl⟩⟩
        · by_cases h6 : xdir > 0 ∧ ydir > 0
          · simp [h1, h3, h4, h5, h6] at h
            obtain ⟨ha, _⟩ := h
            subst ha
            exact ⟨rfl, rfl, rfl, rfl, Or.inr ⟨h6.1, h6.2, rfl⟩⟩
          · simp [h1, h3, h4, h5, h6] at h
      · simp [h1, h3, h4] at h
    · simp [h1, h3] at h

/-- Recombining the low 16 bits and the next 8 bits of an address gives the address
modulo 2^24. -/
theorem start_split (A : Nat) :
    (CARD8 ((A >>> 16 : Nat) : Int)) <<< 16 ||| CARD16 (A : Int) = A % 2 ^ 24 := by
  have h16 : CARD16 (A : Int) = A % 65536 := by
    unfold CARD16
    omega
  have h8 : CARD8 ((A >>> 16 : Nat) : Int) = A / 65536 % 256 := by
    unfold CARD8
    rw [Nat.shiftRight_eq_div_pow]
    omega
  rw [h16, h8, Nat.shiftLeft_eq, Nat.mul_comm _ (2 ^ 16),
    ← Nat.mul_add_lt_is_or (by omega : A % 65536 < 2 ^ 16)]
  omega

/-- C2 counterexample: the width register does not receive w - 1 for every w >= 1. The
register is written with a 16-bit store, so after an accepted PrepareCopy a copy of width
65537 and height 1 leaves 0 in the width register, not 65536. -/
theorem epsonCopy_width_register_wraps :
    ¬ (∀ (e e1 : Engine) (a a1 : AccelState) (pSrc pDst pArg : Pixmap) (xdir ydir : Int)
        (alu pm : Nat) (sx sy dx dy w h : Int),
        epsonPrepareCopy e a pSrc pDst xdir ydir alu pm = (true, a1, e1) → 1 ≤ w → 1 ≤ h →
          ∃ r, epsonCopy e1 a1 pArg sx sy dx dy w h = some r
            ∧ (r.BLTWIDTH : Int) = w - 1 ∧ (r.BLTHEIGHT : Int) = h - 1) := by
  intro hall
  obtain ⟨r, hr, hwd, _⟩ :=
    hall ⟨0, 0, none, 0, 0, 0, 0, 0, 0, 0, 0, 0, 3, 5⟩
      ⟨0, 12, none, 0, 0, 0, 0, 0, 0, 0, 0, 0, 0, 5⟩ ⟨1600, 2, 0, none, none⟩
      ⟨1600, 2, 0, some ⟨16, 16, 1600, 0⟩, some ⟨16, 16, 1600, 0⟩⟩
      ⟨16, 16, 1600, 0⟩ ⟨16, 16, 1600, 0⟩ ⟨16, 16, 1600, 0⟩ 1 1 3 0xFFFF 0 0 0 0 65537 1
      (by decide) (by decide) (by decide)
  have hc : epsonCopy ⟨0, 12, none, 0, 0, 0, 0, 0, 0, 0, 0, 0, 0, 5⟩
      ⟨1600, 2, 0, some ⟨16, 16, 1600, 0⟩, some ⟨16, 16, 1600, 0⟩⟩ ⟨16, 16, 1600, 0⟩
      0 0 0 0 65537 1
      = some ⟨0, 12, some BltOperation.MOVEPOSROP, 0, 0, 0, 0, 800, 0, 0, 0, 0, 0, 5⟩ := by
    decide
  rw [hc] at hr
  injection hr with hr
  subst hr
  revert hwd
  decide

/-- C2 (amended): after an accepted epsonPrepareCopy, epsonCopy with 1 <= w <= 65536 and
1 <= h <= 65536 (the range of the 16-bit width and height registers) programs
width = w - 1 and height = h - 1;
in the positive direction the source and destination start registers hold
sy*stride + bpp*sx and dy*stride + bpp*dx, in the negative direction
(sy+h-1)*stride + bpp*(sx+w-1) and (dy+h-1)*stride + bpp*(dx+w-1), each plus the memory
offset of its pixmap, split so that (START2 << 16) | START01 is the address modulo 2^24; the
operation register holds MOVENEGROP exactly when the direction flag is negative (which is
when xdir and ydir were negative) and MOVEPOSROP otherwise. -/
theorem epsonCopy_programs_blit (e e1 : Engine) (a a1 : AccelState) (pSrc pDst pArg : Pixmap)
    (xdir ydir : Int) (alu pm : Nat) (sx sy dx dy w h : Int)
    (hprep : epsonPrepareCopy e a pSrc pDst xdir ydir alu pm = (true, a1, e1))
    (hw : 1 ≤ w) (hw2 : w ≤ 65536) (hh : 1 ≤ h) (hh2 : h ≤ 65536) :
    ∃ r, epsonCopy e1 a1 pArg sx sy dx dy w h = some r
      ∧ (r.BLTWIDTH : Int) = w - 1 ∧ (r.BLTHEIGHT : Int) = h - 1
      ∧ (a1.negative_dir ≠ 0 ↔ (xdir < 0 ∧ ydir < 0))
      ∧ (a1.negative_dir = 0 →
          ((r.BLTSRCSTART2 <<< 16 ||| r.BLTSRCSTART01 : Nat) : Int)
              = (sy * a.stride + a.bpp * sx + exaGetPixmapOffset pSrc) % 2 ^ 24
          ∧ ((r.BLTDSTSTART2 <<< 16 ||| r.BLTDSTSTART01 : Nat) : Int)
              = (dy * a.stride + a.bpp * dx + exaGetPixmapOffset pDst) % 2 ^ 24
          ∧ r.BLTOPERATION = some BltOperation.MOVEPOSROP)
      ∧ (a1.negative_dir ≠ 0 →
          ((r.BLTSRCSTART2 <<< 16 ||| r.BLTSRCSTART01 : Nat) : Int)
              = ((sy + h - 1) * a.stride + a.bpp * (sx + w - 1)
                  + exaGetPixmapOffset pSrc) % 2 ^ 24
          ∧ ((r.BLTDSTSTART2 <<< 16 ||| r.BLTDSTSTART01 : Nat) : Int)
              = ((dy + h - 1) * a.stride + a.bpp * (dx + w - 1)
                  + exaGetPixmapOffset pDst) % 2 ^ 24
          ∧ r.BLTOPERATION = some BltOperation.MOVENEGROP) := by
  obtain ⟨hs, hd, hstride, hbpp, hdir⟩ :=
    epsonPrepareCopy_state e e1 a a1 pSrc pDst xdir ydir alu pm hprep
  have hw0 : ¬ (w = 0 ∨ h = 0) := by omega
  have hdirflag : a1.negative_dir ≠ 0 ↔ (xdir < 0 ∧ ydir < 0) := by
    rcases hdir with ⟨hx, hy, hn⟩ | ⟨hx, hy, hn⟩
    · rw [hn]
      exact ⟨fun _ => ⟨hx, hy⟩, fun _ => by decide⟩
    · rw [hn]
      constructor
      · intro hne
        exact absurd rfl hne
      · intro hneg
        omega
  have hadd : ∀ (x : Int) (o : Nat),
      ((CARD32 (((CARD32 x : Nat) : Int) + (o : Int)) : Nat) : Int) % 2 ^ 24
        = (x + o) % 2 ^ 24 := by
    intro x o
    unfold CARD32
    omega
  have hsplit : ∀ (x : Int) (o : Nat),
      (((CARD8 ((CARD32 (((CARD32 x : Nat) : Int) + (o : Int)) >>> 16 : Nat) : Int)) <<< 16
          ||| CARD16 ((CARD32 (((CARD32 x : Nat) : Int) + (o : Int)) : Nat) : Int) : Nat) : Int)
        = (x + o) % 2 ^ 24 := by
    intro x o
    rw [start_split, ← hadd x o]
    push_cast
    rfl
  unfold epsonCopy
  rw [if_neg hw0, hs, hd]
  simp only [epsonWaitForHwBltDone_eq, writeBLTCTRL0, hstride, hbpp]
  refine ⟨_, rfl, ?_, ?_, hdirflag, ?_, ?_⟩
  · show ((CARD16 (w - 1) : Nat) : Int) = w - 1
    unfold CARD16
    omega
  · show ((CARD16 (h - 1) : Nat) : Int) = h - 1
    unfold CARD16
    omega
  · intro hz
    have hz2 : ¬ (a1.negative_dir ≠ 0) := fun hne => hne hz
    refine ⟨?_, ?_, ?_⟩
    · simp only [hz2, if_false]
      split
      · exact hsplit _ _
      · exact hsplit _ _
    · simp only [hz2, if_false]
      split
      · exact hsplit _ _
      · exact hsplit _ _
    · simp only [hz2, if_false]
      split <;> rfl
  · intro hnz
    refine ⟨?_, ?_, ?_⟩
    · simp only [hnz, if_true]
      split
      · exact hsplit _ _
      · exact hsplit _ _
    · simp only [hnz, if_true]
      split
      · exact hsplit _ _
      · exact hsplit _ _
    · simp only [hnz, if_true]
      split <;> rfl

/-- C2 witness: stride 1600, bpp 2, both pixmaps at offset 0, accepted PrepareCopy with
xdir = ydir = 1; Copy(0,0,0,10,100,50) programs SRC = 0, DST = 16000, W = 99, H = 49 and
MOVEPOSROP. -/
theorem epsonCopy_programs_blit_witness :
    epsonPrepareCopy ⟨0, 0, none, 0, 0, 0, 0, 0, 0, 0, 0, 0, 3, 5⟩ ⟨1600, 2, 0, none, none⟩
        ⟨16, 16, 1600, 0⟩ ⟨16, 16, 1600, 0⟩ 1 1 3 0xFFFF
      = (true, ⟨1600, 2, 0, some ⟨16, 16, 1600, 0⟩, some ⟨16, 16, 1600, 0⟩⟩,
          ⟨0, 12, none, 0, 0, 0, 0, 0, 0, 0, 0, 0, 0, 5⟩)
    ∧ ∃ r, epsonCopy ⟨0, 12, none, 0, 0, 0, 0, 0, 0, 0, 0, 0, 0, 5⟩
          ⟨1600, 2, 0, some ⟨16, 16, 1600, 0⟩, some ⟨16, 16, 1600, 0⟩⟩ ⟨16, 16, 1600, 0⟩
          0 0 0 10 100 50 = some r
        ∧ r.BLTWIDTH = 99 ∧ r.BLTHEIGHT = 49
        ∧ r.BLTSRCSTART2 <<< 16 ||| r.BLTSRCSTART01 = 0
        ∧ r.BLTDSTSTART2 <<< 16 ||| r.BLTDSTSTART01 = 16000
        ∧ r.BLTOPERATION = some BltOperation.MOVEPOSROP := by
  refine ⟨by decide, ?_⟩
  obtain ⟨r, hr, hwd, hht, _, hpos, _⟩ :=
    epsonCopy_programs_blit ⟨0, 0, none, 0, 0, 0, 0, 0, 0, 0, 0, 0, 3, 5⟩
      ⟨0, 12, none, 0, 0, 0, 0, 0, 0, 0, 0, 0, 0, 5⟩ ⟨1600, 2, 0, none, none⟩
      ⟨1600, 2, 0, some ⟨16, 16, 1600, 0⟩, some ⟨16, 16, 1600, 0⟩⟩
      ⟨16, 16, 1600, 0⟩ ⟨16, 16, 1600, 0⟩ ⟨16, 16, 1600, 0⟩ 1 1 3 0xFFFF 0 0 0 10 100 50
      (by decide) (by decide) (by decide) (by decide) (by decide)
  obtain ⟨hsrc, hdst, hop⟩ := hpos rfl
  norm_num [exaGetPixmapOffset] at hsrc hdst hwd hht
  refine ⟨r, hr, ?_, ?_, ?_, ?_, hop⟩
  · exact_mod_cast hwd
  · exact_mod_cast hht
  · exact_mod_cast hsrc
  · exact_mod_cast hdst

/-- C4: the table epson13806Rop equals, index for index (alu 0..15: clear, and, andReverse,
copy, andInverted, noop, xor, or, nor, equiv, invert, orReverse, copyInverted, orInverted,
nand, set), the list 0x0, 0x8, 0x4, 0xC, 0x2, 0xA, 0x6, 0xE, 0x1, 0x9, 0x5, 0xD, 0x3, 0xB,
0x7, 0xF, and it is a permutation of the sixteen codes 0x0 .. 0xF. -/
theorem epson13806Rop_table :
    epson13806Rop
        = [0x0, 0x8, 0x4, 0xC, 0x2, 0xA, 0x6, 0xE, 0x1, 0x9, 0x5, 0xD, 0x3, 0xB, 0x7, 0xF]
    ∧ epson13806Rop.length = 16
    ∧ List.Perm epson13806Rop (List.range 16) := by
  refine ⟨rfl, rfl, ?_⟩
  decide

/-! ### Bit-level facts about lowbit and epsonMakeContig -/

/-- Masking with a single bit tests that bit. -/
theorem and_two_pow_eq_zero (x k : Nat) : x &&& 2 ^ k = 0 ↔ x.testBit k = false := by
  constructor
  · intro h
    have h1 := congrArg (fun y => Nat.testBit y k) h
    simpa [Nat.testBit_and, Nat.testBit_two_pow_self] using h1
  · intro h
    apply Nat.eq_of_testBit_eq
    intro i
    rw [Nat.testBit_and, Nat.testBit_two_pow, Nat.zero_testBit]
    by_cases hki : k = i
    · subst hki
      simp [h]
    · simp [hki]

/-- Every non-zero mask has a lowest set bit. -/
theorem exists_lowest_bit (x : Nat) (hx : x ≠ 0) :
    ∃ k, x.testBit k = true ∧ ∀ j, j < k → x.testBit j = false := by
  classical
  have hex : ∃ i, x.testBit i = true := Nat.ne_zero_implies_bit_true hx
  refine ⟨Nat.find hex, Nat.find_spec hex, ?_⟩
  intro j hj
  have := Nat.find_min hex hj
  simpa using this

/-- A mask whose lowest set bit is k is 2^k plus a multiple of 2^(k+1). -/
theorem lowest_bit_decomp (x k : Nat) (hk : x.testBit k = true)
    (hlow : ∀ j, j < k → x.testBit j = false) :
    x = 2 ^ (k + 1) * (x / 2 ^ (k + 1)) + 2 ^ k := by
  have hmod : x % 2 ^ (k + 1) = 2 ^ k := by
    apply Nat.eq_of_testBit_eq
    intro i
    rw [Nat.testBit_mod_two_pow, Nat.testBit_two_pow]
    rcases Nat.lt_trichotomy i k with h | h | h
    · have h1 : i < k + 1 := by omega
      have h2 : ¬ k = i := by omega
      simp [h1, h2, hlow i h]
    · subst h
      simp [hk]
    · have h1 : ¬ i < k + 1 := by omega
      have h2 : ¬ k = i := by omega
      simp [h1, h2]
  have := Nat.div_add_mod x (2 ^ (k + 1))
  rw [hmod] at this
  exact this.symm

/-- The lowbit macro returns the lowest set bit of a non-zero 32-bit mask. -/
theorem lowbit_eq (x k : Nat) (hx : x < 2 ^ 32) (hk : x.testBit k = true)
    (hlow : ∀ j, j < k → x.testBit j = false) : lowbit x = 2 ^ k := by
  have hk32 : k < 32 := by
    by_contra hge
    have h1 : 2 ^ 32 ≤ 2 ^ k := Nat.pow_le_pow_right (by decide) (by omega)
    have h2 := Nat.testBit_implies_ge hk
    omega
  have hpos : 0 < x := by
    have := Nat.testBit_implies_ge hk
    have : 0 < 2 ^ k := Nat.pos_pow_of_pos k (by decide)
    omega
  have hpk : 0 < 2 ^ k := Nat.pos_pow_of_pos k (by decide)
  have hb1 : 2 ^ k < 2 ^ (k + 1) := Nat.pow_lt_pow_right (by decide) (by omega)
  have hb2 : 2 ^ k - 1 < 2 ^ (k + 1) := by omega
  have hneg : ((2 ^ 32 - 1 - x) + 1) % 2 ^ 32 = 2 ^ 32 - ((x - 1) + 1) := by omega
  have hx1 : x - 1 < 2 ^ 32 := by omega
  unfold lowbit
  rw [hneg]
  apply Nat.eq_of_testBit_eq
  intro i
  rw [Nat.testBit_and, Nat.testBit_two_pow_sub_succ hx1, Nat.testBit_two_pow]
  obtain ⟨m, hm⟩ : ∃ m, x = 2 ^ (k + 1) * m + 2 ^ k := ⟨_, lowest_bit_decomp x k hk hlow⟩
  have hdec1 : x - 1 = 2 ^ (k + 1) * m + (2 ^ k - 1) := by omega
  rw [hdec1, hm, Nat.testBit_mul_pow_two_add _ hb1, Nat.testBit_mul_pow_two_add _ hb2]
  by_cases hi : i < k + 1
  · simp only [hi, if_true, Nat.testBit_two_pow, Nat.testBit_two_pow_sub_one]
    by_cases hki : k = i
    · subst hki
      simp [hk32]
    · have : i < k := by omega
      simp [hki, this]
  · have hki : ¬ k = i := by omega
    simp only [hi, if_false, hki, decide_False]
    cases m.testBit (i - (k + 1)) <;> simp

/-- The lowbit macro returns 0 for the empty mask. -/
theorem lowbit_zero : lowbit 0 = 0 := by
  unfold lowbit
  exact Nat.zero_and _

/-- Once low is 0 the loop of epsonMakeContig returns its accumulator. -/
theorem epsonMakeContigLoop_zero (others fuel orig : Nat) :
    epsonMakeContigLoop others fuel 0 orig = orig := by
  cases fuel with
  | zero => rfl
  | succ f => simp [epsonMakeContigLoop]

/-- The loop of epsonMakeContig started at bit k with an iteration bound of at least 2^k: bit
p of the result is set exactly when it was set in the accumulator, or p <= k and no bit of
others is set at positions p .. k. -/
theorem epsonMakeContigLoop_testBit (others : Nat) (k : Nat) :
    ∀ (fuel acc p : Nat), 2 ^ k ≤ fuel →
      ((epsonMakeContigLoop others fuel (2 ^ k) acc).testBit p = true ↔
        (acc.testBit p = true
          ∨ (p ≤ k ∧ ∀ j, p ≤ j → j ≤ k → others.testBit j = false))) := by
  induction k with
  | zero =>
    intro fuel acc p hf
    obtain ⟨f, rfl⟩ : ∃ f, fuel = f + 1 := ⟨fuel - 1, by
      have : 0 < 2 ^ 0 := by decide
      omega⟩
    unfold epsonMakeContigLoop
    have h1 : (2 : Nat) ^ 0 >>> 1 = 0 := by decide
    by_cases hc : others &&& 2 ^ 0 = 0
    · have hne : (2 : Nat) ^ 0 ≠ 0 := by decide
      rw [if_pos ⟨hne, hc⟩, h1, epsonMakeContigLoop_zero, Nat.testBit_or, Nat.testBit_two_pow]
      have hb := (and_two_pow_eq_zero others 0).mp hc
      constructor
      · intro h
        rcases Bool.or_eq_true _ _ ▸ h with h | h
        · exact Or.inl h
        · right
          have hp : 0 = p := by simpa using h
          subst hp
          refine ⟨le_refl _, ?_⟩
          intro j hj1 hj2
          have : j = 0 := by omega
          subst this
          exact hb
      · rintro (h | ⟨hp, _⟩)
        · simp [h]
        · have : 0 = p := by omega
          simp [this]
    · have hcond : ¬ ((2 : Nat) ^ 0 ≠ 0 ∧ others &&& 2 ^ 0 = 0) := fun h => hc h.2
      rw [if_neg hcond]
      have hb : others.testBit 0 = true := by
        cases hv : others.testBit 0 with
        | true => rfl
        | false => exact absurd ((and_two_pow_eq_zero others 0).mpr hv) hc
      constructor
      · intro h
        exact Or.inl h
      · rintro (h | ⟨hp, hcl⟩)
        · exact h
        · have := hcl 0 (by omega) (le_refl _)
          rw [hb] at this
          exact absurd this (by decide)
  | succ k ih =>
    intro fuel acc p hf
    have hpos : 0 < 2 ^ (k + 1) := Nat.pos_pow_of_pos _ (by decide)
    obtain ⟨f, rfl⟩ : ∃ f, fuel = f + 1 := ⟨fuel - 1, by omega⟩
    have hhalf : (2 : Nat) ^ (k + 1) >>> 1 = 2 ^ k := by
      rw [Nat.shiftRight_eq_div_pow, Nat.pow_succ]
      simp
    have hf2 : 2 ^ k ≤ f := by
      have : 2 ^ (k + 1) = 2 * 2 ^ k := by rw [Nat.pow_succ]; omega
      have : 0 < 2 ^ k := Nat.pos_pow_of_pos _ (by decide)
      omega
    unfold epsonMakeContigLoop
    by_cases hc : others &&& 2 ^ (k + 1) = 0
    · have hne : (2 : Nat) ^ (k + 1) ≠ 0 := by omega
      rw [if_pos ⟨hne, hc⟩, hhalf, ih f _ p hf2, Nat.testBit_or, Nat.testBit_two_pow]
      have hb := (and_two_pow_eq_zero others (k + 1)).mp hc
      constructor
      · rintro (h | ⟨hp, hcl⟩)
        · rcases Bool.or_eq_true _ _ ▸ h with h | h
          · exact Or.inl h
          · right
            have hp : k + 1 = p := by simpa using h
            subst hp
            refine ⟨le_refl _, ?_⟩
            intro j hj1 hj2
            have : j = k + 1 := by omega
            subst this
            exact hb
        · right
          refine ⟨by omega, ?_⟩
          intro j hj1 hj2
          by_cases hj : j ≤ k
          · exact hcl j hj1 hj
          · have : j = k + 1 := by omega
            subst this
            exact hb
      · rintro (h | ⟨hp, hcl⟩)
        · left
          simp [h]
        · by_cases hpk : p ≤ k
          · right
            exact ⟨hpk, fun j hj1 hj2 => hcl j hj1 (by omega)⟩
          · left
            have : k + 1 = p := by omega
            simp [this]
    · have hcond : ¬ ((2 : Nat) ^ (k + 1) ≠ 0 ∧ others &&& 2 ^ (k + 1) = 0) := fun h => hc h.2
      rw [if_neg hcond]
      have hb : others.testBit (k + 1) = true := by
        cases hv : others.testBit (k + 1) with
        | true => rfl
        | false => exact absurd ((and_two_pow_eq_zero others (k + 1)).mpr hv) hc
      constructor
      · intro h
        exact Or.inl h
      · rintro (h | ⟨hp, hcl⟩)
        · exact h
        · have := hcl (k + 1) hp (le_refl _)
          rw [hb] at this
          exact absurd this (by decide)

/-- The empty mask is left empty by epsonMakeContig. -/
theorem epsonMakeContig_zero (others : Nat) : epsonMakeContig 0 others = 0 := by
  unfold epsonMakeContig
  rw [lowbit_zero]
  rfl

/-- Bits of epsonMakeContig: for a 32-bit mask orig whose lowest set bit is k, bit p of the
result is set exactly when it is set in orig, or p < k and no bit of others is set at
positions p .. k - 1. -/
theorem epsonMakeContig_testBit (orig others k p : Nat) (ho : orig < 2 ^ 32)
    (hk : orig.testBit k = true) (hlow : ∀ j, j < k → orig.testBit j = false) :
    (epsonMakeContig orig others).testBit p = true ↔
      (orig.testBit p = true ∨ (p < k ∧ ∀ j, p ≤ j → j < k → others.testBit j = false)) := by
  unfold epsonMakeContig
  rw [lowbit_eq orig k ho hk hlow]
  cases k with
  | zero =>
    have h1 : (2 : Nat) ^ 0 >>> 1 = 0 := by decide
    simp only [h1, epsonMakeContigLoop_zero]
    constructor
    · intro h
      exact Or.inl h
    · rintro (h | ⟨hp, _⟩)
      · exact h
      · omega
  | succ k =>
    have hhalf : (2 : Nat) ^ (k + 1) >>> 1 = 2 ^ k := by
      rw [Nat.shiftRight_eq_div_pow, Nat.pow_succ]
      simp
    simp only [hhalf]
    rw [epsonMakeContigLoop_testBit others k (2 ^ k) orig p (le_refl _)]
    constructor
    · rintro (h | ⟨hp, hcl⟩)
      · exact Or.inl h
      · exact Or.inr ⟨by omega, fun j hj1 hj2 => hcl j hj1 (by omega)⟩
    · rintro (h | ⟨hp, hcl⟩)
      · exact Or.inl h
      · exact Or.inr ⟨by omega, fun j hj1 hj2 => hcl j hj1 (by omega)⟩

/-- Two masks share no bit exactly when their bitwise and is 0. -/
theorem and_eq_zero_iff_testBit (a b : Nat) :
    a &&& b = 0 ↔ ∀ i, a.testBit i = true → b.testBit i = false := by
  constructor
  · intro h i hi
    have h1 := congrArg (fun y => Nat.testBit y i) h
    simpa [Nat.testBit_and, hi] using h1
  · intro h
    apply Nat.eq_of_testBit_eq
    intro i
    rw [Nat.testBit_and, Nat.zero_testBit]
    cases ha : a.testBit i with
    | false => rfl
    | true => simp [h i ha]

/-- Function epsonMakeContig only adds bits. -/
theorem epsonMakeContig_mono (orig others p : Nat) (ho : orig < 2 ^ 32)
    (hp : orig.testBit p = true) : (epsonMakeContig orig others).testBit p = true := by
  have hne : orig ≠ 0 := by
    intro h0
    rw [h0, Nat.zero_testBit] at hp
    exact absurd hp (by decide)
  obtain ⟨k, hk, hlow⟩ := exists_lowest_bit orig hne
  exact (epsonMakeContig_testBit orig others k p ho hk hlow).mpr (Or.inl hp)

/-- Function epsonMakeContig never adds a bit of others. -/
theorem epsonMakeContig_added (orig others p : Nat) (ho : orig < 2 ^ 32)
    (hp : (epsonMakeContig orig others).testBit p = true) :
    orig.testBit p = true ∨ others.testBit p = false := by
  by_cases hne : orig = 0
  · rw [hne, epsonMakeContig_zero, Nat.zero_testBit] at hp
    exact absurd hp (by decide)
  · obtain ⟨k, hk, hlow⟩ := exists_lowest_bit orig hne
    rcases (epsonMakeContig_testBit orig others k p ho hk hlow).mp hp with h | ⟨hpk, hcl⟩
    · exact Or.inl h
    · exact Or.inr (hcl p (le_refl _) hpk)

/-- The result of epsonMakeContig is again a 32-bit mask. -/
theorem epsonMakeContig_lt (orig others : Nat) (ho : orig < 2 ^ 32) :
    epsonMakeContig orig others < 2 ^ 32 := by
  apply Nat.lt_pow_two_of_testBit
  intro i hi
  cases hv : (epsonMakeContig orig others).testBit i with
  | false => rfl
  | true =>
    exfalso
    by_cases hne : orig = 0
    · rw [hne, epsonMakeContig_zero, Nat.zero_testBit] at hv
      exact absurd hv (by decide)
    · obtain ⟨k, hk, hlow⟩ := exists_lowest_bit orig hne
      have hk32 : k < 32 := by
        by_contra hge
        have h1 : 2 ^ 32 ≤ 2 ^ k := Nat.pow_le_pow_right (by decide) (by omega)
        have h2 := Nat.testBit_implies_ge hk
        omega
      rcases (epsonMakeContig_testBit orig others k i ho hk hlow).mp hv with h | ⟨hpk, _⟩
      · have h1 : 2 ^ 32 ≤ 2 ^ i := Nat.pow_le_pow_right (by decide) hi
        have h2 := Nat.testBit_implies_ge h
        omega
      · omega

/-- A mask disjoint from others stays disjoint from others under epsonMakeContig. -/
theorem epsonMakeContig_disjoint (orig others : Nat) (ho : orig < 2 ^ 32)
    (hd : orig &&& others = 0) : epsonMakeContig orig others &&& others = 0 := by
  rw [and_eq_zero_iff_testBit] at hd ⊢
  intro i hi
  rcases epsonMakeContig_added orig others i ho hi with h | h
  · exact hd i h
  · exact h

/-- Function epsonMakeContig keeps a contiguous mask contiguous. -/
theorem epsonMakeContig_contiguous (orig others : Nat) (ho : orig < 2 ^ 32)
    (hc : Contiguous orig) : Contiguous (epsonMakeContig orig others) := by
  by_cases hne : orig = 0
  · rw [hne, epsonMakeContig_zero]
    intro i j k _ _ hi _
    rw [Nat.zero_testBit] at hi
    exact absurd hi (by decide)
  · obtain ⟨k, hk, hlow⟩ := exists_lowest_bit orig hne
    have key := epsonMakeContig_testBit orig others k
    intro a b c hab hbc ha hcc
    have hc_orig : k ≤ c → orig.testBit c = true := by
      intro hkc
      rcases (key c ho hk hlow).mp hcc with h | ⟨hlt, _⟩
      · exact h
      · omega
    rw [key b ho hk hlow]
    by_cases hbk : k ≤ b
    · left
      exact hc k b c hbk hbc hk (hc_orig (by omega))
    · right
      refine ⟨by omega, ?_⟩
      rcases (key a ho hk hlow).mp ha with h | ⟨_, hcl⟩
      · have : k ≤ a := by
          by_contra hlt
          have := hlow a (by omega)
          rw [h] at this
          exact absurd this (by decide)
        omega
      · intro j hj1 hj2
        exact hcl j (by omega) hj2

/-- Below every bit of the result of epsonMakeContig on a contiguous mask lies another bit
of the result or a bit of others: growth stops only at a collision or at bit 0. -/
theorem epsonMakeContig_step_down (orig others q : Nat) (ho : orig < 2 ^ 32)
    (hc : Contiguous orig) (hq : (epsonMakeContig orig others).testBit (q + 1) = true) :
    (epsonMakeContig orig others).testBit q = true ∨ others.testBit q = true := by
  by_cases hne : orig = 0
  · rw [hne, epsonMakeContig_zero, Nat.zero_testBit] at hq
    exact absurd hq (by decide)
  · obtain ⟨k, hk, hlow⟩ := exists_lowest_bit orig hne
    have key := epsonMakeContig_testBit orig others k
    cases hoq : others.testBit q with
    | true => exact Or.inr rfl
    | false =>
      left
      rw [key q ho hk hlow]
      rcases (key (q + 1) ho hk hlow).mp hq with h | ⟨hlt, hcl⟩
      · by_cases hkq : k ≤ q
        · left
          exact hc k q (q + 1) hkq (by omega) hk h
        · right
          refine ⟨by omega, ?_⟩
          intro j hj1 hj2
          have hkq1 : k ≤ q + 1 := by
            by_contra hlt
            have := hlow (q + 1) (by omega)
            rw [h] at this
            exact absurd this (by decide)
          have : j = q := by omega
          subst this
          exact hoq
      · right
        refine ⟨by omega, ?_⟩
        intro j hj1 hj2
        by_cases hjq : j = q
        · subst hjq
          exact hoq
        · exact hcl j (by omega) hj2

/-- Bits of the macro Mask(o,l): positions o .. o+l-1 that fit in 32 bits. -/
theorem Mask_testBit (o l i : Nat) :
    (Mask o l).testBit i = true ↔ (i < 32 ∧ o ≤ i ∧ i < o + l) := by
  unfold Mask
  rw [Nat.one_shiftLeft, Nat.testBit_mod_two_pow, Nat.testBit_shiftLeft,
    Nat.testBit_two_pow_sub_one]
  simp only [Bool.and_eq_true, decide_eq_true_eq, ge_iff_le]
  constructor
  · rintro ⟨h1, h2, h3⟩
    exact ⟨h1, h2, by omega⟩
  · rintro ⟨h1, h2, h3⟩
    exact ⟨h1, h2, by omega⟩

/-- The macro Mask(o,l) yields a 32-bit value. -/
theorem Mask_lt (o l : Nat) : Mask o l < 2 ^ 32 := by
  unfold Mask
  exact Nat.mod_lt _ (by decide)

/-- The macro Mask(o,l) yields a contiguous run of bits. -/
theorem Mask_contiguous (o l : Nat) : Contiguous (Mask o l) := by
  intro i j k hij hjk hi hk
  rw [Mask_testBit] at hi hk ⊢
  omega

/-- A mask is disjoint from a union exactly when it is disjoint from both parts. -/
theorem and_or_eq_zero_iff (a b c : Nat) :
    a &&& (b ||| c) = 0 ↔ (a &&& b = 0 ∧ a &&& c = 0) := by
  simp only [and_eq_zero_iff_testBit, Nat.testBit_or, Bool.or_eq_false_iff]
  constructor
  · intro h
    exact ⟨fun i hi => (h i hi).1, fun i hi => (h i hi).2⟩
  · rintro ⟨h1, h2⟩ i hi
    exact ⟨h1 i hi, h2 i hi⟩

/-- Disjointness passes to sub-masks. -/
theorem disjoint_of_subset (a b a0 b0 : Nat) (h : a &&& b = 0)
    (ha : ∀ i, a0.testBit i = true → a.testBit i = true)
    (hb : ∀ i, b0.testBit i = true → b.testBit i = true) : a0 &&& b0 = 0 := by
  rw [and_eq_zero_iff_testBit] at h ⊢
  intro i hi
  cases hv : b0.testBit i with
  | false => rfl
  | true =>
    have := h i (ha i hi)
    rw [hb i hv] at this
    exact absurd this (by decide)

/-- C5 counterexample: the three masks are not disjoint for every reported layout. With red
at offset 0 length 8 and green at offset 4 length 8 the gap-filled red and green masks
share bits 4 .. 7. -/
theorem epsonScreenInitialize_masks_overlap :
    ¬ (∀ var : fb_var_screeninfo,
        (epsonScreenInitialize var).redMask &&& (epsonScreenInitialize var).greenMask = 0
        ∧ (epsonScreenInitialize var).redMask &&& (epsonScreenInitialize var).blueMask = 0
        ∧ (epsonScreenInitialize var).greenMask &&& (epsonScreenInitialize var).blueMask = 0) := by
  intro h
  have h1 := (h ⟨800, 600, 16, ⟨0, 8⟩, ⟨4, 8⟩, ⟨16, 8⟩⟩).1
  revert h1
  decide

/-- C5 (amended): after the gap filling of epsonScreenInitialize the red, green and blue masks
are pairwise disjoint exactly when the three masks Mask(offset, length) built from the
reported channel layout are pairwise disjoint; in particular gap filling never makes two
disjoint channels overlap. -/
theorem epsonScreenInitialize_masks_disjoint_iff (var : fb_var_screeninfo) :
    ((epsonScreenInitialize var).redMask &&& (epsonScreenInitialize var).greenMask = 0
      ∧ (epsonScreenInitialize var).redMask &&& (epsonScreenInitialize var).blueMask = 0
      ∧ (epsonScreenInitialize var).greenMask &&& (epsonScreenInitialize var).blueMask = 0)
    ↔ (Mask var.red.offset var.red.length &&& Mask var.green.offset var.green.length = 0
      ∧ Mask var.red.offset var.red.length &&& Mask var.blue.offset var.blue.length = 0
      ∧ Mask var.green.offset var.green.length &&& Mask var.blue.offset var.blue.length = 0) := by
  simp only [epsonScreenInitialize]
  generalize hr0 : Mask var.red.offset var.red.length = r0
  generalize hg0 : Mask var.green.offset var.green.length = g0
  generalize hb0 : Mask var.blue.offset var.blue.length = b0
  have hr : r0 < 2 ^ 32 := hr0 ▸ Mask_lt _ _
  have hg : g0 < 2 ^ 32 := hg0 ▸ Mask_lt _ _
  have hb : b0 < 2 ^ 32 := hb0 ▸ Mask_lt _ _
  generalize hr1 : epsonMakeContig r0 (g0 ||| b0) = r1
  generalize hg1 : epsonMakeContig g0 (r1 ||| b0) = g1
  generalize hb1 : epsonMakeContig b0 (r1 ||| g1) = b1
  have mr : ∀ i, r0.testBit i = true → r1.testBit i = true := fun i hi =>
    hr1 ▸ epsonMakeContig_mono r0 _ i hr hi
  have mg : ∀ i, g0.testBit i = true → g1.testBit i = true := fun i hi =>
    hg1 ▸ epsonMakeContig_mono g0 _ i hg hi
  have mb : ∀ i, b0.testBit i = true → b1.testBit i = true := fun i hi =>
    hb1 ▸ epsonMakeContig_mono b0 _ i hb hi
  constructor
  · rintro ⟨h1, h2, h3⟩
    exact ⟨disjoint_of_subset r1 g1 r0 g0 h1 mr mg, disjoint_of_subset r1 b1 r0 b0 h2 mr mb,
      disjoint_of_subset g1 b1 g0 b0 h3 mg mb⟩
  · rintro ⟨h1, h2, h3⟩
    have d1 : r1 &&& (g0 ||| b0) = 0 :=
      hr1 ▸ epsonMakeContig_disjoint r0 _ hr ((and_or_eq_zero_iff r0 g0 b0).mpr ⟨h1, h2⟩)
    obtain ⟨d1g, d1b⟩ := (and_or_eq_zero_iff r1 g0 b0).mp d1
    have d2 : g1 &&& (r1 ||| b0) = 0 :=
      hg1 ▸ epsonMakeContig_disjoint g0 _ hg
        ((and_or_eq_zero_iff g0 r1 b0).mpr ⟨by rw [Nat.and_comm]; exact d1g, h3⟩)
    obtain ⟨d2r, d2b⟩ := (and_or_eq_zero_iff g1 r1 b0).mp d2
    have d3 : b1 &&& (r1 ||| g1) = 0 :=
      hb1 ▸ epsonMakeContig_disjoint b0 _ hb
        ((and_or_eq_zero_iff b0 r1 g1).mpr
          ⟨by rw [Nat.and_comm]; exact d1b, by rw [Nat.and_comm]; exact d2b⟩)
    obtain ⟨d3r, d3g⟩ := (and_or_eq_zero_iff b1 r1 g1).mp d3
    exact ⟨by rw [Nat.and_comm]; exact d2r, by rw [Nat.and_comm]; exact d3r,
      by rw [Nat.and_comm]; exact d3g⟩

/-- A mask in which every set bit above bit 0 has a set bit right below it is contiguous. -/
theorem contiguous_of_step_down (m : Nat)
    (h : ∀ q, m.testBit (q + 1) = true → m.testBit q = true) : Contiguous m := by
  have down : ∀ d k, m.testBit (k + d) = true → m.testBit k = true := by
    intro d
    induction d with
    | zero => intro k hk; exact hk
    | succ d ih =>
      intro k hk
      apply ih
      apply h
      have : k + d + 1 = k + (d + 1) := by omega
      rw [this]
      exact hk
  intro i j k _ hjk _ hk
  apply down (k - j) j
  have : j + (k - j) = k := by omega
  rw [this]
  exact hk

/-- C6: for every channel layout, after the three epsonMakeContig passes of
epsonScreenInitialize each of redMask, greenMask and blueMask is a contiguous run of set
bits, and their union has no clear bit between its lowest and its highest set bit. -/
theorem epsonScreenInitialize_masks_contiguous (var : fb_var_screeninfo) :
    Contiguous (epsonScreenInitialize var).redMask
    ∧ Contiguous (epsonScreenInitialize var).greenMask
    ∧ Contiguous (epsonScreenInitialize var).blueMask
    ∧ Contiguous ((epsonScreenInitialize var).redMask ||| (epsonScreenInitialize var).greenMask
        ||| (epsonScreenInitialize var).blueMask) := by
  simp only [epsonScreenInitialize]
  have hr := Mask_lt var.red.offset var.red.length
  have hg := Mask_lt var.green.offset var.green.length
  have hb := Mask_lt var.blue.offset var.blue.length
  have cr := Mask_contiguous var.red.offset var.red.length
  have cg := Mask_contiguous var.green.offset var.green.length
  have cb := Mask_contiguous var.blue.offset var.blue.length
  generalize Mask var.red.offset var.red.length = r0 at hr cr ⊢
  generalize Mask var.green.offset var.green.length = g0 at hg cg ⊢
  generalize Mask var.blue.offset var.blue.length = b0 at hb cb ⊢
  have sr := fun q => epsonMakeContig_step_down r0 (g0 ||| b0) q hr cr
  have c1 := epsonMakeContig_contiguous r0 (g0 ||| b0) hr cr
  generalize epsonMakeContig r0 (g0 ||| b0) = r1 at sr c1 ⊢
  have sg := fun q => epsonMakeContig_step_down g0 (r1 ||| b0) q hg cg
  have c2 := epsonMakeContig_contiguous g0 (r1 ||| b0) hg cg
  have mg : ∀ i, g0.testBit i = true → (epsonMakeContig g0 (r1 ||| b0)).testBit i = true :=
    fun i hi => epsonMakeContig_mono g0 _ i hg hi
  generalize epsonMakeContig g0 (r1 ||| b0) = g1 at sg c2 mg ⊢
  have sb := fun q => epsonMakeContig_step_down b0 (r1 ||| g1) q hb cb
  have c3 := epsonMakeContig_contiguous b0 (r1 ||| g1) hb cb
  have mb : ∀ i, b0.testBit i = true → (epsonMakeContig b0 (r1 ||| g1)).testBit i = true :=
    fun i hi => epsonMakeContig_mono b0 _ i hb hi
  generalize epsonMakeContig b0 (r1 ||| g1) = b1 at sb c3 mb ⊢
  refine ⟨c1, c2, c3, ?_⟩
  apply contiguous_of_step_down
  intro q hq
  simp only [Nat.testBit_or, Bool.or_eq_true] at hq sr sg sb ⊢
  rcases hq with (hq | hq) | hq
  · rcases sr q hq with h | h | h
    · exact Or.inl (Or.inl h)
    · exact Or.inl (Or.inr (mg q h))
    · exact Or.inr (mb q h)
  · rcases sg q hq with h | h | h
    · exact Or.inl (Or.inr h)
    · exact Or.inl (Or.inl h)
    · exact Or.inr (mb q h)
  · rcases sb q hq with h | h | h
    · exact Or.inr h
    · exact Or.inl (Or.inl h)
    · exact Or.inl (Or.inr h)

/-- The depth loop started at n stops at 0 when no bit below n is set, and otherwise at one
plus the highest set bit below n. -/
theorem depthLoop_spec (allbits n : Nat) :
    (depthLoop allbits n = 0 ∧ ∀ i, i < n → allbits.testBit i = false)
    ∨ (∃ d, depthLoop allbits n = d + 1 ∧ d < n ∧ allbits.testBit d = true
        ∧ ∀ i, d < i → i < n → allbits.testBit i = false) := by
  induction n with
  | zero =>
    left
    exact ⟨rfl, fun i hi => absurd hi (Nat.not_lt_zero i)⟩
  | succ n ih =>
    unfold depthLoop
    rw [Nat.one_shiftLeft]
    by_cases hc : allbits &&& 2 ^ n = 0
    · rw [if_pos hc]
      have hb := (and_two_pow_eq_zero allbits n).mp hc
      rcases ih with ⟨h0, hcl⟩ | ⟨d, hd, hdn, hset, hcl⟩
      · left
        refine ⟨h0, ?_⟩
        intro i hi
        by_cases hin : i = n
        · subst hin
          exact hb
        · exact hcl i (by omega)
      · right
        refine ⟨d, hd, by omega, hset, ?_⟩
        intro i hi1 hi2
        by_cases hin : i = n
        · subst hin
          exact hb
        · exact hcl i hi1 (by omega)
    · rw [if_neg hc]
      right
      refine ⟨n, rfl, Nat.lt_succ_self n, ?_, ?_⟩
      · cases hv : allbits.testBit n with
        | true => rfl
        | false => exact absurd ((and_two_pow_eq_zero allbits n).mpr hv) hc
      · intro i hi1 hi2
        omega

/-- C7: the depth stored by epsonScreenInitialize is 0 when the union of the gap-filled masks
is empty and otherwise one plus the index of the highest set bit of the union; the loop
always ends with a depth of at most 32. -/
theorem epsonScreenInitialize_depth (var : fb_var_screeninfo) :
    ((epsonScreenInitialize var).redMask ||| (epsonScreenInitialize var).greenMask
        ||| (epsonScreenInitialize var).blueMask = 0 → (epsonScreenInitialize var).depth = 0)
    ∧ ((epsonScreenInitialize var).redMask ||| (epsonScreenInitialize var).greenMask
        ||| (epsonScreenInitialize var).blueMask ≠ 0 →
        ∃ k, (epsonScreenInitialize var).depth = k + 1
          ∧ ((epsonScreenInitialize var).redMask ||| (epsonScreenInitialize var).greenMask
              ||| (epsonScreenInitialize var).blueMask).testBit k = true
          ∧ ∀ i, k < i →
              ((epsonScreenInitialize var).redMask ||| (epsonScreenInitialize var).greenMask
                ||| (epsonScreenInitialize var).blueMask).testBit i = false)
    ∧ (epsonScreenInitialize var).depth ≤ 32 := by
  simp only [epsonScreenInitialize]
  have hr := Mask_lt var.red.offset var.red.length
  have hg := Mask_lt var.green.offset var.green.length
  have hb := Mask_lt var.blue.offset var.blue.length
  generalize Mask var.red.offset var.red.length = r0 at hr ⊢
  generalize Mask var.green.offset var.green.length = g0 at hg ⊢
  generalize Mask var.blue.offset var.blue.length = b0 at hb ⊢
  have hr1 := epsonMakeContig_lt r0 (g0 ||| b0) hr
  generalize epsonMakeContig r0 (g0 ||| b0) = r1 at hr1 ⊢
  have hg1 := epsonMakeContig_lt g0 (r1 ||| b0) hg
  generalize epsonMakeContig g0 (r1 ||| b0) = g1 at hg1 ⊢
  have hb1 := epsonMakeContig_lt b0 (r1 ||| g1) hb
  generalize epsonMakeContig b0 (r1 ||| g1) = b1 at hb1 ⊢
  have hU : r1 ||| g1 ||| b1 < 2 ^ 32 := Nat.or_lt_two_pow (Nat.or_lt_two_pow hr1 hg1) hb1
  generalize r1 ||| g1 ||| b1 = U at hU ⊢
  have hhigh : ∀ i, 32 ≤ i → U.testBit i = false := by
    intro i hi
    apply Nat.testBit_lt_two_pow
    have : 2 ^ 32 ≤ 2 ^ i := Nat.pow_le_pow_right (by decide) hi
    omega
  rcases depthLoop_spec U 32 with ⟨h0, hcl⟩ | ⟨d, hd, hd32, hset, hcl⟩
  · refine ⟨fun _ => h0, ?_, by omega⟩
    intro hne
    exfalso
    apply hne
    apply Nat.eq_of_testBit_eq
    intro i
    rw [Nat.zero_testBit]
    by_cases hi : i < 32
    · exact hcl i hi
    · exact hhigh i (by omega)
  · refine ⟨?_, ?_, by omega⟩
    · intro hz
      rw [hz, Nat.zero_testBit] at hset
      exact absurd hset (by decide)
    · intro _
      refine ⟨d, hd, hset, ?_⟩
      intro i hi
      by_cases hi32 : i < 32
      · exact hcl i hi hi32
      · exact hhigh i (by omega)

/-- C8: copier selection in epsonSetShadow. At 16 bits per pixel a rotation of exactly 90
degrees selects the 16bpp-90 rotator (its YX variant when compiled for ARM), exactly 180
degrees the 16bpp-180 rotator, exactly 270 degrees the 16bpp-270 rotator (its YX variant for
ARM); at any other bits-per-pixel every rotation value, which is never 0, and so every
non-identity rotation, selects the packed-rotate copier. -/
theorem epsonSetShadow_copier_table (arm : Bool) :
    epsonSetShadowUpdate arm RR_Rotate_90 16
        = (if arm then ShadowUpdateProc.shadowUpdateRotate16_90YX
            else ShadowUpdateProc.shadowUpdateRotate16_90)
    ∧ epsonSetShadowUpdate arm RR_Rotate_180 16 = ShadowUpdateProc.shadowUpdateRotate16_180
    ∧ epsonSetShadowUpdate arm RR_Rotate_270 16
        = (if arm then ShadowUpdateProc.shadowUpdateRotate16_270YX
            else ShadowUpdateProc.shadowUpdateRotate16_270)
    ∧ (∀ randr bits_per_pixel : Nat, bits_per_pixel ≠ 16 → randr ≠ 0 →
        epsonSetShadowUpdate arm randr bits_per_pixel
          = ShadowUpdateProc.shadowUpdateRotatePacked)
    ∧ (∀ (KdShadowSet : Nat → ShadowUpdateProc → ShadowWindowProc → Bool)
        (randr bits_per_pixel : Nat),
        epsonSetShadow KdShadowSet arm randr bits_per_pixel
          = KdShadowSet randr (epsonSetShadowUpdate arm randr bits_per_pixel)
              ShadowWindowProc.epsonWindowLinear) := by
  refine ⟨?_, ?_, ?_, ?_, ?_⟩
  · cases arm <;> decide
  · cases arm <;> decide
  · cases arm <;> decide
  · intro randr bpp hb hr
    unfold epsonSetShadowUpdate
    simp [hb, hr]
  · intro K randr bpp
    rfl

/-- C8 witness: at 8 and at 32 bits per pixel the rotations 90, 180 and 270 degrees all
select the packed-rotate copier. -/
theorem epsonSetShadow_copier_table_witness :
    epsonSetShadowUpdate false RR_Rotate_90 8 = ShadowUpdateProc.shadowUpdateRotatePacked
    ∧ epsonSetShadowUpdate true RR_Rotate_180 32 = ShadowUpdateProc.shadowUpdateRotatePacked
    ∧ epsonSetShadowUpdate true RR_Rotate_270 8 = ShadowUpdateProc.shadowUpdateRotatePacked :=
  ⟨(epsonSetShadow_copier_table false).2.2.2.1 RR_Rotate_90 8 (by decide) (by decide),
    (epsonSetShadow_copier_table true).2.2.2.1 RR_Rotate_180 32 (by decide) (by decide),
    (epsonSetShadow_copier_table true).2.2.2.1 RR_Rotate_270 8 (by decide) (by decide)⟩

/-- C9: at 16 bits per pixel and randr = RR_Rotate_0 the code does not select the packed
copier. RR_Rotate_0 is the non-zero bit 1, so the test "if (scrpriv->randr)" succeeds and the
default case of the switch selects shadowUpdateRotate16; shadowUpdatePacked is selected only
for randr = 0, which is no rotation value. -/
theorem epsonSetShadow_rotate0_16bpp (arm : Bool) :
    epsonSetShadowUpdate arm RR_Rotate_0 16 = ShadowUpdateProc.shadowUpdateRotate16
    ∧ epsonSetShadowUpdate arm RR_Rotate_0 16 ≠ ShadowUpdateProc.shadowUpdatePacked
    ∧ epsonSetShadowUpdate arm 0 16 = ShadowUpdateProc.shadowUpdatePacked := by
  cases arm <;> decide

/-- The loop of epsonPutColors: it issues no ioctl, leaves untouched indices alone, stores
for every index the last entry naming it, and tracks the least and greatest index seen. -/
theorem epsonPutColorsLoop_spec (pdefs : List xColorItem) :
    ∀ (priv : EpsonPriv) (mn mx : Int),
      (epsonPutColorsLoop pdefs priv mn mx).1.putcmap = priv.putcmap
      ∧ (∀ i, (∀ d ∈ pdefs, d.pixel ≠ i) →
          (epsonPutColorsLoop pdefs priv mn mx).1.red i = priv.red i
          ∧ (epsonPutColorsLoop pdefs priv mn mx).1.green i = priv.green i
          ∧ (epsonPutColorsLoop pdefs priv mn mx).1.blue i = priv.blue i)
      ∧ (∀ pre d post, pdefs = pre ++ d :: post → (∀ e ∈ post, e.pixel ≠ d.pixel) →
          (epsonPutColorsLoop pdefs priv mn mx).1.red d.pixel = d.red
          ∧ (epsonPutColorsLoop pdefs priv mn mx).1.green d.pixel = d.green
          ∧ (epsonPutColorsLoop pdefs priv mn mx).1.blue d.pixel = d.blue)
      ∧ ((epsonPutColorsLoop pdefs priv mn mx).2.1 ≤ mn
          ∧ (∀ d ∈ pdefs, (epsonPutColorsLoop pdefs priv mn mx).2.1 ≤ (d.pixel : Int))
          ∧ ((epsonPutColorsLoop pdefs priv mn mx).2.1 = mn
              ∨ ∃ d ∈ pdefs, (epsonPutColorsLoop pdefs priv mn mx).2.1 = (d.pixel : Int)))
      ∧ (mx ≤ (epsonPutColorsLoop pdefs priv mn mx).2.2
          ∧ (∀ d ∈ pdefs, (d.pixel : Int) ≤ (epsonPutColorsLoop pdefs priv mn mx).2.2)
          ∧ ((epsonPutColorsLoop pdefs priv mn mx).2.2 = mx
              ∨ ∃ d ∈ pdefs, (epsonPutColorsLoop pdefs priv mn mx).2.2 = (d.pixel : Int))) := by
  induction pdefs with
  | nil =>
    intro priv mn mx
    simp [epsonPutColorsLoop]
  | cons d0 rest ih =>
    intro priv mn mx
    simp only [epsonPutColorsLoop]
    generalize hp1 : ({ priv with
        red := Function.update priv.red d0.pixel d0.red
        green := Function.update priv.green d0.pixel d0.green
        blue := Function.update priv.blue d0.pixel d0.blue } : EpsonPriv) = priv1
    generalize hm1 : (if (d0.pixel : Int) < mn then (d0.pixel : Int) else mn) = mn1
    generalize hx1 : (if (d0.pixel : Int) > mx then (d0.pixel : Int) else mx) = mx1
    obtain ⟨ihlog, ihun, ihlast, ⟨ihmin1, ihmin2, ihmin3⟩, ⟨ihmax1, ihmax2, ihmax3⟩⟩ :=
      ih priv1 mn1 mx1
    have hmn1 : mn1 ≤ mn ∧ mn1 ≤ (d0.pixel : Int) ∧ (mn1 = mn ∨ mn1 = (d0.pixel : Int)) := by
      rw [← hm1]
      split <;> omega
    have hmx1 : mx ≤ mx1 ∧ (d0.pixel : Int) ≤ mx1 ∧ (mx1 = mx ∨ mx1 = (d0.pixel : Int)) := by
      rw [← hx1]
      split <;> omega
    have hred : ∀ i, d0.pixel ≠ i → priv1.red i = priv.red i ∧ priv1.green i = priv.green i
        ∧ priv1.blue i = priv.blue i := by
      intro i hi
      rw [← hp1]
      exact ⟨Function.update_noteq (Ne.symm hi) _ _, Function.update_noteq (Ne.symm hi) _ _,
        Function.update_noteq (Ne.symm hi) _ _⟩
    have hsame : priv1.red d0.pixel = d0.red ∧ priv1.green d0.pixel = d0.green
        ∧ priv1.blue d0.pixel = d0.blue := by
      rw [← hp1]
      exact ⟨Function.update_same _ _ _, Function.update_same _ _ _, Function.update_same _ _ _⟩
    refine ⟨?_, ?_, ?_, ⟨?_, ?_, ?_⟩, ⟨?_, ?_, ?_⟩⟩
    · rw [ihlog, ← hp1]
    · intro i hi
      obtain ⟨h1, h2, h3⟩ := ihun i (fun d hd => hi d (List.mem_cons_of_mem _ hd))
      obtain ⟨g1, g2, g3⟩ := hred i (hi d0 (List.mem_cons_self _ _))
      exact ⟨h1.trans g1, h2.trans g2, h3.trans g3⟩
    · intro pre d post hsplit hpost
      cases pre with
      | nil =>
        simp only [List.nil_append, List.cons.injEq] at hsplit
        obtain ⟨hd, hrest⟩ := hsplit
        subst hd
        subst hrest
        obtain ⟨h1, h2, h3⟩ := ihun d0.pixel hpost
        exact ⟨h1.trans hsame.1, h2.trans hsame.2.1, h3.trans hsame.2.2⟩
      | cons a pre1 =>
        simp only [List.cons_append, List.cons.injEq] at hsplit
        exact ihlast pre1 d post hsplit.2 hpost
    · omega
    · intro d hd
      rcases List.mem_cons.mp hd with h | h
      · subst h
        omega
      · exact ihmin2 d h
    · rcases ihmin3 with h | ⟨d, hd, h⟩
      · rcases hmn1.2.2 with h2 | h2
        · left
          omega
        · right
          exact ⟨d0, List.mem_cons_self _ _, by omega⟩
      · right
        exact ⟨d, List.mem_cons_of_mem _ hd, h⟩
    · omega
    · intro d hd
      rcases List.mem_cons.mp hd with h | h
      · subst h
        omega
      · exact ihmax2 d h
    · rcases ihmax3 with h | ⟨d, hd, h⟩
      · rcases hmx1.2.2 with h2 | h2
        · left
          omega
        · right
          exact ⟨d0, List.mem_cons_self _ _, by omega⟩
      · right
        exact ⟨d, List.mem_cons_of_mem _ hd, h⟩

/-- C10: for a non-empty list of colour changes with pixel indices in 0..255, epsonPutColors
stores at every touched index the (red, green, blue) of the last entry naming it, leaves
every other LUT entry unchanged, and issues exactly one put_cmap, with start the least and
len = greatest - least + 1 of the touched indices. -/
theorem epsonPutColors_spec (priv : EpsonPriv) (pdefs : List xColorItem) (hne : pdefs ≠ [])
    (hidx : ∀ d ∈ pdefs, d.pixel ≤ 255) :
    (∀ pre d post, pdefs = pre ++ d :: post → (∀ e ∈ post, e.pixel ≠ d.pixel) →
        (epsonPutColors priv pdefs).red d.pixel = d.red
        ∧ (epsonPutColors priv pdefs).green d.pixel = d.green
        ∧ (epsonPutColors priv pdefs).blue d.pixel = d.blue)
    ∧ (∀ i, (∀ d ∈ pdefs, d.pixel ≠ i) →
        (epsonPutColors priv pdefs).red i = priv.red i
        ∧ (epsonPutColors priv pdefs).green i = priv.green i
        ∧ (epsonPutColors priv pdefs).blue i = priv.blue i)
    ∧ (∃ mn mx : Nat, (∃ d ∈ pdefs, d.pixel = mn) ∧ (∃ d ∈ pdefs, d.pixel = mx)
        ∧ (∀ d ∈ pdefs, mn ≤ d.pixel ∧ d.pixel ≤ mx)
        ∧ (epsonPutColors priv pdefs).putcmap
            = priv.putcmap ++ [{ start := mn, len := mx - mn + 1 }]) := by
  obtain ⟨hlog, hun, hlast, ⟨hmin1, hmin2, hmin3⟩, ⟨hmax1, hmax2, hmax3⟩⟩ :=
    epsonPutColorsLoop_spec pdefs priv 256 0
  obtain ⟨d1, hd1⟩ := List.exists_mem_of_ne_nil pdefs hne
  have hd1idx := hidx d1 hd1
  refine ⟨hlast, hun, ?_⟩
  -- the least index
  obtain ⟨dmin, hdmin, hminEq⟩ : ∃ d ∈ pdefs,
      (epsonPutColorsLoop pdefs priv 256 0).2.1 = (d.pixel : Int) := by
    rcases hmin3 with h | h
    · have := hmin2 d1 hd1
      omega
    · exact h
  -- the greatest index
  obtain ⟨dmax, hdmax, hmaxEq⟩ : ∃ d ∈ pdefs,
      (epsonPutColorsLoop pdefs priv 256 0).2.2 = (d.pixel : Int) := by
    rcases hmax3 with h | h
    · refine ⟨d1, hd1, ?_⟩
      have := hmax2 d1 hd1
      omega
    · exact h
  have hle : dmin.pixel ≤ dmax.pixel := by
    have := hmin2 dmax hdmax
    omega
  have hmaxidx := hidx dmax hdmax
  refine ⟨dmin.pixel, dmax.pixel, ⟨dmin, hdmin, rfl⟩, ⟨dmax, hdmax, rfl⟩, ?_, ?_⟩
  · intro d hd
    have h1 := hmin2 d hd
    have h2 := hmax2 d hd
    omega
  · unfold epsonPutColors epsonUpdateFbColormap
    simp only [hlog, hminEq, hmaxEq]
    have e1 : CARD32 (dmin.pixel : Int) = dmin.pixel := by
      unfold CARD32
      omega
    have e2 : CARD32 ((dmax.pixel : Int) - (dmin.pixel : Int) + 1)
        = dmax.pixel - dmin.pixel + 1 := by
      unfold CARD32
      omega
    rw [e1, e2]

/-- C10 witness: changes at indices 5 and 200 are stored at their indices, index 6 is left
alone, and the single put_cmap covers start = 5, len = 196. -/
theorem epsonPutColors_spec_witness :
    (epsonPutColors ⟨fun _ => 0, fun _ => 0, fun _ => 0, []⟩
        [⟨5, 100, 200, 300⟩, ⟨200, 400, 500, 600⟩]).red 5 = 100
    ∧ (epsonPutColors ⟨fun _ => 0, fun _ => 0, fun _ => 0, []⟩
        [⟨5, 100, 200, 300⟩, ⟨200, 400, 500, 600⟩]).blue 200 = 600
    ∧ (epsonPutColors ⟨fun _ => 0, fun _ => 0, fun _ => 0, []⟩
        [⟨5, 100, 200, 300⟩, ⟨200, 400, 500, 600⟩]).green 6 = 0
    ∧ (epsonPutColors ⟨fun _ => 0, fun _ => 0, fun _ => 0, []⟩
        [⟨5, 100, 200, 300⟩, ⟨200, 400, 500, 600⟩]).putcmap = [{ start := 5, len := 196 }] := by
  have h := epsonPutColors_spec ⟨fun _ => 0, fun _ => 0, fun _ => 0, []⟩
    [⟨5, 100, 200, 300⟩, ⟨200, 400, 500, 600⟩] (by decide) (by decide)
  refine ⟨?_, ?_, ?_, by decide⟩
  · exact (h.1 [] ⟨5, 100, 200, 300⟩ [⟨200, 400, 500, 600⟩] rfl (by decide)).1
  · exact (h.1 [⟨5, 100, 200, 300⟩] ⟨200, 400, 500, 600⟩ [] rfl (by decide)).2.2
  · exact (h.2.1 6 (by decide)).2.1

/-- The loop of epsonMakeContig does not depend on its iteration bound once the bound is at
least low: the bound is never what ends the loop. -/
theorem epsonMakeContigLoop_bound_irrelevant (others : Nat) :
    ∀ (f1 f2 low acc : Nat), low ≤ f1 → low ≤ f2 →
      epsonMakeContigLoop others f1 low acc = epsonMakeContigLoop others f2 low acc := by
  intro f1
  induction f1 with
  | zero =>
    intro f2 low acc h1 _
    have : low = 0 := by omega
    subst this
    rw [epsonMakeContigLoop_zero, epsonMakeContigLoop_zero]
  | succ f1 ih =>
    intro f2 low acc h1 h2
    by_cases hl : low = 0
    · subst hl
      rw [epsonMakeContigLoop_zero, epsonMakeContigLoop_zero]
    · obtain ⟨g, rfl⟩ : ∃ g, f2 = g + 1 := ⟨f2 - 1, by omega⟩
      have hhalf : low >>> 1 ≤ f1 ∧ low >>> 1 ≤ g := by
        rw [Nat.shiftRight_eq_div_pow]
        constructor <;> omega
      unfold epsonMakeContigLoop
      by_cases hc : low ≠ 0 ∧ others &&& low = 0
      · rw [if_pos hc, if_pos hc]
        exact ih g _ _ hhalf.1 hhalf.2
      · rw [if_neg hc, if_neg hc]

/-- C17: for every 32-bit mask orig and every mask others, epsonMakeContig (a total function
whose loop ends before its iteration bound does) returns orig unchanged when orig = 0 or when
the lowest set bit of orig is bit 0, and otherwise, k being the lowest set bit of orig,
returns orig with exactly these bits added: every position p < k such that no bit of others
is set at any position from p up to k - 1. -/
theorem epsonMakeContig_spec (orig others : Nat) (ho : orig < 2 ^ 32) :
    (orig = 0 → epsonMakeContig orig others = orig)
    ∧ (∀ k, orig.testBit k = true → (∀ j, j < k → orig.testBit j = false) →
        (∀ p, (epsonMakeContig orig others).testBit p = true ↔
          (orig.testBit p = true
            ∨ (p < k ∧ ∀ j, p ≤ j → j < k → others.testBit j = false)))
        ∧ (k = 0 → epsonMakeContig orig others = orig))
    ∧ (∀ fuel, lowbit orig >>> 1 ≤ fuel →
        epsonMakeContigLoop others fuel (lowbit orig >>> 1) orig
          = epsonMakeContig orig others) := by
  refine ⟨?_, ?_, ?_⟩
  · intro h0
    rw [h0]
    exact epsonMakeContig_zero others
  · intro k hk hlow
    refine ⟨fun p => epsonMakeContig_testBit orig others k p ho hk hlow, ?_⟩
    intro hk0
    subst hk0
    apply Nat.eq_of_testBit_eq
    intro p
    have h := epsonMakeContig_testBit orig others 0 p ho hk hlow
    cases hv : orig.testBit p with
    | true => exact h.mpr (Or.inl hv)
    | false =>
      cases hr : (epsonMakeContig orig others).testBit p with
      | false => rfl
      | true =>
        rcases h.mp hr with h1 | ⟨h1, _⟩
        · rw [hv] at h1
          exact absurd h1 (by decide)
        · exact absurd h1 (Nat.not_lt_zero p)
  · intro fuel hf
    unfold epsonMakeContig
    exact epsonMakeContigLoop_bound_irrelevant others fuel _ _ _ hf (le_refl _)

/-- C17 witness: orig = 0xF000 (lowest set bit 12) against others = 0x07FF grows by bit 11
only, since bit 10 of others is set; orig = 0x001F, whose lowest set bit is bit 0, is
returned unchanged. -/
theorem epsonMakeContig_spec_witness :
    (0xF000 : Nat) < 2 ^ 32
    ∧ epsonMakeContig 0xF000 0x07FF = 0xF800
    ∧ ((epsonMakeContig 0xF000 0x07FF).testBit 11 = true ↔
        (Nat.testBit 0xF000 11 = true
          ∨ (11 < 12 ∧ ∀ j, 11 ≤ j → j < 12 → Nat.testBit 0x07FF j = false)))
    ∧ epsonMakeContig 0x001F 0xFFE0 = 0x001F :=
  ⟨by decide, by decide,
    ((epsonMakeContig_spec 0xF000 0x07FF (by decide)).2.1 12 (by decide) (by decide)).1 11,
    ((epsonMakeContig_spec 0x001F 0xFFE0 (by decide)).2.1 0 (by decide)
      (fun j hj => absurd hj (Nat.not_lt_zero j))).2 rfl⟩

/-- C13: epsonDPMS as a step on the cached mode. A request for the cached mode returns TRUE
and issues no ioctl. Otherwise the power-mode ioctl is attempted first with the mode, and the
blanking ioctl, with argument 0 for mode 0 and mode + 1 otherwise, only if the first fails;
the result is TRUE with the mode cached exactly when one of the two succeeds, and FALSE with
the cached mode unchanged when both fail. -/
theorem epsonDPMS_step (ioctl : DpmsIoctl → Bool) (oldmode mode : Int) :
    (mode = oldmode → epsonDPMS ioctl oldmode mode = (true, oldmode, []))
    ∧ (mode ≠ oldmode → ioctl (DpmsIoctl.FBIOPUT_POWERMODE mode) = true →
        epsonDPMS ioctl oldmode mode = (true, mode, [DpmsIoctl.FBIOPUT_POWERMODE mode]))
    ∧ (mode ≠ oldmode → ioctl (DpmsIoctl.FBIOPUT_POWERMODE mode) = false →
        (epsonDPMS ioctl oldmode mode).2.2
            = [DpmsIoctl.FBIOPUT_POWERMODE mode,
                DpmsIoctl.FBIOBLANK (if mode = 0 then 0 else mode + 1)]
          ∧ (ioctl (DpmsIoctl.FBIOBLANK (if mode = 0 then 0 else mode + 1)) = true →
              (epsonDPMS ioctl oldmode mode).1 = true
                ∧ (epsonDPMS ioctl oldmode mode).2.1 = mode)
          ∧ (ioctl (DpmsIoctl.FBIOBLANK (if mode = 0 then 0 else mode + 1)) = false →
              (epsonDPMS ioctl oldmode mode).1 = false
                ∧ (epsonDPMS ioctl oldmode mode).2.1 = oldmode))
    ∧ (mode ≠ oldmode →
        ((epsonDPMS ioctl oldmode mode).1 = true ↔
          (ioctl (DpmsIoctl.FBIOPUT_POWERMODE mode) = true
            ∨ ioctl (DpmsIoctl.FBIOBLANK (if mode = 0 then 0 else mode + 1)) = true))) := by
  have harg : (if mode ≠ 0 then mode + 1 else 0) = (if mode = 0 then 0 else mode + 1) := by
    by_cases h : mode = 0 <;> simp [h]
  unfold epsonDPMS
  rw [harg]
  refine ⟨?_, ?_, ?_, ?_⟩
  · intro h
    simp [h]
  · intro h hp
    simp [h, hp]
  · intro h hp
    rw [if_neg h]
    simp only [hp, Bool.false_eq_true, if_false]
    cases hb : ioctl (DpmsIoctl.FBIOBLANK (if mode = 0 then 0 else mode + 1)) <;> simp
  · intro h
    rw [if_neg h]
    cases hp : ioctl (DpmsIoctl.FBIOPUT_POWERMODE mode) <;>
      cases hb : ioctl (DpmsIoctl.FBIOBLANK (if mode = 0 then 0 else mode + 1)) <;> simp

/-- C13 witness: with oldmode = -1 and a device that refuses the power-mode request and
accepts blanking, mode 0 is sent as blanking argument 0 and mode 2 as 3; both are cached. A
repeated request for mode 2 issues nothing, and a device refusing both leaves oldmode alone. -/
theorem epsonDPMS_step_witness :
    epsonDPMS (fun r => match r with
        | DpmsIoctl.FBIOPUT_POWERMODE _ => false
        | DpmsIoctl.FBIOBLANK _ => true) (-1) 0
      = (true, 0, [DpmsIoctl.FBIOPUT_POWERMODE 0, DpmsIoctl.FBIOBLANK 0])
    ∧ epsonDPMS (fun r => match r with
        | DpmsIoctl.FBIOPUT_POWERMODE _ => false
        | DpmsIoctl.FBIOBLANK _ => true) 0 2
      = (true, 2, [DpmsIoctl.FBIOPUT_POWERMODE 2, DpmsIoctl.FBIOBLANK 3])
    ∧ epsonDPMS (fun _ => false) 2 2 = (true, 2, [])
    ∧ epsonDPMS (fun _ => false) 2 1
      = (false, 2, [DpmsIoctl.FBIOPUT_POWERMODE 1, DpmsIoctl.FBIOBLANK 2]) :=
  ⟨by decide, by decide, (epsonDPMS_step (fun _ => false) 2 2).1 rfl, by decide⟩

/-- An accepted epsonPrepareCopy returns the register window it found, after the wait, with
the raster operation programmed. -/
theorem epsonPrepareCopy_engine (e : Engine) (a : AccelState) (pSrc pDst : Pixmap)
    (xdir ydir : Int) (alu pm : Nat) :
    ((epsonPrepareCopy e a pSrc pDst xdir ydir alu pm).1 = true →
      (epsonPrepareCopy e a pSrc pDst xdir ydir alu pm).2.2
        = { epsonWaitForHwBltDone e with BLTROP := CARD8 (epson13806Rop.getD alu 0) })
    ∧ ((epsonPrepareCopy e a pSrc pDst xdir ydir alu pm).1 = false →
      (epsonPrepareCopy e a pSrc pDst xdir ydir alu pm).2.2 = e) := by
  unfold epsonPrepareCopy
  generalize (a.bpp <<< 3) % 2 ^ 32 = B
  by_cases h1 : pSrc.bitsPerPixel ≠ B ∨ pDst.bitsPerPixel ≠ B
  · simp [h1]
  · by_cases h3 : EXA_PM_IS_SOLID pDst.depth pm = true
    · by_cases h4 : exaGetPixmapPitch pSrc = exaGetPixmapPitch pDst
      · by_cases h5 : xdir < 0 ∧ ydir < 0
        · simp [h1, h3, h4, h5]
        · by_cases h6 : xdir > 0 ∧ ydir > 0
          · simp [h1, h3, h4, h5, h6]
          · simp [h1, h3, h4, h5, h6]
      · simp [h1, h3, h4]
    · simp [h1, h3]

/-- C16 counterexample: epsonDrawInit does not end with the engine idle. On an engine that
takes 5 polls for an operation it returns TRUE right after the write of ACTIVE that starts
the clearing fill, without a read of BLT control 0: the engine is still active. -/
theorem epsonDrawInit_returns_busy :
    ¬ (∀ (callocOk exaDriverInitOk : Bool) (e : Engine) (byteStride bitsPerPixel : Nat),
        (epsonDrawInit callocOk exaDriverInitOk e byteStride bitsPerPixel).2.2.busy = 0
        ∧ (readBLTCTRL0
            (epsonDrawInit callocOk exaDriverInitOk e byteStride bitsPerPixel).2.2).1
              &&& EPSON13806_BLTCTRL0_ACTIVE = 0) := by
  intro h
  have h1 := (h true true ⟨0, 0, none, 0, 0, 0, 0, 0, 0, 0, 0, 0, 0, 5⟩ 1600 16).1
  revert h1
  decide

/-- C16 (amended): the operations that wait end with the engine idle, whatever it was doing
at entry: an accepted epsonPrepareCopy, a non-empty epsonCopy (which writes ACTIVE and then
waits), epsonWaitMarker and epsonDrawEnable return an engine whose next read of BLT control 0
has ACTIVE clear. A refused epsonPrepareCopy, an empty epsonCopy and epsonDoneCopy leave the
register window as it was, so they keep an idle engine idle. The exception is epsonDrawInit:
once the private record is allocated its last register access is the write of ACTIVE, and it
returns with the engine running for its whole latency. -/
theorem accel_ops_engine_idle (e : Engine) (a : AccelState) :
    (∀ (pSrc pDst : Pixmap) (xdir ydir : Int) (alu pm : Nat),
        ((epsonPrepareCopy e a pSrc pDst xdir ydir alu pm).1 = true →
          (epsonPrepareCopy e a pSrc pDst xdir ydir alu pm).2.2.busy = 0
          ∧ (readBLTCTRL0 (epsonPrepareCopy e a pSrc pDst xdir ydir alu pm).2.2).1
              &&& EPSON13806_BLTCTRL0_ACTIVE = 0)
        ∧ ((epsonPrepareCopy e a pSrc pDst xdir ydir alu pm).1 = false →
          (epsonPrepareCopy e a pSrc pDst xdir ydir alu pm).2.2 = e))
    ∧ (∀ (pArg : Pixmap) (sx sy dx dy w h : Int) (r : Engine),
        epsonCopy e a pArg sx sy dx dy w h = some r →
          (w ≠ 0 → h ≠ 0 →
            r.busy = 0 ∧ (readBLTCTRL0 r).1 &&& EPSON13806_BLTCTRL0_ACTIVE = 0)
          ∧ ((w = 0 ∨ h = 0) → r = e))
    ∧ (∀ marker : Int, (epsonWaitMarker e marker).busy = 0
        ∧ (readBLTCTRL0 (epsonWaitMarker e marker)).1 &&& EPSON13806_BLTCTRL0_ACTIVE = 0)
    ∧ ((epsonDrawEnable e).busy = 0
        ∧ (readBLTCTRL0 (epsonDrawEnable e)).1 &&& EPSON13806_BLTCTRL0_ACTIVE = 0)
    ∧ (epsonDoneCopy e a).2 = e
    ∧ (∀ (exaDriverInitOk : Bool) (byteStride bitsPerPixel : Nat),
        (epsonDrawInit true exaDriverInitOk e byteStride bitsPerPixel).2.2.busy = e.latency
        ∧ (epsonDrawInit false exaDriverInitOk e byteStride bitsPerPixel).2.2 = e) := by
  have hidle : ∀ x : Engine, x.busy = 0 →
      (readBLTCTRL0 x).1 &&& EPSON13806_BLTCTRL0_ACTIVE = 0 := by
    intro x hx
    unfold readBLTCTRL0
    rw [if_pos hx]
    exact Nat.zero_and _
  refine ⟨?_, ?_, ?_, ?_, rfl, ?_⟩
  · intro pSrc pDst xdir ydir alu pm
    obtain ⟨hacc, hrej⟩ := epsonPrepareCopy_engine e a pSrc pDst xdir ydir alu pm
    refine ⟨?_, hrej⟩
    intro ht
    have hb : (epsonPrepareCopy e a pSrc pDst xdir ydir alu pm).2.2.busy = 0 := by
      rw [hacc ht, epsonWaitForHwBltDone_eq]
    exact ⟨hb, hidle _ hb⟩
  · intro pArg sx sy dx dy w h r hr
    refine ⟨?_, ?_⟩
    · intro hw hh
      have hw0 : ¬ (w = 0 ∨ h = 0) := by
        rintro (h1 | h1)
        · exact hw h1
        · exact hh h1
      unfold epsonCopy at hr
      rw [if_neg hw0] at hr
      have hb : r.busy = 0 := by
        split at hr
        · injection hr with hr
          rw [← hr, epsonWaitForHwBltDone_eq]
        · exact absurd hr (by simp)
      exact ⟨hb, hidle _ hb⟩
    · intro hz
      unfold epsonCopy at hr
      rw [if_pos hz] at hr
      injection hr with hr
      exact hr.symm
  · intro marker
    have hb : (epsonWaitMarker e marker).busy = 0 := by
      unfold epsonWaitMarker
      rw [epsonWaitForHwBltDone_eq]
    exact ⟨hb, hidle _ hb⟩
  · have hb : (epsonDrawEnable e).busy = 0 := by
      unfold epsonDrawEnable
      rw [epsonWaitForHwBltDone_eq]
    exact ⟨hb, hidle _ hb⟩
  · intro exaOk byteStride bitsPerPixel
    refine ⟨?_, ?_⟩
    · have hA : EPSON13806_BLTCTRL0_ACTIVE &&& EPSON13806_BLTCTRL0_ACTIVE ≠ 0 := by decide
      have h0 : ¬ ((0x00 : Nat) &&& EPSON13806_BLTCTRL0_ACTIVE ≠ 0) := by decide
      have hA2 : EPSON13806_BLTCTRL0_ACTIVE ≠ 0 := by decide
      cases exaOk <;> simp [epsonDrawInit, writeBLTCTRL0, hA, hA2, h0]
    · simp [epsonDrawInit]

/-- C16 witness: on an engine that is busy for 3 more polls and takes 5 polls per operation,
an accepted PrepareCopy, a 100 by 50 copy, WaitMarker and DrawEnable all return an idle
engine, while DrawInit returns with 5 polls still to go. -/
theorem accel_ops_engine_idle_witness :
    (epsonPrepareCopy ⟨0, 0, none, 0, 0, 0, 0, 0, 0, 0, 0, 0, 3, 5⟩ ⟨1600, 2, 0, none, none⟩
        ⟨16, 16, 1600, 0⟩ ⟨16, 16, 1600, 0⟩ 1 1 3 0xFFFF).2.2.busy = 0
    ∧ (epsonWaitMarker ⟨0, 0, none, 0, 0, 0, 0, 0, 0, 0, 0, 0, 3, 5⟩ 0).busy = 0
    ∧ (epsonDrawInit true true ⟨0, 0, none, 0, 0, 0, 0, 0, 0, 0, 0, 0, 3, 5⟩
        1600 16).2.2.busy = 5 :=
  ⟨(((accel_ops_engine_idle ⟨0, 0, none, 0, 0, 0, 0, 0, 0, 0, 0, 0, 3, 5⟩
        ⟨1600, 2, 0, none, none⟩).1 ⟨16, 16, 1600, 0⟩ ⟨16, 16, 1600, 0⟩ 1 1 3 0xFFFF).1
      (by decide)).1,
    ((accel_ops_engine_idle ⟨0, 0, none, 0, 0, 0, 0, 0, 0, 0, 0, 0, 3, 5⟩
        ⟨1600, 2, 0, none, none⟩).2.2.1 0).1,
    ((accel_ops_engine_idle ⟨0, 0, none, 0, 0, 0, 0, 0, 0, 0, 0, 0, 3, 5⟩
        ⟨1600, 2, 0, none, none⟩).2.2.2.2.2 true 1600 16).1⟩

/-- Powers of two commute with max. -/
theorem two_pow_max (a b : Nat) : 2 ^ max a b = max (2 ^ a) (2 ^ b) := by
  rcases le_total a b with h | h
  · have h2 : 2 ^ a ≤ 2 ^ b := Nat.pow_le_pow_right (by decide) h
    rw [max_eq_right h, max_eq_right h2]
  · have h2 : 2 ^ b ≤ 2 ^ a := Nat.pow_le_pow_right (by decide) h
    rw [max_eq_left h, max_eq_left h2]

/-- A channel length between 1 and 8 gives between 2 and 256 ramp entries. -/
theorem two_pow_length_bounds (l : Nat) (h1 : 1 ≤ l) (h8 : l ≤ 8) :
    2 ≤ 2 ^ l ∧ 2 ^ l ≤ 256 := by
  constructor
  · calc 2 = 2 ^ 1 := by decide
      _ ≤ 2 ^ l := Nat.pow_le_pow_right (by decide) h1
  · calc 2 ^ l ≤ 2 ^ 8 := Nat.pow_le_pow_right (by decide) h8
      _ = 256 := by decide

/-- The ramp loop of epsonEnable for channel lengths between 1 and 8, started at index i with
a sufficient iteration bound: it ends with i at the greatest of the three entry counts, has
set the entries from the starting index up to there to the 16-bit ramp values, and has left
all other entries and the request log alone. -/
theorem epsonEnableRamp_spec (var : fb_var_screeninfo)
    (hr1 : 1 ≤ var.red.length) (hr8 : var.red.length ≤ 8)
    (hg1 : 1 ≤ var.green.length) (hg8 : var.green.length ≤ 8)
    (hb1 : 1 ≤ var.blue.length) (hb8 : var.blue.length ≤ 8) :
    ∀ (fuel i : Nat) (priv : EpsonPriv),
      i ≤ 2 ^ max var.red.length (max var.green.length var.blue.length) →
      2 ^ max var.red.length (max var.green.length var.blue.length) - i < fuel →
      ∃ p, epsonEnableRamp var fuel i priv
            = some (p, 2 ^ max var.red.length (max var.green.length var.blue.length))
        ∧ p.putcmap = priv.putcmap
        ∧ ∀ j,
          p.red j = (if i ≤ j ∧ j < 2 ^ max var.red.length (max var.green.length var.blue.length)
              then CARD16 ((j * 65535 / (2 ^ var.red.length - 1) : Nat) : Int)
              else priv.red j)
          ∧ p.green j
            = (if i ≤ j ∧ j < 2 ^ max var.red.length (max var.green.length var.blue.length)
              then CARD16 ((j * 65535 / (2 ^ var.green.length - 1) : Nat) : Int)
              else priv.green j)
          ∧ p.blue j
            = (if i ≤ j ∧ j < 2 ^ max var.red.length (max var.green.length var.blue.length)
              then CARD16 ((j * 65535 / (2 ^ var.blue.length - 1) : Nat) : Int)
              else priv.blue j) := by
  obtain ⟨ha2, ha256⟩ := two_pow_length_bounds _ hr1 hr8
  obtain ⟨hb2, hb256⟩ := two_pow_length_bounds _ hg1 hg8
  obtain ⟨hc2, hc256⟩ := two_pow_length_bounds _ hb1 hb8
  have hM : 2 ^ max var.red.length (max var.green.length var.blue.length)
      = max (2 ^ var.red.length) (max (2 ^ var.green.length) (2 ^ var.blue.length)) := by
    rw [two_pow_max, two_pow_max]
  rw [hM]
  intro fuel
  induction fuel with
  | zero =>
    intro i priv _ hf
    omega
  | succ fuel ih =>
    intro i priv hi hf
    unfold epsonEnableRamp
    simp only [Nat.one_shiftLeft]
    by_cases hc : i < 2 ^ var.red.length ∨ i < 2 ^ var.green.length ∨ i < 2 ^ var.blue.length
    · have hlt : i < max (2 ^ var.red.length) (max (2 ^ var.green.length) (2 ^ var.blue.length)) := by
        omega
      have hdiv : ¬ (2 ^ var.red.length - 1 = 0 ∨ 2 ^ var.green.length - 1 = 0
          ∨ 2 ^ var.blue.length - 1 = 0) := by omega
      have h256 : ¬ (256 ≤ i) := by omega
      rw [if_pos hc, if_neg hdiv, if_neg h256]
      obtain ⟨p, hp, hlog, hval⟩ := ih (i + 1) _ (by omega) (by omega)
      refine ⟨p, hp, hlog, ?_⟩
      intro j
      obtain ⟨h1, h2, h3⟩ := hval j
      by_cases hji : j = i
      · subst hji
        have hn : ¬ (j + 1 ≤ j ∧ j < max (2 ^ var.red.length)
            (max (2 ^ var.green.length) (2 ^ var.blue.length))) := by omega
        have hy : j ≤ j ∧ j < max (2 ^ var.red.length)
            (max (2 ^ var.green.length) (2 ^ var.blue.length)) := ⟨le_refl _, hlt⟩
        rw [if_neg hn] at h1 h2 h3
        rw [if_pos hy, if_pos hy, if_pos hy, h1, h2, h3]
        simp only [Function.update_same, and_self]
      · have hiff : (i + 1 ≤ j ∧ j < max (2 ^ var.red.length)
            (max (2 ^ var.green.length) (2 ^ var.blue.length)))
            ↔ (i ≤ j ∧ j < max (2 ^ var.red.length)
              (max (2 ^ var.green.length) (2 ^ var.blue.length))) := by omega
        rw [h1, h2, h3]
        simp only [hiff, Function.update_noteq hji, and_self]
    · have hiM : i = max (2 ^ var.red.length) (max (2 ^ var.green.length) (2 ^ var.blue.length)) := by
        omega
      rw [if_neg hc]
      refine ⟨priv, by rw [← hiM], rfl, ?_⟩
      intro j
      have hn : ¬ (i ≤ j ∧ j < max (2 ^ var.red.length)
          (max (2 ^ var.green.length) (2 ^ var.blue.length))) := by omega
      rw [if_neg hn, if_neg hn, if_neg hn]
      exact ⟨rfl, rfl, rfl⟩

/-- Function epsonEnable on a DirectColor visual with channel lengths between 1 and 8, after
a successful FBIOPUT_VSCREENINFO: it returns TRUE, the LUT holds the 16-bit ramp values at
the indices below the greatest entry count and is unchanged elsewhere, and one request with
start 0 and a length of that count plus one has been issued. -/
theorem epsonEnable_directcolor (k : Int) (var : fb_var_screeninfo) (priv : EpsonPriv)
    (hk : 0 ≤ k)
    (hr1 : 1 ≤ var.red.length) (hr8 : var.red.length ≤ 8)
    (hg1 : 1 ≤ var.green.length) (hg8 : var.green.length ≤ 8)
    (hb1 : 1 ≤ var.blue.length) (hb8 : var.blue.length ≤ 8) :
    ∃ p, epsonEnable k FB_VISUAL_DIRECTCOLOR var priv = some (true, p)
      ∧ p.putcmap = priv.putcmap
          ++ [{ start := 0,
                len := 2 ^ max var.red.length (max var.green.length var.blue.length) + 1 }]
      ∧ ∀ j,
        p.red j = (if j < 2 ^ max var.red.length (max var.green.length var.blue.length)
            then CARD16 ((j * 65535 / (2 ^ var.red.length - 1) : Nat) : Int)
            else priv.red j)
        ∧ p.green j = (if j < 2 ^ max var.red.length (max var.green.length var.blue.length)
            then CARD16 ((j * 65535 / (2 ^ var.green.length - 1) : Nat) : Int)
            else priv.green j)
        ∧ p.blue j = (if j < 2 ^ max var.red.length (max var.green.length var.blue.length)
            then CARD16 ((j * 65535 / (2 ^ var.blue.length - 1) : Nat) : Int)
            else priv.blue j) := by
  have hMle : 2 ^ max var.red.length (max var.green.length var.blue.length) ≤ 256 := by
    have h8 : max var.red.length (max var.green.length var.blue.length) ≤ 8 := by omega
    calc 2 ^ max var.red.length (max var.green.length var.blue.length)
        ≤ 2 ^ 8 := Nat.pow_le_pow_right (by decide) h8
      _ = 256 := by decide
  obtain ⟨p, hp, hlog, hval⟩ :=
    epsonEnableRamp_spec var hr1 hr8 hg1 hg8 hb1 hb8 257 0 priv (Nat.zero_le _) (by omega)
  have hk2 : ¬ k < 0 := by omega
  refine ⟨epsonUpdateFbColormap p 0
      (2 ^ max var.red.length (max var.green.length var.blue.length) : Nat), ?_, ?_, ?_⟩
  · unfold epsonEnable
    rw [if_neg hk2, if_pos rfl, hp]
  · unfold epsonUpdateFbColormap
    simp only [hlog]
    have e1 : CARD32 0 = 0 := by decide
    have e2 : ∀ M : Nat, M ≤ 256 → CARD32 ((M : Int) - 0 + 1) = M + 1 := by
      intro M hM
      unfold CARD32
      omega
    rw [e1, e2 _ hMle]
  · intro j
    obtain ⟨h1, h2, h3⟩ := hval j
    simp only [Nat.zero_le, true_and] at h1 h2 h3
    exact ⟨h1, h2, h3⟩

/-- A ramp value within the range of its channel fits 16 bits. -/
theorem ramp_value_le (l i : Nat) (h1 : 1 ≤ l) (hi : i < 2 ^ l) :
    i * 65535 / (2 ^ l - 1) ≤ 65535 := by
  have hpos : 2 ≤ 2 ^ l := by
    calc 2 = 2 ^ 1 := by decide
      _ ≤ 2 ^ l := Nat.pow_le_pow_right (by decide) h1
  apply Nat.div_le_of_le_mul
  have : i ≤ 2 ^ l - 1 := by omega
  calc i * 65535 ≤ (2 ^ l - 1) * 65535 := Nat.mul_le_mul_right _ this

/-- C12 counterexample: on a 5-6-5 DirectColor panel the loop runs to index 63, and the red
entry 32 does not hold 32 * 65535 / 31 = 67649, which no 16-bit entry can: it holds 2113,
the value truncated to 16 bits. -/
theorem epsonEnable_ramp_truncates :
    ¬ (∀ (k : Int) (var : fb_var_screeninfo) (priv p : EpsonPriv) (i : Nat),
        epsonEnable k FB_VISUAL_DIRECTCOLOR var priv = some (true, p) →
        (i < 1 <<< var.red.length ∨ i < 1 <<< var.green.length ∨ i < 1 <<< var.blue.length) →
          p.red i = i * 65535 / ((1 <<< var.red.length) - 1)
          ∧ p.green i = i * 65535 / ((1 <<< var.green.length) - 1)
          ∧ p.blue i = i * 65535 / ((1 <<< var.blue.length) - 1)) := by
  intro hall
  obtain ⟨p, hp, _, hval⟩ :=
    epsonEnable_directcolor 0 ⟨800, 600, 16, ⟨11, 5⟩, ⟨5, 6⟩, ⟨0, 5⟩⟩
      ⟨fun _ => 0, fun _ => 0, fun _ => 0, []⟩ (by decide) (by decide) (by decide)
      (by decide) (by decide) (by decide) (by decide)
  have h1 := (hall 0 ⟨800, 600, 16, ⟨11, 5⟩, ⟨5, 6⟩, ⟨0, 5⟩⟩
    ⟨fun _ => 0, fun _ => 0, fun _ => 0, []⟩ p 32 hp (Or.inr (Or.inl (by decide)))).1
  have h2 := (hval 32).1
  rw [h1] at h2
  revert h2
  decide

/-- C12 (amended): on a DirectColor visual with channel lengths between 1 and 8, after a
successful FBIOPUT_VSCREENINFO, epsonEnable returns TRUE and, for every index i it writes
(those below the greatest of the three entry counts) and each channel c, the 16-bit entry
c[i] holds i * 65535 / ((1 << bits(c)) - 1) truncated to 16 bits; for i < (1 << bits(c)),
and so at every written index of the widest channel, that is the quotient itself. -/
theorem epsonEnable_ramp_values (k : Int) (var : fb_var_screeninfo) (priv : EpsonPriv)
    (hk : 0 ≤ k)
    (hr1 : 1 ≤ var.red.length) (hr8 : var.red.length ≤ 8)
    (hg1 : 1 ≤ var.green.length) (hg8 : var.green.length ≤ 8)
    (hb1 : 1 ≤ var.blue.length) (hb8 : var.blue.length ≤ 8) :
    ∃ p, epsonEnable k FB_VISUAL_DIRECTCOLOR var priv = some (true, p)
      ∧ ∀ i, (i < 1 <<< var.red.length ∨ i < 1 <<< var.green.length
              ∨ i < 1 <<< var.blue.length) →
        (p.red i = (i * 65535 / ((1 <<< var.red.length) - 1)) % 2 ^ 16
          ∧ (i < 1 <<< var.red.length → p.red i = i * 65535 / ((1 <<< var.red.length) - 1)))
        ∧ (p.green i = (i * 65535 / ((1 <<< var.green.length) - 1)) % 2 ^ 16
          ∧ (i < 1 <<< var.green.length →
              p.green i = i * 65535 / ((1 <<< var.green.length) - 1)))
        ∧ (p.blue i = (i * 65535 / ((1 <<< var.blue.length) - 1)) % 2 ^ 16
          ∧ (i < 1 <<< var.blue.length →
              p.blue i = i * 65535 / ((1 <<< var.blue.length) - 1))) := by
  obtain ⟨p, hp, _, hval⟩ := epsonEnable_directcolor k var priv hk hr1 hr8 hg1 hg8 hb1 hb8
  refine ⟨p, hp, ?_⟩
  simp only [Nat.one_shiftLeft]
  intro i hi
  have hM : 2 ^ max var.red.length (max var.green.length var.blue.length)
      = max (2 ^ var.red.length) (max (2 ^ var.green.length) (2 ^ var.blue.length)) := by
    rw [two_pow_max, two_pow_max]
  have hlt : i < 2 ^ max var.red.length (max var.green.length var.blue.length) := by
    rw [hM]
    omega
  obtain ⟨h1, h2, h3⟩ := hval i
  rw [if_pos hlt] at h1 h2 h3
  have hc : ∀ n : Nat, CARD16 (n : Int) = n % 2 ^ 16 := by
    intro n
    unfold CARD16
    omega
  rw [hc] at h1 h2 h3
  refine ⟨⟨h1, ?_⟩, ⟨h2, ?_⟩, ⟨h3, ?_⟩⟩
  · intro hlt2
    rw [h1]
    apply Nat.mod_eq_of_lt
    have := ramp_value_le var.red.length i hr1 hlt2
    omega
  · intro hlt2
    rw [h2]
    apply Nat.mod_eq_of_lt
    have := ramp_value_le var.green.length i hg1 hlt2
    omega
  · intro hlt2
    rw [h3]
    apply Nat.mod_eq_of_lt
    have := ramp_value_le var.blue.length i hb1 hlt2
    omega

/-- C12 witness: on a 5-6-5 panel red[31] = 65535, green[63] = 65535 and entry 0 of every
channel is 0. -/
theorem epsonEnable_ramp_values_witness :
    ∃ p, epsonEnable 0 FB_VISUAL_DIRECTCOLOR ⟨800, 600, 16, ⟨11, 5⟩, ⟨5, 6⟩, ⟨0, 5⟩⟩
          ⟨fun _ => 0, fun _ => 0, fun _ => 0, []⟩ = some (true, p)
      ∧ p.red 31 = 65535 ∧ p.green 63 = 65535
      ∧ p.red 0 = 0 ∧ p.green 0 = 0 ∧ p.blue 0 = 0 := by
  obtain ⟨p, hp, hval⟩ :=
    epsonEnable_ramp_values 0 ⟨800, 600, 16, ⟨11, 5⟩, ⟨5, 6⟩, ⟨0, 5⟩⟩
      ⟨fun _ => 0, fun _ => 0, fun _ => 0, []⟩ (by decide) (by decide) (by decide)
      (by decide) (by decide) (by decide) (by decide)
  refine ⟨p, hp, ?_, ?_, ?_, ?_, ?_⟩
  · exact (hval 31 (Or.inl (by decide))).1.2 (by decide)
  · exact (hval 63 (Or.inr (Or.inl (by decide)))).2.1.2 (by decide)
  · exact (hval 0 (Or.inl (by decide))).1.2 (by decide)
  · exact (hval 0 (Or.inl (by decide))).2.1.2 (by decide)
  · exact (hval 0 (Or.inl (by decide))).2.2.2 (by decide)

/-- C18: on a DirectColor visual with channel lengths r, g, b between 1 and 8 (the lengths a
256-entry LUT can hold), after a successful FBIOPUT_VSCREENINFO, epsonEnable changes the LUT
only at the indices 0 .. 2^max(r,g,b) - 1, where it stores the ramp, and then issues one
put_cmap with start = 0 and len = 2^max(r,g,b) + 1: the range ends at index 2^max(r,g,b),
one entry past the last entry of the ramp, which for an 8-bit channel is index 256, past the
end of the 256-entry LUT. -/
theorem epsonEnable_pushes_one_past (k : Int) (var : fb_var_screeninfo) (priv : EpsonPriv)
    (hk : 0 ≤ k)
    (hr1 : 1 ≤ var.red.length) (hr8 : var.red.length ≤ 8)
    (hg1 : 1 ≤ var.green.length) (hg8 : var.green.length ≤ 8)
    (hb1 : 1 ≤ var.blue.length) (hb8 : var.blue.length ≤ 8) :
    ∃ p, epsonEnable k FB_VISUAL_DIRECTCOLOR var priv = some (true, p)
      ∧ (∀ j, j < 2 ^ max var.red.length (max var.green.length var.blue.length) →
          p.red j = CARD16 ((j * 65535 / ((1 <<< var.red.length) - 1) : Nat) : Int)
          ∧ p.green j = CARD16 ((j * 65535 / ((1 <<< var.green.length) - 1) : Nat) : Int)
          ∧ p.blue j = CARD16 ((j * 65535 / ((1 <<< var.blue.length) - 1) : Nat) : Int))
      ∧ (∀ j, 2 ^ max var.red.length (max var.green.length var.blue.length) ≤ j →
          p.red j = priv.red j ∧ p.green j = priv.green j ∧ p.blue j = priv.blue j)
      ∧ p.putcmap = priv.putcmap
          ++ [{ start := 0,
                len := 2 ^ max var.red.length (max var.green.length var.blue.length) + 1 }]
      ∧ (max var.red.length (max var.green.length var.blue.length) = 8 →
          p.putcmap = priv.putcmap ++ [{ start := 0, len := 257 }]) := by
  obtain ⟨p, hp, hlog, hval⟩ := epsonEnable_directcolor k var priv hk hr1 hr8 hg1 hg8 hb1 hb8
  refine ⟨p, hp, ?_, ?_, hlog, ?_⟩
  · intro j hj
    obtain ⟨h1, h2, h3⟩ := hval j
    rw [if_pos hj] at h1 h2 h3
    simp only [Nat.one_shiftLeft]
    exact ⟨h1, h2, h3⟩
  · intro j hj
    obtain ⟨h1, h2, h3⟩ := hval j
    have hn : ¬ j < 2 ^ max var.red.length (max var.green.length var.blue.length) := by omega
    rw [if_neg hn] at h1 h2 h3
    exact ⟨h1, h2, h3⟩
  · intro h8
    rw [hlog, h8]
    rfl

/-- C18 witness: on an 8-8-8 DirectColor panel the single put_cmap has start 0 and length
257, naming index 256; on a 5-6-5 panel it has length 65 while the ramp ends at index 63. -/
theorem epsonEnable_pushes_one_past_witness :
    (∃ p, epsonEnable 0 FB_VISUAL_DIRECTCOLOR ⟨800, 600, 32, ⟨16, 8⟩, ⟨8, 8⟩, ⟨0, 8⟩⟩
          ⟨fun _ => 0, fun _ => 0, fun _ => 0, []⟩ = some (true, p)
        ∧ p.putcmap = [{ start := 0, len := 257 }])
    ∧ (∃ p, epsonEnable 0 FB_VISUAL_DIRECTCOLOR ⟨800, 600, 16, ⟨11, 5⟩, ⟨5, 6⟩, ⟨0, 5⟩⟩
          ⟨fun _ => 0, fun _ => 0, fun _ => 0, []⟩ = some (true, p)
        ∧ p.putcmap = [{ start := 0, len := 65 }]
        ∧ p.green 64 = 0) := by
  constructor
  · obtain ⟨p, hp, _, _, _, h8⟩ :=
      epsonEnable_pushes_one_past 0 ⟨800, 600, 32, ⟨16, 8⟩, ⟨8, 8⟩, ⟨0, 8⟩⟩
        ⟨fun _ => 0, fun _ => 0, fun _ => 0, []⟩ (by decide) (by decide) (by decide)
        (by decide) (by decide) (by decide) (by decide)
    exact ⟨p, hp, h8 (by decide)⟩
  · obtain ⟨p, hp, _, hout, hlog, _⟩ :=
      epsonEnable_pushes_one_past 0 ⟨800, 600, 16, ⟨11, 5⟩, ⟨5, 6⟩, ⟨0, 5⟩⟩
        ⟨fun _ => 0, fun _ => 0, fun _ => 0, []⟩ (by decide) (by decide) (by decide)
        (by decide) (by decide) (by decide) (by decide)
    exact ⟨p, hp, hlog, (hout 64 (by decide)).2.1⟩

/-- The index range found by the loop of epsonPutColors is the one found by the loop of
epsonGetColors on the same entries. -/
theorem epsonPutColorsLoop_range (pdefs : List xColorItem) :
    ∀ (priv : EpsonPriv) (mn mx : Int),
      (epsonPutColorsLoop pdefs priv mn mx).2 = epsonGetColorsRange pdefs mn mx := by
  induction pdefs with
  | nil => intro priv mn mx; rfl
  | cons d rest ih =>
    intro priv mn mx
    simp only [epsonPutColorsLoop, epsonGetColorsRange]
    exact ih _ _ _

/-- The index range found by epsonGetColors depends on the pixel indices only. -/
theorem epsonGetColorsRange_congr (q : List xColorItem) :
    ∀ (p : List xColorItem) (mn mx : Int),
      q.map (fun d => d.pixel) = p.map (fun d => d.pixel) →
        epsonGetColorsRange q mn mx = epsonGetColorsRange p mn mx := by
  induction q with
  | nil =>
    intro p mn mx h
    cases p with
    | nil => rfl
    | cons a p => simp at h
  | cons d q ih =>
    intro p mn mx h
    cases p with
    | nil => simp at h
    | cons a p =>
      simp only [List.map_cons, List.cons.injEq] at h
      simp only [epsonGetColorsRange, h.1]
      exact ih p _ _ h.2

/-- For a non-empty list of changes with indices up to 255 the range found by epsonPutColors
is min .. max with min <= max <= 255. -/
theorem epsonPutColorsLoop_bounds (priv : EpsonPriv) (pdefs : List xColorItem)
    (hne : pdefs ≠ []) (hidx : ∀ d ∈ pdefs, d.pixel ≤ 255) :
    ∃ mn mx : Nat, mn ≤ mx ∧ mx ≤ 255
      ∧ (epsonPutColorsLoop pdefs priv 256 0).2.1 = (mn : Int)
      ∧ (epsonPutColorsLoop pdefs priv 256 0).2.2 = (mx : Int)
      ∧ ∀ d ∈ pdefs, mn ≤ d.pixel ∧ d.pixel ≤ mx := by
  obtain ⟨_, _, _, ⟨_, hmin2, hmin3⟩, ⟨_, hmax2, hmax3⟩⟩ :=
    epsonPutColorsLoop_spec pdefs priv 256 0
  obtain ⟨d1, hd1⟩ := List.exists_mem_of_ne_nil pdefs hne
  have hd1idx := hidx d1 hd1
  obtain ⟨dmin, hdmin, hminEq⟩ : ∃ d ∈ pdefs,
      (epsonPutColorsLoop pdefs priv 256 0).2.1 = (d.pixel : Int) := by
    rcases hmin3 with h | h
    · have := hmin2 d1 hd1
      omega
    · exact h
  obtain ⟨dmax, hdmax, hmaxEq⟩ : ∃ d ∈ pdefs,
      (epsonPutColorsLoop pdefs priv 256 0).2.2 = (d.pixel : Int) := by
    rcases hmax3 with h | h
    · refine ⟨d1, hd1, ?_⟩
      have := hmax2 d1 hd1
      omega
    · exact h
  have h1 := hmin2 dmax hdmax
  have h2 := hidx dmax hdmax
  refine ⟨dmin.pixel, dmax.pixel, by omega, h2, hminEq, hmaxEq, ?_⟩
  intro d hd
  have h3 := hmin2 d hd
  have h4 := hmax2 d hd
  omega

/-- Filling the colours of a query from a LUT that holds, at the index of every entry of
pdefs, the colours of that entry returns pdefs when the query names the same indices. -/
theorem fill_from_lut (f g b : Nat → Nat) (pdefs : List xColorItem)
    (h : ∀ d ∈ pdefs, f d.pixel = d.red ∧ g d.pixel = d.green ∧ b d.pixel = d.blue) :
    ∀ query : List xColorItem,
      query.map (fun d => d.pixel) = pdefs.map (fun d => d.pixel) →
        query.map (fun d => ({ d with red := f d.pixel, green := g d.pixel,
                                      blue := b d.pixel } : xColorItem)) = pdefs := by
  induction pdefs with
  | nil =>
    intro query hq
    cases query with
    | nil => rfl
    | cons a q => simp at hq
  | cons d rest ih =>
    intro query hq
    cases query with
    | nil => simp at hq
    | cons a q =>
      simp only [List.map_cons, List.cons.injEq] at hq
      obtain ⟨h1, h2, h3⟩ := h d (List.mem_cons_self _ _)
      have hrest := ih (fun e he => h e (List.mem_cons_of_mem _ he)) q hq.2
      simp only [List.map_cons, hrest, hq.1, h1, h2, h3]

/-- With pairwise distinct indices every entry of pdefs is the last one naming its index. -/
theorem last_entry_of_nodup (pdefs : List xColorItem)
    (hnd : (pdefs.map (fun d => d.pixel)).Nodup) (d : xColorItem) (hd : d ∈ pdefs) :
    ∃ pre post, pdefs = pre ++ d :: post ∧ ∀ e ∈ post, e.pixel ≠ d.pixel := by
  obtain ⟨pre, post, hsplit⟩ := List.append_of_mem hd
  refine ⟨pre, post, hsplit, ?_⟩
  intro e he heq
  rw [hsplit, List.map_append, List.map_cons] at hnd
  have h2 := (List.nodup_append.mp hnd).2.1
  have h3 := (List.nodup_cons.mp h2).1
  apply h3
  rw [← heq]
  exact List.mem_map_of_mem _ he

/-- What epsonPutColors leaves behind for a non-empty list of changes with indices up to
255: the LUT of its loop and one more request, for the range min .. max. -/
theorem epsonPutColors_request (priv : EpsonPriv) (pdefs : List xColorItem)
    (hne : pdefs ≠ []) (hidx : ∀ d ∈ pdefs, d.pixel ≤ 255) :
    ∃ mn mx : Nat, mn ≤ mx ∧ mx ≤ 255
      ∧ epsonGetColorsRange pdefs 256 0 = ((mn : Int), (mx : Int))
      ∧ (epsonPutColors priv pdefs).putcmap.getLast? = some { start := mn, len := mx - mn + 1 }
      ∧ (epsonPutColors priv pdefs).red = (epsonPutColorsLoop pdefs priv 256 0).1.red
      ∧ (epsonPutColors priv pdefs).green = (epsonPutColorsLoop pdefs priv 256 0).1.green
      ∧ (epsonPutColors priv pdefs).blue = (epsonPutColorsLoop pdefs priv 256 0).1.blue := by
  obtain ⟨mn, mx, hle, h255, hmin, hmax, _⟩ := epsonPutColorsLoop_bounds priv pdefs hne hidx
  refine ⟨mn, mx, hle, h255, ?_, ?_, rfl, rfl, rfl⟩
  · rw [← epsonPutColorsLoop_range pdefs priv 256 0]
    exact Prod.ext hmin hmax
  · unfold epsonPutColors epsonUpdateFbColormap
    simp only [hmin, hmax, List.getLast?_concat]
    have e1 : CARD32 (mn : Int) = mn := by
      unfold CARD32
      omega
    have e2 : CARD32 ((mx : Int) - (mn : Int) + 1) = mx - mn + 1 := by
      unfold CARD32
      omega
    rw [e1, e2]

/-- C11: round trip through a device that stores what put_cmap writes and returns it on
get_cmap. For a set S of colormap entries with indices in 0..255 (no index named twice),
epsonPutColors(S) followed by epsonGetColors on the indices of S returns exactly the (red,
green, blue) triples of S, whatever the colours in the query and the earlier contents of the
device and of the cached LUT were. -/
theorem epsonPutColors_GetColors_roundtrip (dev : FbDevice) (priv : EpsonPriv)
    (pdefs query : List xColorItem)
    (hidx : ∀ d ∈ pdefs, d.pixel ≤ 255)
    (hnd : (pdefs.map (fun d => d.pixel)).Nodup)
    (hq : query.map (fun d => d.pixel) = pdefs.map (fun d => d.pixel)) :
    (epsonGetColors (deviceAfterPut dev (epsonPutColors priv pdefs))
        (epsonPutColors priv pdefs) query).2 = pdefs := by
  by_cases hne : pdefs = []
  · subst hne
    have hq2 : query = [] := by
      simpa using hq
    subst hq2
    simp only [epsonGetColors]
    split <;> rfl
  · obtain ⟨mn, mx, hle, h255, hrange, hlast, hred, hgreen, hblue⟩ :=
      epsonPutColors_request priv pdefs hne hidx
    obtain ⟨_, _, hlw, _, _⟩ := epsonPutColorsLoop_spec pdefs priv 256 0
    have hfit : mn + (mx - mn + 1) ≤ 256 := by omega
    have hrq : epsonGetColorsRange query 256 0 = ((mn : Int), (mx : Int)) := by
      rw [epsonGetColorsRange_congr query pdefs 256 0 hq]
      exact hrange
    have e1 : CARD32 (mn : Int) = mn := by
      unfold CARD32
      omega
    have e2 : CARD32 ((mx : Int) - (mn : Int) + 1) = mx - mn + 1 := by
      unfold CARD32
      omega
    -- the colours the cache holds after epsonPutColors
    have hcache : ∀ d ∈ pdefs,
        (epsonPutColors priv pdefs).red d.pixel = d.red
        ∧ (epsonPutColors priv pdefs).green d.pixel = d.green
        ∧ (epsonPutColors priv pdefs).blue d.pixel = d.blue := by
      intro d hd
      obtain ⟨pre, post, hsplit, hpost⟩ := last_entry_of_nodup pdefs hnd d hd
      rw [hred, hgreen, hblue]
      exact hlw pre d post hsplit hpost
    unfold epsonGetColors deviceAfterPut
    simp only [hrq, e1, e2, hlast, FBIOPUTCMAP, FBIOGETCMAP, if_pos hfit, Option.getD_some]
    refine fill_from_lut
      (fun i => if mn ≤ i ∧ i < mn + (mx - mn + 1) then
          (if mn ≤ i ∧ i < mn + (mx - mn + 1) then (epsonPutColors priv pdefs).red i
            else dev.red i)
        else (epsonPutColors priv pdefs).red i)
      (fun i => if mn ≤ i ∧ i < mn + (mx - mn + 1) then
          (if mn ≤ i ∧ i < mn + (mx - mn + 1) then (epsonPutColors priv pdefs).green i
            else dev.green i)
        else (epsonPutColors priv pdefs).green i)
      (fun i => if mn ≤ i ∧ i < mn + (mx - mn + 1) then
          (if mn ≤ i ∧ i < mn + (mx - mn + 1) then (epsonPutColors priv pdefs).blue i
            else dev.blue i)
        else (epsonPutColors priv pdefs).blue i)
      pdefs ?_ query hq
    intro d hd
    obtain ⟨h1, h2, h3⟩ := hcache d hd
    by_cases hc : mn ≤ d.pixel ∧ d.pixel < mn + (mx - mn + 1)
    · simp only [hc, and_self, if_true]
      exact ⟨h1, h2, h3⟩
    · simp only [hc, if_false]
      exact ⟨h1, h2, h3⟩

/-- C11 witness: changes at the indices 5 and 200, then a query for 5 and 200 with colours
still blank, on a device and a cache holding other values: the query comes back with the
triples of the changes. -/
theorem epsonPutColors_GetColors_roundtrip_witness :
    (epsonGetColors
        (deviceAfterPut ⟨fun _ => 7, fun _ => 8, fun _ => 9⟩
          (epsonPutColors ⟨fun _ => 1, fun _ => 2, fun _ => 3, []⟩
            [⟨5, 100, 200, 300⟩, ⟨200, 400, 500, 600⟩]))
        (epsonPutColors ⟨fun _ => 1, fun _ => 2, fun _ => 3, []⟩
          [⟨5, 100, 200, 300⟩, ⟨200, 400, 500, 600⟩])
        [⟨5, 0, 0, 0⟩, ⟨200, 0, 0, 0⟩]).2
      = [⟨5, 100, 200, 300⟩, ⟨200, 400, 500, 600⟩] :=
  epsonPutColors_GetColors_roundtrip ⟨fun _ => 7, fun _ => 8, fun _ => 9⟩
    ⟨fun _ => 1, fun _ => 2, fun _ => 3, []⟩
    [⟨5, 100, 200, 300⟩, ⟨200, 400, 500, 600⟩] [⟨5, 0, 0, 0⟩, ⟨200, 0, 0, 0⟩]
    (by decide) (by decide) (by decide)

/-- The rotation composed by KdAddRotation on the four plain rotations: addition of angles. -/
theorem KdAddRotation_table :
    KdAddRotation RR_Rotate_0 RR_Rotate_90 = RR_Rotate_90
    ∧ KdAddRotation RR_Rotate_90 RR_Rotate_90 = RR_Rotate_180
    ∧ KdAddRotation RR_Rotate_90 RR_Rotate_270 = RR_Rotate_0
    ∧ KdAddRotation RR_Rotate_180 RR_Rotate_270 = RR_Rotate_90
    ∧ KdAddRotation RR_Rotate_270 RR_Rotate_270 = RR_Rotate_180 := by
  decide

/-- The state epsonMapFramebuffer returns, field by field: the shadow flag is recomputed from
the rotation, the physical size is read from priv->var, and nothing else of the driver
record, the host screen, the enabled flag or the armed update routine changes. -/
theorem epsonMapFramebuffer_fields (allocOk : Bool) (st : RandRState) :
    (epsonMapFramebuffer allocOk st).2.scrpriv.randr = st.scrpriv.randr
    ∧ (epsonMapFramebuffer allocOk st).2.scrpriv.shadow
        = (if st.scrpriv.randr ≠ RR_Rotate_0 then true else false)
    ∧ (epsonMapFramebuffer allocOk st).2.pScreen = st.pScreen
    ∧ (epsonMapFramebuffer allocOk st).2.enabled = st.enabled
    ∧ (epsonMapFramebuffer allocOk st).2.copier = st.copier
    ∧ (epsonMapFramebuffer allocOk st).2.var = st.var
    ∧ (epsonMapFramebuffer allocOk st).2.line_length = st.line_length
    ∧ (epsonMapFramebuffer allocOk st).2.screen.randr = st.screen.randr
    ∧ (epsonMapFramebuffer allocOk st).2.screen.width_mm = st.screen.width_mm
    ∧ (epsonMapFramebuffer allocOk st).2.screen.height_mm = st.screen.height_mm
    ∧ (epsonMapFramebuffer allocOk st).2.screen.width = st.var.xres
    ∧ (epsonMapFramebuffer allocOk st).2.screen.height = st.var.yres := by
  unfold epsonMapFramebuffer KdShadowFbAlloc
  by_cases hs : st.scrpriv.randr ≠ RR_Rotate_0
  · cases allocOk <;> simp [hs]
  · simp [hs]

/-- Function epsonUnmapFramebuffer only releases the shadow surface. -/
theorem epsonUnmapFramebuffer_fields (st : RandRState) :
    (epsonUnmapFramebuffer st).2.scrpriv = st.scrpriv
    ∧ (epsonUnmapFramebuffer st).2.pScreen = st.pScreen
    ∧ (epsonUnmapFramebuffer st).2.enabled = st.enabled
    ∧ (epsonUnmapFramebuffer st).2.copier = st.copier
    ∧ (epsonUnmapFramebuffer st).2.var = st.var
    ∧ (epsonUnmapFramebuffer st).2.line_length = st.line_length
    ∧ (epsonUnmapFramebuffer st).2.screen.randr = st.screen.randr
    ∧ (epsonUnmapFramebuffer st).2.screen.width_mm = st.screen.width_mm
    ∧ (epsonUnmapFramebuffer st).2.screen.height_mm = st.screen.height_mm := by
  unfold epsonUnmapFramebuffer KdShadowFbFree
  refine ⟨rfl, rfl, rfl, rfl, rfl, rfl, ?_, ?_, ?_⟩ <;> (simp only; split <;> rfl)

/-- Function epsonSetShadow on the state only changes the armed update routine, which after
a success is the routine chosen for the current rotation and pixel size. -/
theorem epsonSetShadowOn_fields
    (KdShadowSet : Nat → ShadowUpdateProc → ShadowWindowProc → Bool) (arm : Bool)
    (st : RandRState) :
    (epsonSetShadowOn KdShadowSet arm st).2.scrpriv = st.scrpriv
    ∧ (epsonSetShadowOn KdShadowSet arm st).2.pScreen = st.pScreen
    ∧ (epsonSetShadowOn KdShadowSet arm st).2.enabled = st.enabled
    ∧ (epsonSetShadowOn KdShadowSet arm st).2.var = st.var
    ∧ (epsonSetShadowOn KdShadowSet arm st).2.line_length = st.line_length
    ∧ (epsonSetShadowOn KdShadowSet arm st).2.screen = st.screen
    ∧ ((epsonSetShadowOn KdShadowSet arm st).1 = true →
        (epsonSetShadowOn KdShadowSet arm st).2.copier
          = some (epsonSetShadowUpdate arm st.scrpriv.randr st.var.bits_per_pixel)) := by
  unfold epsonSetShadowOn
  split
  · exact ⟨rfl, rfl, rfl, rfl, rfl, rfl, fun _ => rfl⟩
  · refine ⟨rfl, rfl, rfl, rfl, rfl, rfl, ?_⟩
    intro h
    simp at h

/-- The rollback block bail4, field by field: it returns FALSE with the rotation of the
driver record put back (and the shadow flag recomputed from it), the host screen overwritten
with the four saved values, and the screen enabled again if it was enabled. -/
theorem epsonRandRSetConfig_bail4_fields (allocOk : Bool) (st : RandRState)
    (oldscr : EpsonScrPriv) (ow oh omw omh : Nat) (wasEnabled : Bool) :
    (epsonRandRSetConfig_bail4 allocOk st oldscr ow oh omw omh wasEnabled).1 = false
    ∧ (epsonRandRSetConfig_bail4 allocOk st oldscr ow oh omw omh wasEnabled).2.scrpriv.randr
        = oldscr.randr
    ∧ (epsonRandRSetConfig_bail4 allocOk st oldscr ow oh omw omh wasEnabled).2.scrpriv.shadow
        = (if oldscr.randr ≠ RR_Rotate_0 then true else false)
    ∧ (epsonRandRSetConfig_bail4 allocOk st oldscr ow oh omw omh wasEnabled).2.pScreen
        = { width := ow, height := oh, mmWidth := omw, mmHeight := omh }
    ∧ (epsonRandRSetConfig_bail4 allocOk st oldscr ow oh omw omh wasEnabled).2.enabled
        = (if wasEnabled = true then true else st.enabled) := by
  obtain ⟨h1, h2, _, h4, _⟩ := epsonMapFramebuffer_fields allocOk
    { (epsonUnmapFramebuffer st).2 with scrpriv := oldscr }
  unfold epsonRandRSetConfig_bail4
  cases wasEnabled
  · exact ⟨rfl, h1, h2, rfl, h4⟩
  · exact ⟨rfl, h1, h2, rfl, rfl⟩

/-- A failing epsonRandRSetConfig, field by field: the rotation of the driver record, the
size in millimetres of the host screen and the enabled flag are those from before the call,
and the shadow flag is the one that belongs to the old rotation; the width and height
written to the host screen are the physical width and height screen->width and
screen->height, which is what the function saved. -/
theorem epsonRandRSetConfig_failure (arm allocOk rollbackAllocOk : Bool)
    (KdShadowSet : Nat → ShadowUpdateProc → ShadowWindowProc → Bool)
    (st : RandRState) (randr : Nat) (rate : Int) (pSize : RRScreenSize)
    (hfail : (epsonRandRSetConfig arm allocOk rollbackAllocOk KdShadowSet st randr rate
        pSize).1 = false) :
    (epsonRandRSetConfig arm allocOk rollbackAllocOk KdShadowSet st randr rate
        pSize).2.scrpriv.randr = st.scrpriv.randr
    ∧ (epsonRandRSetConfig arm allocOk rollbackAllocOk KdShadowSet st randr rate
        pSize).2.scrpriv.shadow = (if st.scrpriv.randr ≠ RR_Rotate_0 then true else false)
    ∧ (epsonRandRSetConfig arm allocOk rollbackAllocOk KdShadowSet st randr rate
        pSize).2.pScreen
        = { width := st.screen.width, height := st.screen.height,
            mmWidth := st.pScreen.mmWidth, mmHeight := st.pScreen.mmHeight }
    ∧ (epsonRandRSetConfig arm allocOk rollbackAllocOk KdShadowSet st randr rate
        pSize).2.enabled = st.enabled := by
  generalize hR : epsonRandRSetConfig arm allocOk rollbackAllocOk KdShadowSet st randr rate
    pSize = R at hfail ⊢
  unfold epsonRandRSetConfig at hR
  cases hen : st.enabled
  · simp only [hen, Bool.false_eq_true, if_false] at hR
    split at hR
    · subst hR
      refine ⟨(epsonRandRSetConfig_bail4_fields _ _ _ _ _ _ _ _).2.1,
        (epsonRandRSetConfig_bail4_fields _ _ _ _ _ _ _ _).2.2.1,
        (epsonRandRSetConfig_bail4_fields _ _ _ _ _ _ _ _).2.2.2.1,
        (epsonRandRSetConfig_bail4_fields _ _ _ _ _ _ _ _).2.2.2.2.trans ?_⟩
      simp only [Bool.false_eq_true, if_false]
      rw [(epsonMapFramebuffer_fields _ _).2.2.2.1, (epsonUnmapFramebuffer_fields _).2.2.1]
    · split at hR
      · subst hR
        refine ⟨(epsonRandRSetConfig_bail4_fields _ _ _ _ _ _ _ _).2.1,
          (epsonRandRSetConfig_bail4_fields _ _ _ _ _ _ _ _).2.2.1,
          (epsonRandRSetConfig_bail4_fields _ _ _ _ _ _ _ _).2.2.2.1,
          (epsonRandRSetConfig_bail4_fields _ _ _ _ _ _ _ _).2.2.2.2.trans ?_⟩
        simp only [Bool.false_eq_true, if_false]
        rw [(epsonSetShadowOn_fields _ _ _).2.2.1]
        show (epsonMapFramebuffer _ _).2.enabled = _
        rw [(epsonMapFramebuffer_fields _ _).2.2.2.1, (epsonUnmapFramebuffer_fields _).2.2.1]
      · subst hR
        exact absurd hfail (by simp)
  · simp only [hen, if_true] at hR
    split at hR
    · subst hR
      exact ⟨(epsonRandRSetConfig_bail4_fields _ _ _ _ _ _ _ _).2.1,
        (epsonRandRSetConfig_bail4_fields _ _ _ _ _ _ _ _).2.2.1,
        (epsonRandRSetConfig_bail4_fields _ _ _ _ _ _ _ _).2.2.2.1,
        (epsonRandRSetConfig_bail4_fields _ _ _ _ _ _ _ _).2.2.2.2⟩
    · split at hR
      · subst hR
        exact ⟨(epsonRandRSetConfig_bail4_fields _ _ _ _ _ _ _ _).2.1,
          (epsonRandRSetConfig_bail4_fields _ _ _ _ _ _ _ _).2.2.1,
          (epsonRandRSetConfig_bail4_fields _ _ _ _ _ _ _ _).2.2.2.1,
          (epsonRandRSetConfig_bail4_fields _ _ _ _ _ _ _ _).2.2.2.2⟩
      · subst hR
        exact absurd hfail (by simp)

/-- Function epsonSetScreenSizes only writes the host screen: the panel size and the size in
millimetres as they are for rotations of 0 and 180 degrees, swapped otherwise. -/
theorem epsonSetScreenSizes_fields (st : RandRState) :
    (epsonSetScreenSizes st).scrpriv = st.scrpriv
    ∧ (epsonSetScreenSizes st).copier = st.copier
    ∧ (epsonSetScreenSizes st).enabled = st.enabled
    ∧ (epsonSetScreenSizes st).var = st.var
    ∧ (epsonSetScreenSizes st).screen = st.screen
    ∧ (epsonSetScreenSizes st).pScreen
        = (if st.scrpriv.randr &&& (RR_Rotate_0 ||| RR_Rotate_180) ≠ 0 then
            { width := st.var.xres, height := st.var.yres,
              mmWidth := st.screen.width_mm, mmHeight := st.screen.height_mm }
          else
            { width := st.var.yres, height := st.var.xres,
              mmWidth := st.screen.height_mm, mmHeight := st.screen.width_mm }) := by
  unfold epsonSetScreenSizes
  split
  · exact ⟨rfl, rfl, rfl, rfl, rfl, rfl⟩
  · exact ⟨rfl, rfl, rfl, rfl, rfl, rfl⟩

/-- The state in which the new configuration of epsonRandRSetConfig is set up, after the
re-map and the installation of the update routine: its fields in terms of the state before
the call. -/
theorem epsonRandRSetConfig_installed (arm allocOk : Bool)
    (KdShadowSet : Nat → ShadowUpdateProc → ShadowWindowProc → Bool)
    (st0 : RandRState) (newr : Nat) :
    (epsonSetShadowOn KdShadowSet arm (KdShadowUnset (epsonMapFramebuffer allocOk
        (epsonUnmapFramebuffer
          { st0 with scrpriv := { st0.scrpriv with randr := newr } }).2).2)).2.scrpriv.randr
      = newr
    ∧ (epsonSetShadowOn KdShadowSet arm (KdShadowUnset (epsonMapFramebuffer allocOk
        (epsonUnmapFramebuffer
          { st0 with scrpriv := { st0.scrpriv with randr := newr } }).2).2)).2.scrpriv.shadow
      = (if newr ≠ RR_Rotate_0 then true else false)
    ∧ (epsonSetShadowOn KdShadowSet arm (KdShadowUnset (epsonMapFramebuffer allocOk
        (epsonUnmapFramebuffer
          { st0 with scrpriv := { st0.scrpriv with randr := newr } }).2).2)).2.var = st0.var
    ∧ (epsonSetShadowOn KdShadowSet arm (KdShadowUnset (epsonMapFramebuffer allocOk
        (epsonUnmapFramebuffer
          { st0 with scrpriv := { st0.scrpriv with randr := newr } }).2).2)).2.enabled
      = st0.enabled
    ∧ (epsonSetShadowOn KdShadowSet arm (KdShadowUnset (epsonMapFramebuffer allocOk
        (epsonUnmapFramebuffer
          { st0 with scrpriv := { st0.scrpriv with randr := newr } }).2).2)).2.screen.randr
      = st0.screen.randr
    ∧ (epsonSetShadowOn KdShadowSet arm (KdShadowUnset (epsonMapFramebuffer allocOk
        (epsonUnmapFramebuffer
          { st0 with scrpriv := { st0.scrpriv with randr := newr } }).2).2)).2.screen.width_mm
      = st0.screen.width_mm
    ∧ (epsonSetShadowOn KdShadowSet arm (KdShadowUnset (epsonMapFramebuffer allocOk
        (epsonUnmapFramebuffer
          { st0 with scrpriv := { st0.scrpriv with randr := newr } }).2).2)).2.screen.height_mm
      = st0.screen.height_mm
    ∧ ((epsonSetShadowOn KdShadowSet arm (KdShadowUnset (epsonMapFramebuffer allocOk
        (epsonUnmapFramebuffer
          { st0 with scrpriv := { st0.scrpriv with randr := newr } }).2).2)).1 = true →
        (epsonSetShadowOn KdShadowSet arm (KdShadowUnset (epsonMapFramebuffer allocOk
          (epsonUnmapFramebuffer
            { st0 with scrpriv := { st0.scrpriv with randr := newr } }).2).2)).2.copier
        = some (epsonSetShadowUpdate arm newr st0.var.bits_per_pixel)) := by
  obtain ⟨u1, _, u3, _, u5, _, u7, u8, u9⟩ := epsonUnmapFramebuffer_fields
    { st0 with scrpriv := { st0.scrpriv with randr := newr } }
  obtain ⟨m1, m2, _, m4, _, m6, _, m8, m9, m10, _, _⟩ := epsonMapFramebuffer_fields allocOk
    (epsonUnmapFramebuffer { st0 with scrpriv := { st0.scrpriv with randr := newr } }).2
  obtain ⟨s1, _, s3, s4, _, s6, s7⟩ := epsonSetShadowOn_fields KdShadowSet arm
    (KdShadowUnset (epsonMapFramebuffer allocOk
      (epsonUnmapFramebuffer { st0 with scrpriv := { st0.scrpriv with randr := newr } }).2).2)
  have hr : (epsonMapFramebuffer allocOk (epsonUnmapFramebuffer
      { st0 with scrpriv := { st0.scrpriv with randr := newr } }).2).2.scrpriv.randr = newr := by
    rw [m1, u1]
  have hv : (epsonMapFramebuffer allocOk (epsonUnmapFramebuffer
      { st0 with scrpriv := { st0.scrpriv with randr := newr } }).2).2.var = st0.var := by
    rw [m6, u5]
  refine ⟨?_, ?_, ?_, ?_, ?_, ?_, ?_, ?_⟩
  · rw [s1]
    exact hr
  · rw [s1]
    show (epsonMapFramebuffer _ _).2.scrpriv.shadow = _
    rw [m2, u1]
  · rw [s4]
    exact hv
  · rw [s3]
    show (epsonMapFramebuffer _ _).2.enabled = _
    rw [m4, u3]
  · rw [s6]
    show (epsonMapFramebuffer _ _).2.screen.randr = _
    rw [m8, u7]
  · rw [s6]
    show (epsonMapFramebuffer _ _).2.screen.width_mm = _
    rw [m9, u8]
  · rw [s6]
    show (epsonMapFramebuffer _ _).2.screen.height_mm = _
    rw [m10, u9]
  · intro hok
    rw [s7 hok]
    show some (epsonSetShadowUpdate arm (epsonMapFramebuffer _ _).2.scrpriv.randr
      (epsonMapFramebuffer _ _).2.var.bits_per_pixel) = _
    rw [hr, hv]

/-- A successful epsonRandRSetConfig, field by field: the rotation is the requested one
composed with the base rotation screen->randr, and the shadow flag, the armed update routine
and the logical size of the host screen are the ones that belong to that rotation; the
panel mode, the base rotation, the size in millimetres of the panel and the enabled flag are
unchanged. -/
theorem epsonRandRSetConfig_success (arm allocOk rollbackAllocOk : Bool)
    (KdShadowSet : Nat → ShadowUpdateProc → ShadowWindowProc → Bool)
    (st : RandRState) (randr : Nat) (rate : Int) (pSize : RRScreenSize)
    (hok : (epsonRandRSetConfig arm allocOk rollbackAllocOk KdShadowSet st randr rate
        pSize).1 = true) :
    (epsonRandRSetConfig arm allocOk rollbackAllocOk KdShadowSet st randr rate
        pSize).2.scrpriv.randr = KdAddRotation st.screen.randr randr
    ∧ (epsonRandRSetConfig arm allocOk rollbackAllocOk KdShadowSet st randr rate
        pSize).2.scrpriv.shadow
        = (if KdAddRotation st.screen.randr randr ≠ RR_Rotate_0 then true else false)
    ∧ (epsonRandRSetConfig arm allocOk rollbackAllocOk KdShadowSet st randr rate
        pSize).2.copier
        = some (epsonSetShadowUpdate arm (KdAddRotation st.screen.randr randr)
            st.var.bits_per_pixel)
    ∧ (epsonRandRSetConfig arm allocOk rollbackAllocOk KdShadowSet st randr rate
        pSize).2.pScreen
        = (if KdAddRotation st.screen.randr randr &&& (RR_Rotate_0 ||| RR_Rotate_180) ≠ 0 then
            { width := st.var.xres, height := st.var.yres,
              mmWidth := st.screen.width_mm, mmHeight := st.screen.height_mm }
          else
            { width := st.var.yres, height := st.var.xres,
              mmWidth := st.screen.height_mm, mmHeight := st.screen.width_mm })
    ∧ (epsonRandRSetConfig arm allocOk rollbackAllocOk KdShadowSet st randr rate
        pSize).2.enabled = st.enabled
    ∧ (epsonRandRSetConfig arm allocOk rollbackAllocOk KdShadowSet st randr rate
        pSize).2.var = st.var
    ∧ (epsonRandRSetConfig arm allocOk rollbackAllocOk KdShadowSet st randr rate
        pSize).2.screen.randr = st.screen.randr
    ∧ (epsonRandRSetConfig arm allocOk rollbackAllocOk KdShadowSet st randr rate
        pSize).2.screen.width_mm = st.screen.width_mm
    ∧ (epsonRandRSetConfig arm allocOk rollbackAllocOk KdShadowSet st randr rate
        pSize).2.screen.height_mm = st.screen.height_mm := by
  generalize hR : epsonRandRSetConfig arm allocOk rollbackAllocOk KdShadowSet st randr rate
    pSize = R at hok ⊢
  unfold epsonRandRSetConfig at hR
  simp only at hR
  have hst0 : (if st.enabled = true then KdDisableScreen st else st).screen = st.screen
      ∧ (if st.enabled = true then KdDisableScreen st else st).var = st.var
      ∧ (st.enabled = false →
          (if st.enabled = true then KdDisableScreen st else st).enabled = false) := by
    cases hs : st.enabled
    · exact ⟨rfl, rfl, fun _ => hs⟩
    · exact ⟨rfl, rfl, fun h => absurd h (by decide)⟩
  generalize (if st.enabled = true then KdDisableScreen st else st) = st0 at hR hst0
  obtain ⟨f1, f2, f3⟩ := hst0
  split at hR
  · subst hR
    exact absurd hok (by simp [(epsonRandRSetConfig_bail4_fields _ _ _ _ _ _ _ _).1])
  · split at hR
    · subst hR
      exact absurd hok (by simp [(epsonRandRSetConfig_bail4_fields _ _ _ _ _ _ _ _).1])
    · rename_i hm hs
      have hs2 : (epsonSetShadowOn KdShadowSet arm (KdShadowUnset (epsonMapFramebuffer allocOk
          (epsonUnmapFramebuffer
            { st0 with scrpriv := { st0.scrpriv with
                randr := KdAddRotation st0.screen.randr randr } }).2).2)).1 = true := by
        simpa using hs
      obtain ⟨i1, i2, i3, i4, i5, i6, i7, i8⟩ := epsonRandRSetConfig_installed arm allocOk
        KdShadowSet st0 (KdAddRotation st0.screen.randr randr)
      have i8b := i8 hs2
      obtain ⟨z1, z2, z3, z4, z5, z6⟩ := epsonSetScreenSizes_fields
        (epsonSetShadowOn KdShadowSet arm (KdShadowUnset (epsonMapFramebuffer allocOk
          (epsonUnmapFramebuffer
            { st0 with scrpriv := { st0.scrpriv with
                randr := KdAddRotation st0.screen.randr randr } }).2).2)).2
      rw [i1, i3, i6, i7] at z6
      replace z6 := z6.trans (by rw [f1, f2])
      replace i1 := i1.trans (by rw [f1])
      replace i2 := i2.trans (by rw [f1])
      replace i3 := i3.trans f2
      replace i5 := i5.trans (by rw [f1])
      replace i6 := i6.trans (by rw [f1])
      replace i7 := i7.trans (by rw [f1])
      replace i8b := i8b.trans (by rw [f1, f2])
      subst hR
      cases hen : st.enabled
      · simp only [Bool.false_eq_true, if_false]
        refine ⟨?_, ?_, ?_, ?_, ?_, ?_, ?_, ?_, ?_⟩
        · show (epsonSetScreenSizes _).scrpriv.randr = _
          rw [z1]
          exact i1
        · show (epsonSetScreenSizes _).scrpriv.shadow = _
          rw [z1]
          exact i2
        · show (epsonSetScreenSizes _).copier = _
          rw [z2]
          exact i8b
        · show (epsonSetScreenSizes _).pScreen = _
          exact z6
        · show (epsonSetScreenSizes _).enabled = _
          rw [z3, i4]
          exact f3 hen
        · show (epsonSetScreenSizes _).var = _
          rw [z4]
          exact i3
        · show (epsonSetScreenSizes _).screen.randr = _
          rw [z5]
          exact i5
        · show (epsonSetScreenSizes _).screen.width_mm = _
          rw [z5]
          exact i6
        · show (epsonSetScreenSizes _).screen.height_mm = _
          rw [z5]
          exact i7
      · simp only [if_true, KdEnableScreen]
        refine ⟨?_, ?_, ?_, ?_, trivial, ?_, ?_, ?_, ?_⟩
        · show (epsonSetScreenSizes _).scrpriv.randr = _
          rw [z1]
          exact i1
        · show (epsonSetScreenSizes _).scrpriv.shadow = _
          rw [z1]
          exact i2
        · show (epsonSetScreenSizes _).copier = _
          rw [z2]
          exact i8b
        · show (epsonSetScreenSizes _).pScreen = _
          exact z6
        · show (epsonSetScreenSizes _).var = _
          rw [z4]
          exact i3
        · show (epsonSetScreenSizes _).screen.randr = _
          rw [z5]
          exact i5
        · show (epsonSetScreenSizes _).screen.width_mm = _
          rw [z5]
          exact i6
        · show (epsonSetScreenSizes _).screen.height_mm = _
          rw [z5]
          exact i7

/-- C14: the rollback of epsonRandRSetConfig from a rotated start. The start is the state a
successful Set(90 degrees) leaves on the 800 by 600 boot state, where the host screen is 600
by 800. A following Set(180 degrees) whose re-map fails, or whose copier installation fails,
returns FALSE with the driver record (rotation, shadow flag), the millimetre size and the
enabled flag as before the call, but with the host screen 800 by 600: the saved values are
screen->width and screen->height, the physical size, not the logical size of the host
screen. -/
theorem epsonRandRSetConfig_rollback_from_rotated :
    (epsonRandRSetConfig false true true (fun _ _ _ => true) bootState RR_Rotate_90 60
        ⟨800, 600⟩).1 = true
    ∧ (epsonRandRSetConfig false true true (fun _ _ _ => true) bootState RR_Rotate_90 60
        ⟨800, 600⟩).2.pScreen = ⟨600, 800, 203, 270⟩
    ∧ (epsonRandRSetConfig false true true (fun _ _ _ => true) bootState RR_Rotate_90 60
        ⟨800, 600⟩).2.scrpriv = ⟨RR_Rotate_90, true⟩
    ∧ (epsonRandRSetConfig false true true (fun _ _ _ => true) bootState RR_Rotate_90 60
        ⟨800, 600⟩).2.enabled = true
    -- the re-map fails
    ∧ (epsonRandRSetConfig false false true (fun _ _ _ => true)
        (epsonRandRSetConfig false true true (fun _ _ _ => true) bootState RR_Rotate_90 60
          ⟨800, 600⟩).2 RR_Rotate_180 60 ⟨800, 600⟩).1 = false
    ∧ (epsonRandRSetConfig false false true (fun _ _ _ => true)
        (epsonRandRSetConfig false true true (fun _ _ _ => true) bootState RR_Rotate_90 60
          ⟨800, 600⟩).2 RR_Rotate_180 60 ⟨800, 600⟩).2.scrpriv = ⟨RR_Rotate_90, true⟩
    ∧ (epsonRandRSetConfig false false true (fun _ _ _ => true)
        (epsonRandRSetConfig false true true (fun _ _ _ => true) bootState RR_Rotate_90 60
          ⟨800, 600⟩).2 RR_Rotate_180 60 ⟨800, 600⟩).2.enabled = true
    ∧ (epsonRandRSetConfig false false true (fun _ _ _ => true)
        (epsonRandRSetConfig false true true (fun _ _ _ => true) bootState RR_Rotate_90 60
          ⟨800, 600⟩).2 RR_Rotate_180 60 ⟨800, 600⟩).2.pScreen = ⟨800, 600, 203, 270⟩
    -- the copier installation fails
    ∧ (epsonRandRSetConfig false true true (fun _ _ _ => false)
        (epsonRandRSetConfig false true true (fun _ _ _ => true) bootState RR_Rotate_90 60
          ⟨800, 600⟩).2 RR_Rotate_180 60 ⟨800, 600⟩).1 = false
    ∧ (epsonRandRSetConfig false true true (fun _ _ _ => false)
        (epsonRandRSetConfig false true true (fun _ _ _ => true) bootState RR_Rotate_90 60
          ⟨800, 600⟩).2 RR_Rotate_180 60 ⟨800, 600⟩).2.pScreen = ⟨800, 600, 203, 270⟩ := by
  decide

/-- C15 counterexample: Set(r) followed by Set of the inverse rotation does not return to the
starting state. From the unrotated boot state, Set(90 degrees) and then Set(270 degrees),
both succeeding, end with a host screen of 600 by 800 and the shadow in use, where the start
was 800 by 600 without shadow. -/
theorem epsonRandRSetConfig_inverse_not_roundtrip :
    ¬ (∀ (arm a1 b1 a2 b2 : Bool)
        (K1 K2 : Nat → ShadowUpdateProc → ShadowWindowProc → Bool)
        (st : RandRState) (r : Nat) (rate : Int) (pSize : RRScreenSize),
        (r = RR_Rotate_0 ∨ r = RR_Rotate_90 ∨ r = RR_Rotate_180 ∨ r = RR_Rotate_270) →
        (epsonRandRSetConfig arm a1 b1 K1 st r rate pSize).1 = true →
        (epsonRandRSetConfig arm a2 b2 K2 (epsonRandRSetConfig arm a1 b1 K1 st r rate pSize).2
          (inverseRotation r) rate pSize).1 = true →
        semanticState (epsonRandRSetConfig arm a2 b2 K2
            (epsonRandRSetConfig arm a1 b1 K1 st r rate pSize).2
            (inverseRotation r) rate pSize).2
          = semanticState st) := by
  intro h
  have h1 := h false true true true true (fun _ _ _ => true) (fun _ _ _ => true) bootState
    RR_Rotate_90 60 ⟨800, 600⟩ (Or.inr (Or.inl rfl)) (by decide) (by decide)
  revert h1
  decide

/-- The part of the state a successful epsonRandRSetConfig leaves that the round trip is
about, as a function of the requested rotation and of what the call does not change. -/
theorem epsonRandRSetConfig_semanticState (arm allocOk rollbackAllocOk : Bool)
    (KdShadowSet : Nat → ShadowUpdateProc → ShadowWindowProc → Bool)
    (st : RandRState) (randr : Nat) (rate : Int) (pSize : RRScreenSize)
    (hok : (epsonRandRSetConfig arm allocOk rollbackAllocOk KdShadowSet st randr rate
        pSize).1 = true) :
    semanticState (epsonRandRSetConfig arm allocOk rollbackAllocOk KdShadowSet st randr rate
        pSize).2
      = ((if KdAddRotation st.screen.randr randr &&& (RR_Rotate_0 ||| RR_Rotate_180) ≠ 0 then
            st.var.xres else st.var.yres),
          (if KdAddRotation st.screen.randr randr &&& (RR_Rotate_0 ||| RR_Rotate_180) ≠ 0 then
            st.var.yres else st.var.xres),
          (if KdAddRotation st.screen.randr randr &&& (RR_Rotate_0 ||| RR_Rotate_180) ≠ 0 then
            st.screen.width_mm else st.screen.height_mm),
          (if KdAddRotation st.screen.randr randr &&& (RR_Rotate_0 ||| RR_Rotate_180) ≠ 0 then
            st.screen.height_mm else st.screen.width_mm),
          (if KdAddRotation st.screen.randr randr ≠ RR_Rotate_0 then true else false),
          some (epsonSetShadowUpdate arm (KdAddRotation st.screen.randr randr)
            st.var.bits_per_pixel)) := by
  obtain ⟨h1, h2, h3, h4, _⟩ := epsonRandRSetConfig_success arm allocOk rollbackAllocOk
    KdShadowSet st randr rate pSize hok
  unfold semanticState
  rw [h2, h3, h4]
  split <;> rfl

/-- Function epsonMapFramebuffer fails only when a shadow is needed and its allocation
fails. -/
theorem epsonMapFramebuffer_ok (allocOk : Bool) (st : RandRState) :
    (epsonMapFramebuffer allocOk st).1 = true
      ↔ (st.scrpriv.randr ≠ RR_Rotate_0 → allocOk = true) := by
  unfold epsonMapFramebuffer KdShadowFbAlloc
  by_cases hs : st.scrpriv.randr ≠ RR_Rotate_0
  · cases allocOk <;> simp [hs]
  · simp [hs]

/-- Function epsonSetShadow on the state returns what epsonSetShadow returns. -/
theorem epsonSetShadowOn_ok
    (KdShadowSet : Nat → ShadowUpdateProc → ShadowWindowProc → Bool) (arm : Bool)
    (st : RandRState) :
    (epsonSetShadowOn KdShadowSet arm st).1
      = epsonSetShadow KdShadowSet arm st.scrpriv.randr st.var.bits_per_pixel := by
  unfold epsonSetShadowOn
  split
  · rename_i h
    exact h.symm
  · rename_i h
    cases hv : epsonSetShadow KdShadowSet arm st.scrpriv.randr st.var.bits_per_pixel
    · rfl
    · exact absurd hv h

/-- When epsonRandRSetConfig succeeds: exactly when the shadow allocation succeeds if the
composed rotation needs a shadow, and the shadow layer accepts the update routine. The
condition depends on the state only through the base rotation and the pixel size. -/
theorem epsonRandRSetConfig_ok_iff (arm allocOk rollbackAllocOk : Bool)
    (KdShadowSet : Nat → ShadowUpdateProc → ShadowWindowProc → Bool)
    (st : RandRState) (randr : Nat) (rate : Int) (pSize : RRScreenSize) :
    (epsonRandRSetConfig arm allocOk rollbackAllocOk KdShadowSet st randr rate pSize).1 = true
      ↔ ((KdAddRotation st.screen.randr randr ≠ RR_Rotate_0 → allocOk = true)
          ∧ epsonSetShadow KdShadowSet arm (KdAddRotation st.screen.randr randr)
              st.var.bits_per_pixel = true) := by
  generalize hR : epsonRandRSetConfig arm allocOk rollbackAllocOk KdShadowSet st randr rate
    pSize = R
  unfold epsonRandRSetConfig at hR
  simp only at hR
  have hst0 : (if st.enabled = true then KdDisableScreen st else st).screen = st.screen
      ∧ (if st.enabled = true then KdDisableScreen st else st).var = st.var := by
    cases hs : st.enabled
    · exact ⟨rfl, rfl⟩
    · exact ⟨rfl, rfl⟩
  generalize (if st.enabled = true then KdDisableScreen st else st) = st0 at hR hst0
  obtain ⟨f1, f2⟩ := hst0
  have hm := epsonMapFramebuffer_ok allocOk (epsonUnmapFramebuffer
    { st0 with scrpriv := { st0.scrpriv with
        randr := KdAddRotation st0.screen.randr randr } }).2
  rw [(epsonUnmapFramebuffer_fields _).1] at hm
  simp only at hm
  have hs := epsonSetShadowOn_ok KdShadowSet arm (KdShadowUnset (epsonMapFramebuffer allocOk
    (epsonUnmapFramebuffer
      { st0 with scrpriv := { st0.scrpriv with
          randr := KdAddRotation st0.screen.randr randr } }).2).2)
  have e1 : (KdShadowUnset (epsonMapFramebuffer allocOk
    (epsonUnmapFramebuffer
      { st0 with scrpriv := { st0.scrpriv with
          randr := KdAddRotation st0.screen.randr randr } }).2).2).scrpriv.randr
      = KdAddRotation st0.screen.randr randr := by
    show (epsonMapFramebuffer _ _).2.scrpriv.randr = _
    rw [(epsonMapFramebuffer_fields _ _).1, (epsonUnmapFramebuffer_fields _).1]
  have e2 : (KdShadowUnset (epsonMapFramebuffer allocOk
    (epsonUnmapFramebuffer
      { st0 with scrpriv := { st0.scrpriv with
          randr := KdAddRotation st0.screen.randr randr } }).2).2).var = st0.var := by
    show (epsonMapFramebuffer _ _).2.var = _
    rw [(epsonMapFramebuffer_fields _ _).2.2.2.2.2.1, (epsonUnmapFramebuffer_fields _).2.2.2.2.1]
  rw [e1, e2] at hs
  replace hm : (epsonMapFramebuffer allocOk (epsonUnmapFramebuffer
      { st0 with scrpriv := { st0.scrpriv with
          randr := KdAddRotation st0.screen.randr randr } }).2).1 = true
      ↔ (KdAddRotation st.screen.randr randr ≠ RR_Rotate_0 → allocOk = true) := by
    rw [← f1]
    exact hm
  replace hs : (epsonSetShadowOn KdShadowSet arm (KdShadowUnset (epsonMapFramebuffer allocOk
      (epsonUnmapFramebuffer
        { st0 with scrpriv := { st0.scrpriv with
            randr := KdAddRotation st0.screen.randr randr } }).2).2)).1
      = epsonSetShadow KdShadowSet arm (KdAddRotation st.screen.randr randr)
          st.var.bits_per_pixel := by
    rw [← f1, ← f2]
    exact hs
  split at hR
  · rename_i hmf
    subst hR
    rw [(epsonRandRSetConfig_bail4_fields _ _ _ _ _ _ _ _).1]
    constructor
    · intro h
      exact absurd h (by decide)
    · intro h
      exact absurd (hm.2 h.1) hmf
  · rename_i hmt
    split at hR
    · rename_i hsf
      subst hR
      rw [(epsonRandRSetConfig_bail4_fields _ _ _ _ _ _ _ _).1]
      constructor
      · intro h
        exact absurd h (by decide)
      · intro h
        exact absurd (hs.trans h.2) hsf
    · rename_i hst
      subst hR
      constructor
      · intro _
        refine ⟨hm.1 (by simpa using hmt), ?_⟩
        rw [← hs]
        simpa using hst
      · intro _
        rfl

/-- C15 (amended): a requested rotation is composed with the fixed base rotation
screen->randr, not with the rotation in effect. After a successful Set(r) the current
rotation is compose(base, r). For every s, when a following Set(s) succeeds: the current
rotation is compose(base, s); Set(s) alone succeeds from the same start under the same
outcomes of the shadow allocation and of the shadow layer; the semantic state (logical width
and height, millimetre size, shadow flag, copier selection) is the one any successful Set(s)
alone leaves from the same start; and if the start was itself set up by a successful Set(s),
the semantic state is that of the start. In particular Set(r) followed by Set of the inverse
rotation ends in the state Set of the inverse rotation alone gives from the start. -/
theorem epsonRandRSetConfig_absolute (arm a1 b1 : Bool)
    (K1 : Nat → ShadowUpdateProc → ShadowWindowProc → Bool)
    (st : RandRState) (r : Nat) (rate1 : Int) (pSize1 : RRScreenSize)
    (h1 : (epsonRandRSetConfig arm a1 b1 K1 st r rate1 pSize1).1 = true) :
    (epsonRandRSetConfig arm a1 b1 K1 st r rate1 pSize1).2.scrpriv.randr
      = KdAddRotation st.screen.randr r
    ∧ (∀ (s : Nat) (a2 b2 : Bool) (K2 : Nat → ShadowUpdateProc → ShadowWindowProc → Bool)
        (rate2 : Int) (pSize2 : RRScreenSize),
        (epsonRandRSetConfig arm a2 b2 K2
          (epsonRandRSetConfig arm a1 b1 K1 st r rate1 pSize1).2 s rate2 pSize2).1 = true →
        (epsonRandRSetConfig arm a2 b2 K2
            (epsonRandRSetConfig arm a1 b1 K1 st r rate1 pSize1).2 s rate2
            pSize2).2.scrpriv.randr = KdAddRotation st.screen.randr s
        ∧ (epsonRandRSetConfig arm a2 b2 K2 st s rate2 pSize2).1 = true
        ∧ (∀ (a0 b0 : Bool) (K0 : Nat → ShadowUpdateProc → ShadowWindowProc → Bool)
            (rate0 : Int) (pSize0 : RRScreenSize),
            (epsonRandRSetConfig arm a0 b0 K0 st s rate0 pSize0).1 = true →
            semanticState (epsonRandRSetConfig arm a2 b2 K2
                (epsonRandRSetConfig arm a1 b1 K1 st r rate1 pSize1).2 s rate2 pSize2).2
              = semanticState (epsonRandRSetConfig arm a0 b0 K0 st s rate0 pSize0).2)
        ∧ (∀ (a0 b0 : Bool) (K0 : Nat → ShadowUpdateProc → ShadowWindowProc → Bool)
            (rate0 : Int) (pSize0 : RRScreenSize) (st' : RandRState),
            (epsonRandRSetConfig arm a0 b0 K0 st' s rate0 pSize0).1 = true →
            st = (epsonRandRSetConfig arm a0 b0 K0 st' s rate0 pSize0).2 →
            semanticState (epsonRandRSetConfig arm a2 b2 K2
                (epsonRandRSetConfig arm a1 b1 K1 st r rate1 pSize1).2 s rate2 pSize2).2
              = semanticState st))
    ∧ (∀ (a2 b2 : Bool) (K2 : Nat → ShadowUpdateProc → ShadowWindowProc → Bool)
        (rate2 : Int) (pSize2 : RRScreenSize),
        (epsonRandRSetConfig arm a2 b2 K2
          (epsonRandRSetConfig arm a1 b1 K1 st r rate1 pSize1).2 (inverseRotation r) rate2
          pSize2).1 = true →
        (epsonRandRSetConfig arm a2 b2 K2
            (epsonRandRSetConfig arm a1 b1 K1 st r rate1 pSize1).2 (inverseRotation r) rate2
            pSize2).2.scrpriv.randr = KdAddRotation st.screen.randr (inverseRotation r)
        ∧ (epsonRandRSetConfig arm a2 b2 K2 st (inverseRotation r) rate2 pSize2).1 = true
        ∧ semanticState (epsonRandRSetConfig arm a2 b2 K2
              (epsonRandRSetConfig arm a1 b1 K1 st r rate1 pSize1).2 (inverseRotation r) rate2
              pSize2).2
            = semanticState (epsonRandRSetConfig arm a2 b2 K2 st (inverseRotation r) rate2
                pSize2).2) := by
  obtain ⟨q1, _, _, _, _, v1, r1, w1, g1⟩ :=
    epsonRandRSetConfig_success arm a1 b1 K1 st r rate1 pSize1 h1
  have key : ∀ (s : Nat) (a2 b2 : Bool)
      (K2 : Nat → ShadowUpdateProc → ShadowWindowProc → Bool)
      (rate2 : Int) (pSize2 : RRScreenSize),
      (epsonRandRSetConfig arm a2 b2 K2
        (epsonRandRSetConfig arm a1 b1 K1 st r rate1 pSize1).2 s rate2 pSize2).1 = true →
      (epsonRandRSetConfig arm a2 b2 K2
          (epsonRandRSetConfig arm a1 b1 K1 st r rate1 pSize1).2 s rate2
          pSize2).2.scrpriv.randr = KdAddRotation st.screen.randr s
      ∧ (epsonRandRSetConfig arm a2 b2 K2 st s rate2 pSize2).1 = true
      ∧ (∀ (a0 b0 : Bool) (K0 : Nat → ShadowUpdateProc → ShadowWindowProc → Bool)
          (rate0 : Int) (pSize0 : RRScreenSize),
          (epsonRandRSetConfig arm a0 b0 K0 st s rate0 pSize0).1 = true →
          semanticState (epsonRandRSetConfig arm a2 b2 K2
              (epsonRandRSetConfig arm a1 b1 K1 st r rate1 pSize1).2 s rate2 pSize2).2
            = semanticState (epsonRandRSetConfig arm a0 b0 K0 st s rate0 pSize0).2) := by
    intro s a2 b2 K2 rate2 pSize2 h2
    obtain ⟨q2, _⟩ := epsonRandRSetConfig_success arm a2 b2 K2 _ s rate2 pSize2 h2
    refine ⟨?_, ?_, ?_⟩
    · rw [q2, r1]
    · have h2b := (epsonRandRSetConfig_ok_iff arm a2 b2 K2 _ s rate2 pSize2).1 h2
      rw [r1, v1] at h2b
      exact (epsonRandRSetConfig_ok_iff arm a2 b2 K2 st s rate2 pSize2).2 h2b
    · intro a0 b0 K0 rate0 pSize0 h0
      rw [epsonRandRSetConfig_semanticState arm a2 b2 K2 _ s rate2 pSize2 h2,
        epsonRandRSetConfig_semanticState arm a0 b0 K0 st s rate0 pSize0 h0,
        r1, v1, w1, g1]
  refine ⟨q1, ?_, ?_⟩
  · intro s a2 b2 K2 rate2 pSize2 h2
    obtain ⟨k1, k2, k3⟩ := key s a2 b2 K2 rate2 pSize2 h2
    refine ⟨k1, k2, k3, ?_⟩
    intro a0 b0 K0 rate0 pSize0 st' h0 hst
    obtain ⟨_, _, _, _, _, v0, r0, w0, g0⟩ :=
      epsonRandRSetConfig_success arm a0 b0 K0 st' s rate0 pSize0 h0
    rw [epsonRandRSetConfig_semanticState arm a2 b2 K2 _ s rate2 pSize2 h2, r1, v1, w1, g1]
    subst hst
    rw [epsonRandRSetConfig_semanticState arm a0 b0 K0 st' s rate0 pSize0 h0,
      r0, v0, w0, g0]
  · intro a2 b2 K2 rate2 pSize2 h2
    obtain ⟨k1, k2, k3⟩ := key (inverseRotation r) a2 b2 K2 rate2 pSize2 h2
    exact ⟨k1, k2, k3 a2 b2 K2 rate2 pSize2 k2⟩

/-- C15 witness: from the unrotated 800 by 600 start, Set(90 degrees) succeeds; a following
Set(0 degrees) leaves what Set(0 degrees) alone leaves, 800 by 600 without shadow, and a
following Set(270 degrees) leaves what Set(270 degrees) alone leaves, 600 by 800 with the
shadow in use. -/
theorem epsonRandRSetConfig_absolute_witness :
    (epsonRandRSetConfig false true true (fun _ _ _ => true) bootState RR_Rotate_90 60
        ⟨800, 600⟩).1 = true
    ∧ semanticState (epsonRandRSetConfig false true true (fun _ _ _ => true)
          (epsonRandRSetConfig false true true (fun _ _ _ => true) bootState RR_Rotate_90 60
            ⟨800, 600⟩).2 RR_Rotate_0 60 ⟨800, 600⟩).2
      = semanticState (epsonRandRSetConfig false true true (fun _ _ _ => true) bootState
          RR_Rotate_0 60 ⟨800, 600⟩).2
    ∧ semanticState (epsonRandRSetConfig false true true (fun _ _ _ => true) bootState
          RR_Rotate_0 60 ⟨800, 600⟩).2
      = (800, 600, 270, 203, false, some ShadowUpdateProc.shadowUpdateRotate16)
    ∧ semanticState (epsonRandRSetConfig false true true (fun _ _ _ => true)
          (epsonRandRSetConfig false true true (fun _ _ _ => true) bootState RR_Rotate_90 60
            ⟨800, 600⟩).2 (inverseRotation RR_Rotate_90) 60 ⟨800, 600⟩).2
      = semanticState (epsonRandRSetConfig false true true (fun _ _ _ => true) bootState
          (inverseRotation RR_Rotate_90) 60 ⟨800, 600⟩).2
    ∧ semanticState (epsonRandRSetConfig false true true (fun _ _ _ => true) bootState
          (inverseRotation RR_Rotate_90) 60 ⟨800, 600⟩).2
      = (600, 800, 203, 270, true, some ShadowUpdateProc.shadowUpdateRotate16_270) :=
  ⟨by decide,
    ((epsonRandRSetConfig_absolute false true true (fun _ _ _ => true) bootState RR_Rotate_90
      60 ⟨800, 600⟩ (by decide)).2.1 RR_Rotate_0 true true (fun _ _ _ => true) 60 ⟨800, 600⟩
      (by decide)).2.2.1 true true (fun _ _ _ => true) 60 ⟨800, 600⟩ (by decide),
    by decide,
    ((epsonRandRSetConfig_absolute false true true (fun _ _ _ => true) bootState RR_Rotate_90
      60 ⟨800, 600⟩ (by decide)).2.2 true true (fun _ _ _ => true) 60 ⟨800, 600⟩
      (by decide)).2.2,
    by decide⟩

end Epson13806
